import Mathlib

/-!
# RISC-V interrupt support: PLIC / CLINT driver

A shallow embedding of `bsps/riscv/riscv/irq/irq.c`.  Hardware registers are
explicit state and hold what was last written to them, pointers are optional
word addresses (`none` is `NULL`), 32-bit arithmetic is arithmetic on `Nat`
reduced modulo `2 ^ 32`, and code that can trap (a failed assertion, a `NULL`
dereference, an access outside an array, the fatal hook) returns in
`Except Fault`.  The claim/complete register, whose reads are answered by the
hardware, is a list of read values and a trace of events in the dispatch
routine.  The interrupt lock and the fence do not change the sequential
behaviour and are not state.

The function `_BSP_clear_hostbridge_errors` of
`c/src/lib/libbsp/powerpc/shared/pci/detect_raven_bridge.c` is embedded the
same way: the PCI status register of the host bridge is a list of read values
and a trace of events, and the function returns in `Option`, `none` when the
read values run out.
-/

namespace RiscvIrq

/-! ## Result types -/

/-- The status codes the driver returns. -/
inductive rtems_status_code
  | RTEMS_SUCCESSFUL
  | RTEMS_UNSATISFIED
  | RTEMS_INVALID_NUMBER
  deriving DecidableEq, Repr

/-- The fatal codes the driver passes to `bsp_fatal`. -/
inductive bsp_fatal_code
  | RISCV_FATAL_UNEXPECTED_INTERRUPT_EXCEPTION
  | RISCV_FATAL_NO_CLINT_REG_IN_DEVICE_TREE
  | RISCV_FATAL_NO_PLIC_REG_IN_DEVICE_TREE
  | RISCV_FATAL_INVALID_PLIC_NDEV_IN_DEVICE_TREE
  | RISCV_FATAL_TOO_LARGE_PLIC_NDEV_IN_DEVICE_TREE
  deriving DecidableEq, Repr

/-- Ways in which an operation does not return normally.  `bsp_fatal` never
returns; the other constructors are executions the C code leaves undefined, or
on which the model has no information. -/
inductive Fault
  | bsp_fatal (code : bsp_fatal_code)
  | assertion_failed
  | null_pointer
  | out_of_bounds
  | claim_reads_exhausted
  deriving DecidableEq, Repr

/-! ## Build configuration and kernel services

The headers that define the constants and macros used by `irq.c`
(`bsp/irq.h`, `bsp/riscv.h`, `rtems/score/riscv-utility.h`, the processor mask
and SMP services) are not part of the sources at hand, so they are taken as
parameters.
-/

/-- Constants, macros and kernel services that `irq.c` takes from headers
outside the file.  `ext_base` is the offset of the macro
`RISCV_INTERRUPT_VECTOR_EXTERNAL(x)`, `enable_words` the number of 32-bit words
of one hart context in `plic->enable[][]`. -/
structure Platform where
  RTEMS_SMP : Bool
  RTEMS_DEBUG : Bool
  RISCV_ENABLE_HTIF_SUPPORT : Bool
  xlen : Nat
  RISCV_INTERRUPT_SOFTWARE_MACHINE : Nat
  RISCV_INTERRUPT_TIMER_MACHINE : Nat
  RISCV_INTERRUPT_EXTERNAL_MACHINE : Nat
  RISCV_INTERRUPT_VECTOR_SOFTWARE : Nat
  RISCV_INTERRUPT_VECTOR_TIMER : Nat
  ext_base : Nat
  RISCV_MAXIMUM_EXTERNAL_INTERRUPTS : Nat
  BSP_INTERRUPT_VECTOR_COUNT : Nat
  MIP_MSIP : Nat
  MIP_MTIP : Nat
  MIP_MEIP : Nat
  enable_words : Nat
  RISCV_BOOT_HARTID : Nat
  maximum_processors : Nat
  processor_maximum : Nat
  online_processors : Finset Nat

/-- Reduction of a value to `uint32_t`. -/
def u32 (x : Nat) : Nat := x % 4294967296

/-- The macro `RISCV_INTERRUPT_VECTOR_EXTERNAL(x)`, on `uint32_t`. -/
def RISCV_INTERRUPT_VECTOR_EXTERNAL (P : Platform) (x : Nat) : Nat :=
  u32 (x + P.ext_base)

/-- The macro `RISCV_INTERRUPT_VECTOR_IS_EXTERNAL(x)`. -/
def RISCV_INTERRUPT_VECTOR_IS_EXTERNAL (P : Platform) (x : Nat) : Bool :=
  decide (P.ext_base ≤ x)

/-- The macro `RISCV_INTERRUPT_VECTOR_EXTERNAL_TO_INDEX(x)`, on `uint32_t`. -/
def RISCV_INTERRUPT_VECTOR_EXTERNAL_TO_INDEX (P : Platform) (x : Nat) : Nat :=
  u32 (x + 4294967296 - u32 P.ext_base)

/-- The check `bsp_interrupt_assert(e)` and `_Assert(e)`: active in a debug
build only. -/
def bsp_interrupt_assert (P : Platform) (e : Bool) : Except Fault Unit :=
  if P.RTEMS_DEBUG && !e then .error .assertion_failed else .ok ()

/-! ## Vector validity -/

/-- Source function `bsp_interrupt_is_valid_vector`. -/
def bsp_interrupt_is_valid_vector (P : Platform) (vector : Nat) : Bool :=
  if vector = RISCV_INTERRUPT_VECTOR_EXTERNAL P 0 then
    false
  else
    decide (vector < u32 P.BSP_INTERRUPT_VECTOR_COUNT)

/-! ## Interrupt dispatch -/

/-- The per-processor fields `cpu_per_cpu` of `Per_CPU_Control` the driver
uses.  `clint_msip` and `plic_hart_regs` are indices into `clint->msip[]` and
`plic->harts[]`, `plic_m_ie` is a word index into the flattened
`plic->enable[][]`. -/
structure Per_CPU_Control where
  clint_msip : Option Nat
  clint_mtimecmp : Option Nat
  plic_hart_regs : Option Nat
  plic_m_ie : Option Nat
  deriving DecidableEq, Repr

/-- What `_RISCV_Interrupt_dispatch` does that is visible outside it, in
program order. -/
inductive Event
  | handler_dispatch (vector : Nat)
  | claim_read (hart : Nat) (value : Nat)
  | complete_write (hart : Nat) (value : Nat)
  | fence
  | msip_write (msip : Nat) (value : Nat)
  | smp_inter_processor_interrupt_handler
  deriving DecidableEq, Repr

/-- The `while` loop of `_RISCV_Interrupt_dispatch` on the claim/complete
register of hart context `hart`.  The list holds the values the hardware
returns to the successive reads of the register; the result is the trace and
the values not read.  When the list ends before a read of zero the model does
not know what the hardware returns. -/
def claim_loop (P : Platform) (hart : Nat) :
    List Nat → Except Fault (List Event × List Nat)
  | [] => .error .claim_reads_exhausted
  | interrupt_index :: reads =>
    if interrupt_index ≠ 0 then
      match claim_loop P hart reads with
      | .error e => .error e
      | .ok (trace, rest) =>
        .ok (Event.claim_read hart interrupt_index
              :: Event.handler_dispatch (RISCV_INTERRUPT_VECTOR_EXTERNAL P interrupt_index)
              :: Event.complete_write hart interrupt_index
              :: Event.fence
              :: trace, rest)
    else
      .ok ([Event.claim_read hart 0], reads)

/-- Source function `_RISCV_Interrupt_dispatch`.  `mcause` is a `uintptr_t` of
`P.xlen` bits, `reads` the values the claim/complete register returns. -/
def _RISCV_Interrupt_dispatch (P : Platform) (mcause : Nat)
    (cpu_self : Per_CPU_Control) (reads : List Nat) :
    Except Fault (List Event × List Nat) :=
  let mcause := (mcause * 2) % 2 ^ P.xlen
  if mcause = P.RISCV_INTERRUPT_TIMER_MACHINE * 2 then
    .ok ([Event.handler_dispatch P.RISCV_INTERRUPT_VECTOR_TIMER], reads)
  else if mcause = P.RISCV_INTERRUPT_EXTERNAL_MACHINE * 2 then
    match cpu_self.plic_hart_regs with
    | none => .error .null_pointer
    | some plic_hart_regs => claim_loop P plic_hart_regs reads
  else if mcause = P.RISCV_INTERRUPT_SOFTWARE_MACHINE * 2 then
    if P.RTEMS_SMP then
      match cpu_self.clint_msip with
      | none => .error .null_pointer
      | some msip =>
        .ok ([Event.msip_write msip 0, Event.smp_inter_processor_interrupt_handler], reads)
    else
      .ok ([Event.handler_dispatch P.RISCV_INTERRUPT_VECTOR_SOFTWARE], reads)
  else
    .error (.bsp_fatal .RISCV_FATAL_UNEXPECTED_INTERRUPT_EXCEPTION)

/-! ## Driver state -/

/-- The storage the driver works on: its two globals `riscv_plic` and
`riscv_clint`, the affinity table `riscv_plic_irq_to_cpu`, the per-processor
control blocks, the PLIC and CLINT registers, and the `mie` and `mip` control
registers of every hart.  `plic_enable` is `plic->enable[][]` flattened to
words, so that `enable[group]` for a pointer `enable` is the word at
`enable + group`. -/
structure State where
  riscv_plic : Option Nat
  riscv_clint : Option Nat
  riscv_plic_irq_to_cpu : Nat → Option Nat
  cpu : Nat → Per_CPU_Control
  plic_priority : Nat → Nat
  plic_pending : Nat → Nat
  plic_enable : Nat → Nat
  plic_priority_threshold : Nat → Nat
  plic_claim_complete : Nat → Nat
  clint_msip : Nat → Nat
  mie : Nat → Nat
  mip : Nat → Nat

/-- Bitwise complement of a `uint32_t`. -/
def not32 (x : Nat) : Nat := 4294967295 ^^^ u32 x

/-- Bitwise complement of a register of `P.xlen` bits. -/
def notx (P : Platform) (x : Nat) : Nat := (2 ^ P.xlen - 1) ^^^ (x % 2 ^ P.xlen)

/-- The statement `enable[group] |= bit`. -/
def set_enable_bit (s : State) (enable group bit : Nat) : State :=
  let word := s.plic_enable (enable + group) ||| bit
  { s with plic_enable := Function.update s.plic_enable (enable + group) word }

/-- The statement `enable[group] &= ~bit`. -/
def clear_enable_bit (s : State) (enable group bit : Nat) : State :=
  let word := s.plic_enable (enable + group) &&& not32 bit
  { s with plic_enable := Function.update s.plic_enable (enable + group) word }

/-- The read `riscv_plic_irq_to_cpu[interrupt_index - 1]`; the index is a
`uint32_t` and the array has `RISCV_MAXIMUM_EXTERNAL_INTERRUPTS` members. -/
def irq_to_cpu_read (P : Platform) (s : State) (interrupt_index : Nat) :
    Except Fault (Option Nat) :=
  if u32 (interrupt_index + 4294967295) < P.RISCV_MAXIMUM_EXTERNAL_INTERRUPTS then
    .ok (s.riscv_plic_irq_to_cpu (u32 (interrupt_index + 4294967295)))
  else
    .error .out_of_bounds

/-- The write `riscv_plic_irq_to_cpu[interrupt_index - 1] = value`. -/
def irq_to_cpu_write (P : Platform) (s : State) (interrupt_index : Nat)
    (value : Option Nat) : Except Fault State :=
  if u32 (interrupt_index + 4294967295) < P.RISCV_MAXIMUM_EXTERNAL_INTERRUPTS then
    let index := u32 (interrupt_index + 4294967295)
    .ok { s with riscv_plic_irq_to_cpu := Function.update s.riscv_plic_irq_to_cpu index value }
  else
    .error .out_of_bounds

/-! ## Vector control -/

/-- Source function `bsp_interrupt_clear`. -/
def bsp_interrupt_clear (P : Platform) (s : State) (vector : Nat) :
    Except Fault (rtems_status_code × State) := do
  bsp_interrupt_assert P (bsp_interrupt_is_valid_vector P vector)
  pure (.RTEMS_UNSATISFIED, s)

/-- Source function `riscv_raise_on`. -/
def riscv_raise_on (P : Platform) (s : State) (vector cpu_index : Nat) :
    Except Fault (rtems_status_code × State) := do
  bsp_interrupt_assert P (bsp_interrupt_is_valid_vector P vector)
  if vector ≠ P.RISCV_INTERRUPT_VECTOR_SOFTWARE then
    pure (.RTEMS_UNSATISFIED, s)
  else
    match (s.cpu cpu_index).clint_msip with
    | none => throw .null_pointer
    | some msip =>
      pure (.RTEMS_SUCCESSFUL, { s with clint_msip := Function.update s.clint_msip msip 1 })

/-- Source function `bsp_interrupt_raise`, called on processor `self`, which is
what `rtems_scheduler_get_processor()` returns. -/
def bsp_interrupt_raise (P : Platform) (self : Nat) (s : State) (vector : Nat) :
    Except Fault (rtems_status_code × State) :=
  riscv_raise_on P s vector self

/-- Source function `bsp_interrupt_raise_on` (SMP). -/
def bsp_interrupt_raise_on (P : Platform) (s : State) (vector cpu_index : Nat) :
    Except Fault (rtems_status_code × State) :=
  riscv_raise_on P s vector cpu_index

/-- The SMP loop of `bsp_interrupt_vector_is_enabled` over the processor
indices still to visit: the first processor with an attached enable block in
which the bit is set ends it with `true`. -/
def is_enabled_loop (s : State) (group bit : Nat) : List Nat → Bool
  | [] => false
  | cpu_index :: rest =>
    match (s.cpu cpu_index).plic_m_ie with
    | some enable =>
      if s.plic_enable (enable + group) &&& bit ≠ 0 then true
      else is_enabled_loop s group bit rest
    | none => is_enabled_loop s group bit rest

/-- Source function `bsp_interrupt_vector_is_enabled`, called on processor
`self`; the result is the status and the value stored to `*enabled`. -/
def bsp_interrupt_vector_is_enabled (P : Platform) (self : Nat) (s : State)
    (vector : Nat) : Except Fault (rtems_status_code × Bool) := do
  bsp_interrupt_assert P (bsp_interrupt_is_valid_vector P vector)
  if RISCV_INTERRUPT_VECTOR_IS_EXTERNAL P vector then
    let interrupt_index := RISCV_INTERRUPT_VECTOR_EXTERNAL_TO_INDEX P vector
    let group := interrupt_index / 32
    let bit := 2 ^ (interrupt_index % 32)
    if P.RTEMS_SMP then
      pure (.RTEMS_SUCCESSFUL,
        is_enabled_loop s group bit (List.range P.processor_maximum))
    else
      match (s.cpu 0).plic_m_ie with
      | none => throw .null_pointer
      | some enable =>
        pure (.RTEMS_SUCCESSFUL, decide (s.plic_enable (enable + group) &&& bit ≠ 0))
  else if vector = P.RISCV_INTERRUPT_VECTOR_TIMER then
    pure (.RTEMS_SUCCESSFUL, decide (s.mie self &&& P.MIP_MTIP ≠ 0))
  else do
    bsp_interrupt_assert P (decide (vector = P.RISCV_INTERRUPT_VECTOR_SOFTWARE))
    pure (.RTEMS_SUCCESSFUL, decide (s.mie self &&& P.MIP_MSIP ≠ 0))

/-- The SMP loop of `bsp_interrupt_vector_enable` for a source without an
exclusive processor: the bit is set in the enable block of every processor
that has one. -/
def enable_loop (group bit : Nat) : List Nat → State → State
  | [], s => s
  | cpu_index :: rest, s =>
    match (s.cpu cpu_index).plic_m_ie with
    | some enable => enable_loop group bit rest (set_enable_bit s enable group bit)
    | none => enable_loop group bit rest s

/-- The SMP loop of `bsp_interrupt_vector_disable`. -/
def disable_loop (group bit : Nat) : List Nat → State → State
  | [], s => s
  | cpu_index :: rest, s =>
    match (s.cpu cpu_index).plic_m_ie with
    | some enable => disable_loop group bit rest (clear_enable_bit s enable group bit)
    | none => disable_loop group bit rest s

/-- Source function `bsp_interrupt_vector_enable`, called on processor `self`. -/
def bsp_interrupt_vector_enable (P : Platform) (self : Nat) (s : State)
    (vector : Nat) : Except Fault (rtems_status_code × State) := do
  bsp_interrupt_assert P (bsp_interrupt_is_valid_vector P vector)
  if RISCV_INTERRUPT_VECTOR_IS_EXTERNAL P vector then
    let interrupt_index := RISCV_INTERRUPT_VECTOR_EXTERNAL_TO_INDEX P vector
    let enable ← irq_to_cpu_read P s interrupt_index
    let group := interrupt_index / 32
    let bit := 2 ^ (interrupt_index % 32)
    match enable with
    | some enable => pure (.RTEMS_SUCCESSFUL, set_enable_bit s enable group bit)
    | none =>
      if P.RTEMS_SMP then
        pure (.RTEMS_SUCCESSFUL,
          enable_loop group bit (List.range P.processor_maximum) s)
      else
        match (s.cpu 0).plic_m_ie with
        | some enable => pure (.RTEMS_SUCCESSFUL, set_enable_bit s enable group bit)
        | none => pure (.RTEMS_SUCCESSFUL, s)
  else if vector = P.RISCV_INTERRUPT_VECTOR_TIMER then
    pure (.RTEMS_SUCCESSFUL,
      { s with mie := Function.update s.mie self (s.mie self ||| P.MIP_MTIP) })
  else do
    bsp_interrupt_assert P (decide (vector = P.RISCV_INTERRUPT_VECTOR_SOFTWARE))
    pure (.RTEMS_SUCCESSFUL,
      { s with mie := Function.update s.mie self (s.mie self ||| P.MIP_MSIP) })

/-- Source function `bsp_interrupt_vector_disable`, called on processor
`self`. -/
def bsp_interrupt_vector_disable (P : Platform) (self : Nat) (s : State)
    (vector : Nat) : Except Fault (rtems_status_code × State) := do
  bsp_interrupt_assert P (bsp_interrupt_is_valid_vector P vector)
  if RISCV_INTERRUPT_VECTOR_IS_EXTERNAL P vector then
    let interrupt_index := RISCV_INTERRUPT_VECTOR_EXTERNAL_TO_INDEX P vector
    let enable ← irq_to_cpu_read P s interrupt_index
    let group := interrupt_index / 32
    let bit := 2 ^ (interrupt_index % 32)
    match enable with
    | some enable => pure (.RTEMS_SUCCESSFUL, clear_enable_bit s enable group bit)
    | none =>
      if P.RTEMS_SMP then
        pure (.RTEMS_SUCCESSFUL,
          disable_loop group bit (List.range P.processor_maximum) s)
      else
        match (s.cpu 0).plic_m_ie with
        | some enable => pure (.RTEMS_SUCCESSFUL, clear_enable_bit s enable group bit)
        | none => pure (.RTEMS_SUCCESSFUL, s)
  else if vector = P.RISCV_INTERRUPT_VECTOR_TIMER then
    pure (.RTEMS_SUCCESSFUL,
      { s with mie := Function.update s.mie self (s.mie self &&& notx P P.MIP_MTIP) })
  else do
    bsp_interrupt_assert P (decide (vector = P.RISCV_INTERRUPT_VECTOR_SOFTWARE))
    pure (.RTEMS_SUCCESSFUL,
      { s with mie := Function.update s.mie self (s.mie self &&& notx P P.MIP_MSIP) })

/-! ## Processor affinity (SMP) -/

/-- Modelled from the spec: the type `Processor_mask` of
`rtems/score/processormask.h`, which is not among the sources, as the finite
set of the processor indices whose bit is set. -/
abbrev Processor_mask := Finset Nat

/-- Modelled from the spec: `_Processor_mask_And`, the intersection of two
processor sets. -/
def _Processor_mask_And (b c : Processor_mask) : Processor_mask := b ∩ c

/-- Modelled from the spec: `_Processor_mask_Is_equal`. -/
def _Processor_mask_Is_equal (a b : Processor_mask) : Bool := decide (a = b)

/-- Modelled from the spec: `_Processor_mask_Count`, the number of processors
in the set. -/
def _Processor_mask_Count (a : Processor_mask) : Nat := a.card

/-- Modelled from the spec: `_Processor_mask_Find_last_set`, one plus the
greatest processor index in the set, zero for the empty set. -/
def _Processor_mask_Find_last_set (a : Processor_mask) : Nat := a.sup Nat.succ

/-- Modelled from the spec: `_Processor_mask_Set`, which sets one bit and
keeps the others. -/
def _Processor_mask_Set (a : Processor_mask) (index : Nat) : Processor_mask :=
  insert index a

/-- Source function `bsp_interrupt_set_affinity`. -/
def bsp_interrupt_set_affinity (P : Platform) (s : State) (vector : Nat)
    (affinity : Processor_mask) : Except Fault (rtems_status_code × State) :=
  if RISCV_INTERRUPT_VECTOR_IS_EXTERNAL P vector then
    let interrupt_index := RISCV_INTERRUPT_VECTOR_EXTERNAL_TO_INDEX P vector
    let mask := _Processor_mask_And affinity P.online_processors
    if _Processor_mask_Is_equal mask P.online_processors then
      match irq_to_cpu_write P s interrupt_index none with
      | .error e => .error e
      | .ok s1 => .ok (.RTEMS_SUCCESSFUL, s1)
    else if _Processor_mask_Count mask = 1 then
      let cpu_index := u32 (_Processor_mask_Find_last_set mask + 4294967295)
      match irq_to_cpu_write P s interrupt_index (s.cpu cpu_index).plic_m_ie with
      | .error e => .error e
      | .ok s1 => .ok (.RTEMS_SUCCESSFUL, s1)
    else
      .ok (.RTEMS_INVALID_NUMBER, s)
  else
    .ok (.RTEMS_UNSATISFIED, s)

/-- The loop of `bsp_interrupt_get_affinity` for an exclusive source: the first
processor whose enable pointer is `enable` gets its bit set in the caller's
mask, and the loop ends. -/
def get_affinity_loop (s : State) (enable : Nat) (affinity : Processor_mask) :
    List Nat → Processor_mask
  | [] => affinity
  | cpu_index :: rest =>
    if some enable = (s.cpu cpu_index).plic_m_ie then
      _Processor_mask_Set affinity cpu_index
    else
      get_affinity_loop s enable affinity rest

/-- Source function `bsp_interrupt_get_affinity`.  `affinity` is the content of
the caller's mask at the call; the result is the status and the content of the
mask at the return. -/
def bsp_interrupt_get_affinity (P : Platform) (s : State) (vector : Nat)
    (affinity : Processor_mask) : Except Fault (rtems_status_code × Processor_mask) :=
  if RISCV_INTERRUPT_VECTOR_IS_EXTERNAL P vector then
    let interrupt_index := RISCV_INTERRUPT_VECTOR_EXTERNAL_TO_INDEX P vector
    match irq_to_cpu_read P s interrupt_index with
    | .error e => .error e
    | .ok (some enable) =>
      .ok (.RTEMS_SUCCESSFUL,
        get_affinity_loop s enable affinity (List.range P.processor_maximum))
    | .ok none => .ok (.RTEMS_SUCCESSFUL, P.online_processors)
  else
    .ok (.RTEMS_UNSATISFIED, affinity)

/-! ## Topology discovery -/

/-- What the driver reads from the device tree.  `clint` and `plic` are the
results of `riscv_fdt_get_address` on the nodes compatible with `riscv,clint0`
and `riscv,plic0`.  `plic_ndev` is the value of the property `riscv,ndev` as
bytes, `none` when the property is absent; its length is the number of bytes.
The `interrupts-extended` properties are lists of cells already decoded by
`fdt32_to_cpu`, their length in bytes is four times the number of cells, and an
absent `interrupts-extended` property, for which `fdt_getprop` reports a
negative length, is the empty list.  `hart_index_by_phandle` and
`map_hardid_to_cpu_index` are `riscv_get_hart_index_by_phandle` and
`_RISCV_Map_hardid_to_cpu_index`. -/
structure Fdt where
  clint : Option Nat
  clint_interrupts_extended : List Nat
  plic : Option Nat
  plic_ndev : Option (List Nat)
  plic_interrupts_extended : List Nat
  hart_index_by_phandle : Nat → Nat
  map_hardid_to_cpu_index : Nat → Nat

/-- Modelled from the spec: `fdt32_to_cpu` of libfdt, which is not among the
sources, on the four bytes of a cell: the big-endian 32-bit decode. -/
def fdt32_to_cpu (b0 b1 b2 b3 : Nat) : Nat :=
  (b0 % 256) * 16777216 + (b1 % 256) * 65536 + (b2 % 256) * 256 + b3 % 256

/-- The two stores `cpu->cpu_per_cpu.clint_msip = &clint->msip[k]` and
`cpu->cpu_per_cpu.clint_mtimecmp = &clint->mtimecmp[k]`. -/
def attach_clint (s : State) (cpu_index k : Nat) : State :=
  let cpu := { s.cpu cpu_index with clint_msip := some k, clint_mtimecmp := some k }
  { s with cpu := Function.update s.cpu cpu_index cpu }

/-- One pass through the body of the loop of `riscv_clint_init`, for
`i = 16 * k`. -/
def riscv_clint_init_body (P : Platform) (fdt : Fdt) (s : State) (k : Nat) : State :=
  let hart_index := fdt.hart_index_by_phandle (fdt.clint_interrupts_extended.getD (4 * k) 0)
  if P.RTEMS_SMP then
    if hart_index < P.RISCV_BOOT_HARTID then s
    else
      let hart_index := fdt.map_hardid_to_cpu_index hart_index
      if hart_index ≥ P.maximum_processors then s
      else attach_clint s hart_index k
  else
    if hart_index ≠ P.RISCV_BOOT_HARTID then s
    else attach_clint s 0 k

/-- Source function `riscv_clint_init`. -/
def riscv_clint_init (P : Platform) (fdt : Fdt) (s : State) : Except Fault State :=
  match fdt.clint with
  | none => .error (.bsp_fatal .RISCV_FATAL_NO_CLINT_REG_IN_DEVICE_TREE)
  | some clint =>
    let s := { s with riscv_clint := some clint }
    let len := 4 * fdt.clint_interrupts_extended.length
    .ok ((List.range ((len + 15) / 16)).foldl (riscv_clint_init_body P fdt) s)

/-- The loop `plic_m_ie[interrupt_index] = 0` for
`interrupt_index < mie_regs`. -/
def clear_enable_words (s : State) (plic_m_ie mie_regs : Nat) : State :=
  (List.range mie_regs).foldl
    (fun s interrupt_index =>
      { s with plic_enable := Function.update s.plic_enable (plic_m_ie + interrupt_index) 0 })
    s

/-- The value of `mie_regs` in `riscv_plic_init`: a `uint8_t` that receives
`(ndev + 0x1f) & ~(0x1f)`. -/
def mie_regs (ndev : Nat) : Nat := (u32 (ndev + 31) &&& not32 31) % 256

/-- The stores of `riscv_plic_init` for the hart context `k` found for the
processor `cpu_index`. -/
def attach_plic (P : Platform) (s : State) (cpu_index k ndev : Nat) : State :=
  let s := { s with plic_priority_threshold := Function.update s.plic_priority_threshold k 0 }
  let cpu := { s.cpu cpu_index with
    plic_hart_regs := some k, plic_m_ie := some (P.enable_words * k) }
  let s := { s with cpu := Function.update s.cpu cpu_index cpu }
  clear_enable_words s (P.enable_words * k) (mie_regs ndev)

/-- One pass through the body of the first loop of `riscv_plic_init`, for
`i = 8 * k`. -/
def riscv_plic_init_body (P : Platform) (fdt : Fdt) (ndev : Nat)
    (r : Except Fault State) (k : Nat) : Except Fault State :=
  match r with
  | .error e => .error e
  | .ok s =>
    let val := fdt.plic_interrupts_extended
    let hart_index := fdt.hart_index_by_phandle (val.getD (2 * k) 0)
    if P.RTEMS_SMP then
      if hart_index < P.RISCV_BOOT_HARTID then .ok s
      else
        let hart_index := fdt.map_hardid_to_cpu_index hart_index
        if hart_index ≥ P.maximum_processors then .ok s
        else
          match val.get? (2 * k + 1) with
          | none => .error .out_of_bounds
          | some interrupt_index =>
            if interrupt_index ≠ P.RISCV_INTERRUPT_EXTERNAL_MACHINE then .ok s
            else .ok (attach_plic P s hart_index k ndev)
    else
      if hart_index ≠ P.RISCV_BOOT_HARTID then .ok s
      else
        match val.get? (2 * k + 1) with
        | none => .error .out_of_bounds
        | some interrupt_index =>
          if interrupt_index ≠ P.RISCV_INTERRUPT_EXTERNAL_MACHINE then .ok s
          else .ok (attach_plic P s 0 k ndev)

/-- One pass through the body of the second loop of `riscv_plic_init`; `enable`
is `cpu->cpu_per_cpu.plic_m_ie` of processor 0. -/
def riscv_plic_init_source (enable : Option Nat) (s : State) (interrupt_index : Nat) : State :=
  { s with
    plic_priority := Function.update s.plic_priority interrupt_index 1,
    riscv_plic_irq_to_cpu := Function.update s.riscv_plic_irq_to_cpu (interrupt_index - 1) enable }

/-- Source function `riscv_plic_init`, run on processor `self`. -/
def riscv_plic_init (P : Platform) (fdt : Fdt) (self : Nat) (s : State) :
    Except Fault State :=
  match fdt.plic with
  | none =>
    if P.RISCV_ENABLE_HTIF_SUPPORT then .ok s
    else .error (.bsp_fatal .RISCV_FATAL_NO_PLIC_REG_IN_DEVICE_TREE)
  | some plic =>
    let s := { s with riscv_plic := some plic }
    match fdt.plic_ndev with
    | some [b0, b1, b2, b3] =>
      let ndev := fdt32_to_cpu b0 b1 b2 b3
      if ndev > P.RISCV_MAXIMUM_EXTERNAL_INTERRUPTS then
        .error (.bsp_fatal .RISCV_FATAL_TOO_LARGE_PLIC_NDEV_IN_DEVICE_TREE)
      else
        let len := 4 * fdt.plic_interrupts_extended.length
        match (List.range ((len + 7) / 8)).foldl (riscv_plic_init_body P fdt ndev) (.ok s) with
        | .error e => .error e
        | .ok s =>
          let enable := (s.cpu 0).plic_m_ie
          let s := ((List.range ndev).map (· + 1)).foldl (riscv_plic_init_source enable) s
          .ok { s with mie := Function.update s.mie self (s.mie self ||| P.MIP_MEIP) }
    | _ => .error (.bsp_fatal .RISCV_FATAL_INVALID_PLIC_NDEV_IN_DEVICE_TREE)

/-- Source function `bsp_interrupt_facility_initialize`, run on processor
`self`. -/
def bsp_interrupt_facility_initialize (P : Platform) (fdt : Fdt) (self : Nat) (s : State) :
    Except Fault State :=
  match riscv_clint_init P fdt s with
  | .error e => .error e
  | .ok s => riscv_plic_init P fdt self s

/-! ## Reachable states -/

/-- The storage of the driver before `bsp_interrupt_facility_initialize`: the
objects with static storage duration, that is the two globals, the affinity
table and the per-processor pointers, are zero.  The registers are
arbitrary. -/
def Boot (s : State) : Prop :=
  s.riscv_plic = none ∧ s.riscv_clint = none ∧
  (∀ k, s.riscv_plic_irq_to_cpu k = none) ∧
  ∀ c, s.cpu c = ⟨none, none, none, none⟩

/-- The states the driver reaches: topology discovery from the boot storage,
then calls of the state-changing vector control operations that return.
`bsp_interrupt_set_affinity` exists on an SMP build only. -/
inductive Reachable (P : Platform) : State → Prop
  | init {fdt : Fdt} {self : Nat} {s0 s : State} :
      Boot s0 → bsp_interrupt_facility_initialize P fdt self s0 = .ok s → Reachable P s
  | enable {self vector : Nat} {s s1 : State} {status : rtems_status_code} :
      Reachable P s → bsp_interrupt_vector_enable P self s vector = .ok (status, s1) →
      Reachable P s1
  | disable {self vector : Nat} {s s1 : State} {status : rtems_status_code} :
      Reachable P s → bsp_interrupt_vector_disable P self s vector = .ok (status, s1) →
      Reachable P s1
  | raise_on {vector cpu_index : Nat} {s s1 : State} {status : rtems_status_code} :
      Reachable P s → riscv_raise_on P s vector cpu_index = .ok (status, s1) →
      Reachable P s1
  | clear {vector : Nat} {s s1 : State} {status : rtems_status_code} :
      Reachable P s → bsp_interrupt_clear P s vector = .ok (status, s1) →
      Reachable P s1
  | set_affinity {vector : Nat} {affinity : Processor_mask} {s s1 : State}
      {status : rtems_status_code} :
      P.RTEMS_SMP = true → Reachable P s →
      bsp_interrupt_set_affinity P s vector affinity = .ok (status, s1) →
      Reachable P s1

/-- The relations between the parameters that hold in the headers and the
kernel the driver is built with: `BSP_INTERRUPT_VECTOR_COUNT` is
`RISCV_INTERRUPT_VECTOR_EXTERNAL(RISCV_MAXIMUM_EXTERNAL_INTERRUPTS)` and fits a
`uint32_t`; the software and the timer vector are distinct and below the
external vectors; a hart context has enable bits for every external interrupt;
the `mip` bits are nonzero bits of a control register; there is a processor,
processor indices fit a `uint32_t`, the online processors are below the
processor maximum, and a uniprocessor build has one processor. -/
structure Consistent (P : Platform) : Prop where
  count_eq : P.BSP_INTERRUPT_VECTOR_COUNT =
    P.RISCV_MAXIMUM_EXTERNAL_INTERRUPTS + P.ext_base
  count_lt : P.BSP_INTERRUPT_VECTOR_COUNT < 4294967296
  software_lt : P.RISCV_INTERRUPT_VECTOR_SOFTWARE < P.ext_base
  timer_lt : P.RISCV_INTERRUPT_VECTOR_TIMER < P.ext_base
  timer_ne : P.RISCV_INTERRUPT_VECTOR_TIMER ≠ P.RISCV_INTERRUPT_VECTOR_SOFTWARE
  enable_words_pos : 0 < P.enable_words
  maximum_le : P.RISCV_MAXIMUM_EXTERNAL_INTERRUPTS ≤ 32 * P.enable_words
  msip_pos : 0 < P.MIP_MSIP
  mtip_pos : 0 < P.MIP_MTIP
  msip_lt : P.MIP_MSIP < 2 ^ P.xlen
  mtip_lt : P.MIP_MTIP < 2 ^ P.xlen
  processor_maximum_pos : 0 < P.processor_maximum
  processor_maximum_lt : P.processor_maximum < 4294967296
  online_lt : ∀ c ∈ P.online_processors, c < P.processor_maximum
  online_nonempty : P.online_processors.Nonempty
  uniprocessor : P.RTEMS_SMP = false → P.processor_maximum = 1

/-- The kind of vector the vector control operations are for: a valid vector
that is the timer vector, the software vector or an external vector. -/
def Supported (P : Platform) (vector : Nat) : Prop :=
  bsp_interrupt_is_valid_vector P vector = true ∧
  (RISCV_INTERRUPT_VECTOR_IS_EXTERNAL P vector = true ∨
    vector = P.RISCV_INTERRUPT_VECTOR_TIMER ∨
    vector = P.RISCV_INTERRUPT_VECTOR_SOFTWARE)

/-! ## Invariants -/

/-- A word of the enable array that a loop over the processors `cpus` writes:
the word `group` of the enable block of one of them. -/
def Touched (s : State) (group : Nat) (cpus : List Nat) (a : Nat) : Prop :=
  ∃ c ∈ cpus, ∃ e, (s.cpu c).plic_m_ie = some e ∧ e + group = a

/-- An exclusive entry of the affinity table is the enable pointer of a
processor below the processor maximum. -/
def TableResolves (P : Platform) (s : State) : Prop :=
  ∀ k e, s.riscv_plic_irq_to_cpu k = some e →
    ∃ c, c < P.processor_maximum ∧ (s.cpu c).plic_m_ie = some e

/-- Every attached enable block starts a hart context of `plic->enable[][]`,
and no two processors have the same one. -/
def BlocksApart (P : Platform) (s : State) : Prop :=
  (∀ c e, (s.cpu c).plic_m_ie = some e → ∃ k, e = P.enable_words * k) ∧
  ∀ c1 c2 e, (s.cpu c1).plic_m_ie = some e → (s.cpu c2).plic_m_ie = some e → c1 = c2

/-- What `riscv_clint_init` keeps: the affinity table and the PLIC pointers of
the processors. -/
def PlicUntouched (s0 s : State) : Prop :=
  s.riscv_plic_irq_to_cpu = s0.riscv_plic_irq_to_cpu ∧
  ∀ c, (s.cpu c).plic_m_ie = (s0.cpu c).plic_m_ie

/-- The invariant of the first loop of `riscv_plic_init` before the pass for
hart context `n`: the affinity table is empty, every attached enable block is
the block of a hart context below `n`, and no two processors share one. -/
def AttachInv (P : Platform) (n : Nat) (s : State) : Prop :=
  (∀ k, s.riscv_plic_irq_to_cpu k = none) ∧
  (∀ c e, (s.cpu c).plic_m_ie = some e → ∃ k, k < n ∧ e = P.enable_words * k) ∧
  ∀ c1 c2 e, (s.cpu c1).plic_m_ie = some e → (s.cpu c2).plic_m_ie = some e → c1 = c2

/-- What the reachable states keep: an exclusive entry of the affinity table is
the enable block of a processor below the processor maximum, every attached
enable block starts a hart context, and no two processors share one. -/
def Inv (P : Platform) (s : State) : Prop :=
  TableResolves P s ∧ BlocksApart P s

/-- The bit of `mie` that stands for a timer or software vector. -/
def mie_bit (P : Platform) (vector : Nat) : Nat :=
  if vector = P.RISCV_INTERRUPT_VECTOR_TIMER then P.MIP_MTIP else P.MIP_MSIP

/-- No two processors have the same `msip` register of the CLINT. -/
def ClintApart (s : State) : Prop :=
  ∀ c1 c2 m, (s.cpu c1).clint_msip = some m → (s.cpu c2).clint_msip = some m → c1 = c2

/-- The invariant of the loop of `riscv_clint_init` before the pass for
`clint->msip[n]`: every attached `msip` register has an index below `n`, and
no two processors share one. -/
def ClintInv (n : Nat) (s : State) : Prop :=
  (∀ c m, (s.cpu c).clint_msip = some m → m < n) ∧ ClintApart s

/-- The cause value without its most significant bit, the bit that tells an
interrupt from an exception, for a cause register of `P.xlen` bits. -/
def cause_code (P : Platform) (mcause : Nat) : Nat := mcause % 2 ^ (P.xlen - 1)

/-- The parts of the state that the first loop of `riscv_plic_init` does not
write. -/
def AttachFrame (s0 s : State) : Prop :=
  s.riscv_plic_irq_to_cpu = s0.riscv_plic_irq_to_cpu ∧
  s.plic_priority = s0.plic_priority ∧
  s.clint_msip = s0.clint_msip ∧
  s.mie = s0.mie ∧
  ∀ c, (s.cpu c).clint_msip = (s0.cpu c).clint_msip

/-- The first `m` enable words of every attached enable block are zero. -/
def Masked (m : Nat) (s : State) : Prop :=
  ∀ c e, (s.cpu c).plic_m_ie = some e → ∀ w, w < m → s.plic_enable (e + w) = 0

/-! ## Vector attributes -/

/-- Modelled from the spec: the values of `rtems_interrupt_signal_variant` of
`rtems/rtems/intr.h`, which is not among the sources.  The driver names
`RTEMS_INTERRUPT_NO_SIGNAL` only; `other` stands for the remaining values. -/
inductive rtems_interrupt_signal_variant
  | RTEMS_INTERRUPT_NO_SIGNAL
  | other (value : Nat)
  deriving DecidableEq

/-- Modelled from the spec: the members of `rtems_interrupt_attributes` of
`rtems/rtems/intr.h`, which is not among the sources, that
`bsp_interrupt_get_attributes` stores to. -/
structure rtems_interrupt_attributes where
  is_maskable : Bool
  can_enable : Bool
  maybe_enable : Bool
  can_disable : Bool
  maybe_disable : Bool
  can_raise : Bool
  can_raise_on : Bool
  cleared_by_acknowledge : Bool
  can_get_affinity : Bool
  can_set_affinity : Bool
  trigger_signal : rtems_interrupt_signal_variant

/-- Source function `bsp_interrupt_get_attributes`.  `attributes` is the
content of the caller's structure at the call; the result is the status and the
content of the structure at the return. -/
def bsp_interrupt_get_attributes (P : Platform) (vector : Nat)
    (attributes : rtems_interrupt_attributes) :
    rtems_status_code × rtems_interrupt_attributes :=
  let attributes := { attributes with is_maskable := true }
  let attributes := { attributes with can_enable := true }
  let attributes := { attributes with maybe_enable := true }
  let attributes := { attributes with can_disable := true }
  let attributes := { attributes with maybe_disable := true }
  let attributes := { attributes with
    can_raise := decide (vector = P.RISCV_INTERRUPT_VECTOR_SOFTWARE) }
  let attributes := { attributes with can_raise_on := attributes.can_raise }
  let attributes := { attributes with cleared_by_acknowledge := true }
  let attributes := { attributes with
    can_get_affinity := RISCV_INTERRUPT_VECTOR_IS_EXTERNAL P vector }
  let attributes := { attributes with can_set_affinity := attributes.can_get_affinity }
  let attributes :=
    if vector = P.RISCV_INTERRUPT_VECTOR_SOFTWARE then
      { attributes with trigger_signal := .RTEMS_INTERRUPT_NO_SIGNAL }
    else attributes
  (.RTEMS_SUCCESSFUL, attributes)

/-! ## PCI host bridge errors (`detect_raven_bridge.c`) -/

/-- The constant `PCI_ERR_BITS`, `0xf900`. -/
def PCI_ERR_BITS : Nat := 63744

/-- The test `PCI_STATUS_OK(x)`, `!((x) & PCI_ERR_BITS)`. -/
def PCI_STATUS_OK (x : Nat) : Bool := decide (x &&& PCI_ERR_BITS = 0)

/-- What `_BSP_clear_hostbridge_errors` does to the outside, in order: a read
of the PCI status register of the host bridge with the value read, a write to
it with the value written, and the two messages it prints with their
argument. -/
inductive PciEvent
  | read_status (value : Nat)
  | write_status (value : Nat)
  | printk_cleared (rval : Nat)
  | printk_unable (pcistat : Nat)
  deriving DecidableEq

/-- The loop `do { write; read } while ( ! PCI_STATUS_OK(pcistat) && count-- )`
of `_BSP_clear_hostbridge_errors`, entered with `count`, over the values that
the coming reads of the status register give; `pcistat` is an
`unsigned short`.  The result is the trace and the last `pcistat`; `none` when
the values run out. -/
def clear_loop (count : Int) : List Nat → Option (List PciEvent × Nat)
  | [] => none
  | value :: reads =>
    let pcistat := value % 65536
    let pass := [PciEvent.write_status PCI_ERR_BITS, PciEvent.read_status pcistat]
    if !PCI_STATUS_OK pcistat && decide (count ≠ 0) then
      match clear_loop (count - 1) reads with
      | none => none
      | some (trace, last) => some (pass ++ trace, last)
    else
      some (pass, pcistat)

/-- Source function `_BSP_clear_hostbridge_errors` over the values that the
reads of the PCI status register give.  `ULONG_MAX` is what `-1` becomes as an
`unsigned long`.  The result is the trace and the return value. -/
def _BSP_clear_hostbridge_errors (ULONG_MAX : Nat) (enableMCP quiet : Int)
    (reads : List Nat) : Option (List PciEvent × Nat) :=
  if enableMCP ≠ 0 then some ([], ULONG_MAX)
  else
    match reads with
    | [] => none
    | value :: reads =>
      let rval := value % 65536
      match clear_loop 10 reads with
      | none => none
      | some (trace, pcistat) =>
        let cleared :=
          if !PCI_STATUS_OK rval && decide (quiet = 0) then [PciEvent.printk_cleared rval]
          else []
        let unable :=
          if !PCI_STATUS_OK pcistat then [PciEvent.printk_unable pcistat] else []
        some (PciEvent.read_status rval :: trace ++ cleared ++ unable, rval &&& PCI_ERR_BITS)

/-- The number of times a trace writes `PCI_ERR_BITS` to the status register,
that is the number of clear sequences. -/
def clear_sequences (trace : List PciEvent) : Nat :=
  trace.count (PciEvent.write_status PCI_ERR_BITS)

/-! ## Concrete configurations

Used where a statement is evaluated on an explicit input. -/

/-- A dual-processor SMP debug build.  The cause codes and the `mip` bits are
those of the RISC-V privileged architecture; the vector numbering puts the
software vector at 0, the timer vector at 1 and the external vectors above
them, with 128 external interrupts at most. -/
def smp2 : Platform where
  RTEMS_SMP := true
  RTEMS_DEBUG := true
  RISCV_ENABLE_HTIF_SUPPORT := false
  xlen := 64
  RISCV_INTERRUPT_SOFTWARE_MACHINE := 3
  RISCV_INTERRUPT_TIMER_MACHINE := 7
  RISCV_INTERRUPT_EXTERNAL_MACHINE := 11
  RISCV_INTERRUPT_VECTOR_SOFTWARE := 0
  RISCV_INTERRUPT_VECTOR_TIMER := 1
  ext_base := 2
  RISCV_MAXIMUM_EXTERNAL_INTERRUPTS := 128
  BSP_INTERRUPT_VECTOR_COUNT := 130
  MIP_MSIP := 8
  MIP_MTIP := 128
  MIP_MEIP := 2048
  enable_words := 32
  RISCV_BOOT_HARTID := 0
  maximum_processors := 2
  processor_maximum := 2
  online_processors := {0, 1}

/-- The storage before the driver runs: the globals and the per-processor
pointers are `NULL`, the registers are zero. -/
def reset_state : State where
  riscv_plic := none
  riscv_clint := none
  riscv_plic_irq_to_cpu := fun _ => none
  cpu := fun _ => ⟨none, none, none, none⟩
  plic_priority := fun _ => 0
  plic_pending := fun _ => 0
  plic_enable := fun _ => 0
  plic_priority_threshold := fun _ => 0
  plic_claim_complete := fun _ => 0
  clint_msip := fun _ => 0
  mie := fun _ => 0
  mip := fun _ => 0

/-- A device tree for two harts: the CLINT lists both, the PLIC has 10 sources
and a machine-external context for each hart (cause 11), each preceded by a
supervisor-external context (cause 9).  Phandle `n + 1` is hart `n`. -/
def fdt2 : Fdt where
  clint := some 33554432
  clint_interrupts_extended := [1, 3, 1, 7, 2, 3, 2, 7]
  plic := some 201326592
  plic_ndev := some [0, 0, 0, 10]
  plic_interrupts_extended := [1, 9, 1, 11, 2, 9, 2, 11]
  hart_index_by_phandle := fun phandle => phandle - 1
  map_hardid_to_cpu_index := fun hardid => hardid

/-- A device tree whose PLIC has supervisor-external contexts only. -/
def fdt_supervisor_only : Fdt where
  clint := some 33554432
  clint_interrupts_extended := [1, 3, 1, 7, 2, 3, 2, 7]
  plic := some 201326592
  plic_ndev := some [0, 0, 0, 10]
  plic_interrupts_extended := [1, 9, 2, 9]
  hart_index_by_phandle := fun phandle => phandle - 1
  map_hardid_to_cpu_index := fun hardid => hardid

/-- A device tree for two harts whose PLIC has a machine-external context for
hart 0 only. -/
def fdt_hart0_only : Fdt where
  clint := some 33554432
  clint_interrupts_extended := [1, 3, 1, 7, 2, 3, 2, 7]
  plic := some 201326592
  plic_ndev := some [0, 0, 0, 10]
  plic_interrupts_extended := [1, 9, 1, 11, 2, 9]
  hart_index_by_phandle := fun phandle => phandle - 1
  map_hardid_to_cpu_index := fun hardid => hardid

/-- The configuration `smp2` built for 256 external interrupts at most. -/
def smp2_wide : Platform :=
  { smp2 with RISCV_MAXIMUM_EXTERNAL_INTERRUPTS := 256, BSP_INTERRUPT_VECTOR_COUNT := 258 }

/-- The device tree `fdt2` with a PLIC of 250 sources. -/
def fdt2_ndev250 : Fdt :=
  { fdt2 with plic_ndev := some [0, 0, 0, 250] }

/-- The device tree `fdt2` with a PLIC of 128 sources, the maximum of the
configuration `smp2`. -/
def fdt2_ndev128 : Fdt :=
  { fdt2 with plic_ndev := some [0, 0, 0, 128] }

/-- The storage before the driver runs when the enable registers of the PLIC
hold ones: the globals and the per-processor pointers are `NULL`. -/
def reset_state_enabled : State :=
  { reset_state with plic_enable := fun _ => 4294967295 }

/-- The state after topology discovery on processor 0 from `reset_state`. -/
def boot_state (P : Platform) (fdt : Fdt) : State :=
  match bsp_interrupt_facility_initialize P fdt 0 reset_state with
  | .ok s => s
  | .error _ => reset_state

/-- The state after topology discovery on the device tree `fdt2` and
`bsp_interrupt_vector_enable` of the external vector 3 on processor 0: the bit
of source 1 is set in the enable block of processor 0. -/
def boot_state_vector3_enabled : State :=
  match bsp_interrupt_vector_enable smp2 0 (boot_state smp2 fdt2) 3 with
  | .ok (_, s) => s
  | .error _ => boot_state smp2 fdt2

/-- The vectors passed to `bsp_interrupt_handler_dispatch`, in order. -/
def dispatched (trace : List Event) : List Nat :=
  trace.filterMap fun e => match e with
    | .handler_dispatch v => some v
    | _ => none

/-- The values written to the claim/complete register, in order. -/
def completed (trace : List Event) : List Nat :=
  trace.filterMap fun e => match e with
    | .complete_write _ c => some c
    | _ => none

/-- The trace of one pass of the claim loop for the claimed value `c`. -/
def claim_pass (P : Platform) (hart c : Nat) : List Event :=
  [Event.claim_read hart c,
   Event.handler_dispatch (RISCV_INTERRUPT_VECTOR_EXTERNAL P c),
   Event.complete_write hart c,
   Event.fence]

/-! ## Dispatch: the claim loop -/

theorem claim_loop_drains (P : Platform) (hart : Nat) (rest : List Nat) :
    ∀ cs : List Nat, (∀ c ∈ cs, c ≠ 0) →
      claim_loop P hart (cs ++ 0 :: rest) =
        .ok (cs.flatMap (claim_pass P hart) ++ [Event.claim_read hart 0], rest)
  | [], _ => by simp [claim_loop]
  | c :: cs, h => by
    have hc : c ≠ 0 := h c (by simp)
    have ih := claim_loop_drains P hart rest cs (fun x hx => h x (by simp [hx]))
    simp [claim_loop, hc, ih, claim_pass]

theorem dispatched_claim_passes (P : Platform) (hart : Nat) (tail : List Event) :
    ∀ cs : List Nat,
      dispatched (cs.flatMap (claim_pass P hart) ++ tail) =
        cs.map (RISCV_INTERRUPT_VECTOR_EXTERNAL P) ++ dispatched tail
  | [] => by simp
  | c :: cs => by
    have ih := dispatched_claim_passes P hart tail cs
    simp only [List.flatMap_cons, List.map_cons, List.append_assoc, List.cons_append]
    rw [← ih]
    simp [dispatched, claim_pass]

theorem completed_claim_passes (P : Platform) (hart : Nat) (tail : List Event) :
    ∀ cs : List Nat,
      completed (cs.flatMap (claim_pass P hart) ++ tail) = cs ++ completed tail
  | [] => by simp
  | c :: cs => by
    have ih := completed_claim_passes P hart tail cs
    simp only [List.flatMap_cons, List.append_assoc, List.cons_append]
    rw [← ih]
    simp [completed, claim_pass]

/-- C1: with the machine-external cause and the claim/complete register of the
current hart returning the nonzero values `cs` and then zero,
`_RISCV_Interrupt_dispatch` returns, having read no further value, with the
trace that for each claimed value in turn reads it, dispatches its external
vector, writes it back and fences, and ends with the read of zero; so the
dispatched vectors are the external vectors of `cs` in order and the values
written back are `cs` in order, each once. -/
theorem dispatch_external_claims_all (P : Platform) (mcause : Nat)
    (cpu_self : Per_CPU_Control) (hart : Nat) (cs rest : List Nat)
    (hcause : (mcause * 2) % 2 ^ P.xlen = P.RISCV_INTERRUPT_EXTERNAL_MACHINE * 2)
    (hcodes : P.RISCV_INTERRUPT_EXTERNAL_MACHINE ≠ P.RISCV_INTERRUPT_TIMER_MACHINE)
    (hregs : cpu_self.plic_hart_regs = some hart)
    (hcs : ∀ c ∈ cs, c ≠ 0) :
    ∃ trace : List Event,
      _RISCV_Interrupt_dispatch P mcause cpu_self (cs ++ 0 :: rest) = .ok (trace, rest) ∧
      trace = cs.flatMap (claim_pass P hart) ++ [Event.claim_read hart 0] ∧
      dispatched trace = cs.map (RISCV_INTERRUPT_VECTOR_EXTERNAL P) ∧
      completed trace = cs := by
  refine ⟨_, ?_, rfl, ?_, ?_⟩
  · have hne : ¬ (P.RISCV_INTERRUPT_EXTERNAL_MACHINE * 2 = P.RISCV_INTERRUPT_TIMER_MACHINE * 2) := by
      omega
    simp only [_RISCV_Interrupt_dispatch, hcause, hne, if_false, if_true, hregs]
    exact claim_loop_drains P hart rest cs hcs
  · rw [dispatched_claim_passes]; simp [dispatched]
  · rw [completed_claim_passes]; simp [completed]

theorem dispatch_external_claims_all_witness :
    _RISCV_Interrupt_dispatch smp2 (2 ^ 63 + 11) ⟨none, none, some 0, some 0⟩ [5, 3, 9, 0, 7]
        = .ok (claim_pass smp2 0 5 ++ claim_pass smp2 0 3 ++ claim_pass smp2 0 9
                ++ [Event.claim_read 0 0], [7]) ∧
      dispatched (claim_pass smp2 0 5 ++ claim_pass smp2 0 3 ++ claim_pass smp2 0 9
                ++ [Event.claim_read 0 0]) = [7, 5, 11] ∧
      completed (claim_pass smp2 0 5 ++ claim_pass smp2 0 3 ++ claim_pass smp2 0 9
                ++ [Event.claim_read 0 0]) = [5, 3, 9] := by
  obtain ⟨trace, h1, h2, h3, h4⟩ :=
    dispatch_external_claims_all smp2 (2 ^ 63 + 11) ⟨none, none, some 0, some 0⟩ 0 [5, 3, 9] [7]
      (by decide) (by decide) rfl (by decide)
  subst h2
  exact ⟨by simpa using h1, by simpa [RISCV_INTERRUPT_VECTOR_EXTERNAL, u32, smp2] using h3,
    by simpa using h4⟩

/-! ## Vector validity -/

/-- C8, as the code has it: `bsp_interrupt_is_valid_vector` returns false for
the vector of the reserved PLIC source, `RISCV_INTERRUPT_VECTOR_EXTERNAL(0)`,
and for every vector greater than or equal to `BSP_INTERRUPT_VECTOR_COUNT`. -/
theorem is_valid_vector_rejects (P : Platform) (vector : Nat)
    (h : vector = RISCV_INTERRUPT_VECTOR_EXTERNAL P 0 ∨
      P.BSP_INTERRUPT_VECTOR_COUNT ≤ vector) :
    bsp_interrupt_is_valid_vector P vector = false := by
  unfold bsp_interrupt_is_valid_vector
  rcases h with h | h
  · simp [h]
  · have hle : u32 P.BSP_INTERRUPT_VECTOR_COUNT ≤ P.BSP_INTERRUPT_VECTOR_COUNT :=
      Nat.mod_le _ _
    split
    · rfl
    · simp only [decide_eq_false_iff_not, not_lt]
      omega

theorem is_valid_vector_rejects_witness :
    bsp_interrupt_is_valid_vector smp2 2 = false ∧
      bsp_interrupt_is_valid_vector smp2 130 = false :=
  ⟨is_valid_vector_rejects smp2 2 (Or.inl (by decide)),
   is_valid_vector_rejects smp2 130 (Or.inr (by decide))⟩

/-- C8, as stated, fails: where the software vector is vector 0 and the
external vectors start at 2, `bsp_interrupt_is_valid_vector` accepts vector
number 0. -/
theorem vector_zero_is_valid :
    bsp_interrupt_is_valid_vector smp2 0 = true ∧
      smp2.RISCV_INTERRUPT_VECTOR_SOFTWARE = 0 ∧
      RISCV_INTERRUPT_VECTOR_EXTERNAL smp2 0 = 2 := by
  decide

/-- C9: with the timer and the software vector below the external vectors,
and these starting below `BSP_INTERRUPT_VECTOR_COUNT`,
`bsp_interrupt_is_valid_vector` returns true for the timer vector, for the
software vector and for every external vector
`RISCV_INTERRUPT_VECTOR_EXTERNAL(i)`, `i >= 1`, below the count; and a vector
below the count that it rejects is the vector of the reserved source,
`RISCV_INTERRUPT_VECTOR_EXTERNAL(0)`. -/
theorem is_valid_vector_accepts (P : Platform)
    (htimer : P.RISCV_INTERRUPT_VECTOR_TIMER < P.ext_base)
    (hsoftware : P.RISCV_INTERRUPT_VECTOR_SOFTWARE < P.ext_base)
    (hbase : P.ext_base < P.BSP_INTERRUPT_VECTOR_COUNT)
    (hcount : P.BSP_INTERRUPT_VECTOR_COUNT < 4294967296) :
    bsp_interrupt_is_valid_vector P P.RISCV_INTERRUPT_VECTOR_TIMER = true ∧
    bsp_interrupt_is_valid_vector P P.RISCV_INTERRUPT_VECTOR_SOFTWARE = true ∧
    (∀ i, 1 ≤ i → i < 4294967296 →
      RISCV_INTERRUPT_VECTOR_EXTERNAL P i < P.BSP_INTERRUPT_VECTOR_COUNT →
      bsp_interrupt_is_valid_vector P (RISCV_INTERRUPT_VECTOR_EXTERNAL P i) = true) ∧
    (∀ vector, vector < P.BSP_INTERRUPT_VECTOR_COUNT →
      bsp_interrupt_is_valid_vector P vector = false →
      vector = RISCV_INTERRUPT_VECTOR_EXTERNAL P 0) := by
  have hc : u32 P.BSP_INTERRUPT_VECTOR_COUNT = P.BSP_INTERRUPT_VECTOR_COUNT :=
    Nat.mod_eq_of_lt hcount
  have h0 : RISCV_INTERRUPT_VECTOR_EXTERNAL P 0 = P.ext_base := by
    simp only [RISCV_INTERRUPT_VECTOR_EXTERNAL, u32]
    omega
  refine ⟨?_, ?_, ?_, ?_⟩
  · simp only [bsp_interrupt_is_valid_vector, h0, hc]
    rw [if_neg (by omega)]
    simp only [decide_eq_true_eq]
    omega
  · simp only [bsp_interrupt_is_valid_vector, h0, hc]
    rw [if_neg (by omega)]
    simp only [decide_eq_true_eq]
    omega
  · intro i hi1 hi2 hlt
    simp only [bsp_interrupt_is_valid_vector, h0, hc]
    have hne : RISCV_INTERRUPT_VECTOR_EXTERNAL P i ≠ P.ext_base := by
      simp only [RISCV_INTERRUPT_VECTOR_EXTERNAL, u32]
      omega
    rw [if_neg hne]
    simpa using hlt
  · intro vector hlt hrej
    simp only [bsp_interrupt_is_valid_vector, hc] at hrej
    by_contra hne
    rw [if_neg hne] at hrej
    simp only [decide_eq_false_iff_not] at hrej
    exact hrej hlt

theorem is_valid_vector_accepts_witness :
    bsp_interrupt_is_valid_vector smp2 1 = true ∧
    bsp_interrupt_is_valid_vector smp2 0 = true ∧
    bsp_interrupt_is_valid_vector smp2 (RISCV_INTERRUPT_VECTOR_EXTERNAL smp2 127) = true ∧
    (bsp_interrupt_is_valid_vector smp2 2 = false → 2 = RISCV_INTERRUPT_VECTOR_EXTERNAL smp2 0) :=
  have h := is_valid_vector_accepts smp2 (by decide) (by decide) (by decide) (by decide)
  ⟨h.1, h.2.1, h.2.2.1 127 (by decide) (by decide) (by decide), h.2.2.2 2 (by decide)⟩

/-- Under the relations of `Consistent` the vector number 0 is not the vector
of the reserved PLIC source, and `bsp_interrupt_is_valid_vector` accepts it. -/
theorem vector_zero_valid_of_consistent (P : Platform) (hP : Consistent P) :
    bsp_interrupt_is_valid_vector P 0 = true := by
  have h1 := hP.count_eq
  have h2 := hP.count_lt
  have h3 := hP.software_lt
  have h0 : RISCV_INTERRUPT_VECTOR_EXTERNAL P 0 = P.ext_base := by
    simp only [RISCV_INTERRUPT_VECTOR_EXTERNAL, u32]
    omega
  simp only [bsp_interrupt_is_valid_vector, h0, u32]
  rw [if_neg (by omega)]
  simp only [decide_eq_true_eq]
  omega

/-! ## Clearing -/

/-- C10: for a valid vector and any state, `bsp_interrupt_clear` returns
`RTEMS_UNSATISFIED` and the state it leaves, registers and affinity table, is
the state it was called in. -/
theorem clear_unsatisfied (P : Platform) (s : State) (vector : Nat)
    (hvalid : bsp_interrupt_is_valid_vector P vector = true) :
    bsp_interrupt_clear P s vector = .ok (.RTEMS_UNSATISFIED, s) := by
  simp [bsp_interrupt_clear, bsp_interrupt_assert, hvalid, bind, Except.bind, pure, Except.pure]

theorem clear_unsatisfied_witness :
    bsp_interrupt_is_valid_vector smp2 5 = true ∧
      bsp_interrupt_clear smp2 reset_state 5 = .ok (.RTEMS_UNSATISFIED, reset_state) :=
  ⟨by decide, clear_unsatisfied smp2 reset_state 5 (by decide)⟩

/-! ## Bits -/

theorem and_two_pow_ne_zero_iff (w k : Nat) : w &&& 2 ^ k ≠ 0 ↔ w.testBit k = true := by
  rw [Nat.and_two_pow]
  cases h : w.testBit k <;> simp

theorem and_two_pow_eq_zero_iff (w k : Nat) : w &&& 2 ^ k = 0 ↔ w.testBit k = false := by
  rw [Nat.and_two_pow]
  cases h : w.testBit k <;> simp

theorem testBit_or_two_pow (w k : Nat) : (w ||| 2 ^ k).testBit k = true := by
  simp [Nat.testBit_or, Nat.testBit_two_pow_self]

theorem testBit_and_not32_two_pow (w k : Nat) (hk : k < 32) :
    (w &&& not32 (2 ^ k)).testBit k = false := by
  have hlt : 2 ^ k < 4294967296 := by
    have : 2 ^ k < 2 ^ 32 := Nat.pow_lt_pow_right (by norm_num) hk
    simpa using this
  have h1 : (4294967295 : Nat) = 2 ^ 32 - 1 := by norm_num
  simp only [not32, u32, Nat.mod_eq_of_lt hlt, Nat.testBit_and, Nat.testBit_xor, h1,
    Nat.testBit_two_pow_sub_one, Nat.testBit_two_pow_self]
  simp [hk]

theorem or_and_self_ne_zero (m b : Nat) (hb : 0 < b) : (m ||| b) &&& b ≠ 0 := by
  have h : (m ||| b) &&& b = b := by
    apply Nat.eq_of_testBit_eq
    intro i
    simp only [Nat.testBit_and, Nat.testBit_or]
    cases m.testBit i <;> cases b.testBit i <;> rfl
  omega

theorem and_notx_and_self (P : Platform) (m b : Nat) (hb : b < 2 ^ P.xlen) :
    (m &&& notx P b) &&& b = 0 := by
  apply Nat.eq_of_testBit_eq
  intro i
  simp only [notx, Nat.mod_eq_of_lt hb, Nat.testBit_and, Nat.testBit_xor,
    Nat.testBit_two_pow_sub_one, Nat.zero_testBit]
  by_cases hi : i < P.xlen
  · simp only [hi, decide_True]
    cases m.testBit i <;> cases b.testBit i <;> rfl
  · have hbi : b.testBit i = false := by
      apply Nat.testBit_lt_two_pow
      exact lt_of_lt_of_le hb (Nat.pow_le_pow_right (by norm_num) (by omega))
    simp [hbi]

/-! ## The enable and disable loops -/

theorem enable_loop_frame (group bit : Nat) :
    ∀ (cpus : List Nat) (s : State),
      (enable_loop group bit cpus s).cpu = s.cpu ∧
      (enable_loop group bit cpus s).riscv_plic_irq_to_cpu = s.riscv_plic_irq_to_cpu ∧
      (enable_loop group bit cpus s).mie = s.mie
  | [], s => ⟨rfl, rfl, rfl⟩
  | c :: cpus, s => by
    unfold enable_loop
    cases h : (s.cpu c).plic_m_ie with
    | none => exact enable_loop_frame group bit cpus s
    | some e => exact enable_loop_frame group bit cpus (set_enable_bit s e group bit)

theorem disable_loop_frame (group bit : Nat) :
    ∀ (cpus : List Nat) (s : State),
      (disable_loop group bit cpus s).cpu = s.cpu ∧
      (disable_loop group bit cpus s).riscv_plic_irq_to_cpu = s.riscv_plic_irq_to_cpu ∧
      (disable_loop group bit cpus s).mie = s.mie
  | [], s => ⟨rfl, rfl, rfl⟩
  | c :: cpus, s => by
    unfold disable_loop
    cases h : (s.cpu c).plic_m_ie with
    | none => exact disable_loop_frame group bit cpus s
    | some e => exact disable_loop_frame group bit cpus (clear_enable_bit s e group bit)

/-- After the enable loop a word of the enable array is its old value, with
`bit` set when the loop writes the word. -/
theorem enable_loop_word (group bit : Nat) :
    ∀ (cpus : List Nat) (s : State) (a : Nat),
      (Touched s group cpus a →
        (enable_loop group bit cpus s).plic_enable a = s.plic_enable a ||| bit) ∧
      (¬ Touched s group cpus a →
        (enable_loop group bit cpus s).plic_enable a = s.plic_enable a)
  | [], s, a => by
    constructor
    · rintro ⟨c, hc, _⟩
      simp at hc
    · intro _
      rfl
  | c :: cpus, s, a => by
    unfold enable_loop
    cases h : (s.cpu c).plic_m_ie with
    | none =>
      have ih := enable_loop_word group bit cpus s a
      have hiff : Touched s group (c :: cpus) a ↔ Touched s group cpus a := by
        constructor
        · rintro ⟨c1, hc1, e, he, hea⟩
          rcases List.mem_cons.mp hc1 with rfl | hmem
          · rw [h] at he
            cases he
          · exact ⟨c1, hmem, e, he, hea⟩
        · rintro ⟨c1, hc1, e, he, hea⟩
          exact ⟨c1, List.mem_cons_of_mem _ hc1, e, he, hea⟩
      simpa [hiff] using ih
    | some e =>
      have ih := enable_loop_word group bit cpus (set_enable_bit s e group bit) a
      have hT : Touched (set_enable_bit s e group bit) group cpus a ↔ Touched s group cpus a :=
        Iff.rfl
      rw [hT] at ih
      simp only []
      by_cases hea : e + group = a
      · have hnew : (set_enable_bit s e group bit).plic_enable a = s.plic_enable a ||| bit := by
          simp [set_enable_bit, hea]
        have htouched : Touched s group (c :: cpus) a := ⟨c, by simp, e, h, hea⟩
        constructor
        · intro _
          by_cases ht : Touched s group cpus a
          · rw [ih.1 ht, hnew]
            apply Nat.eq_of_testBit_eq
            intro i
            simp only [Nat.testBit_or]
            cases (s.plic_enable a).testBit i <;> cases bit.testBit i <;> rfl
          · rw [ih.2 ht, hnew]
        · intro hn
          exact absurd htouched hn
      · have hold : (set_enable_bit s e group bit).plic_enable a = s.plic_enable a := by
          simp [set_enable_bit, Function.update_apply, Ne.symm hea]
        have hiff : Touched s group (c :: cpus) a ↔ Touched s group cpus a := by
          constructor
          · rintro ⟨c1, hc1, e1, he1, he1a⟩
            rcases List.mem_cons.mp hc1 with rfl | hmem
            · rw [h] at he1
              cases he1
              exact absurd he1a hea
            · exact ⟨c1, hmem, e1, he1, he1a⟩
          · rintro ⟨c1, hc1, e1, he1, he1a⟩
            exact ⟨c1, List.mem_cons_of_mem _ hc1, e1, he1, he1a⟩
        rw [hiff]
        rw [hold] at ih
        exact ih

/-- After the disable loop a word of the enable array is its old value, with
`bit` cleared when the loop writes the word. -/
theorem disable_loop_word (group bit : Nat) :
    ∀ (cpus : List Nat) (s : State) (a : Nat),
      (Touched s group cpus a →
        (disable_loop group bit cpus s).plic_enable a = s.plic_enable a &&& not32 bit) ∧
      (¬ Touched s group cpus a →
        (disable_loop group bit cpus s).plic_enable a = s.plic_enable a)
  | [], s, a => by
    constructor
    · rintro ⟨c, hc, _⟩
      simp at hc
    · intro _
      rfl
  | c :: cpus, s, a => by
    unfold disable_loop
    cases h : (s.cpu c).plic_m_ie with
    | none =>
      have ih := disable_loop_word group bit cpus s a
      have hiff : Touched s group (c :: cpus) a ↔ Touched s group cpus a := by
        constructor
        · rintro ⟨c1, hc1, e, he, hea⟩
          rcases List.mem_cons.mp hc1 with rfl | hmem
          · rw [h] at he
            cases he
          · exact ⟨c1, hmem, e, he, hea⟩
        · rintro ⟨c1, hc1, e, he, hea⟩
          exact ⟨c1, List.mem_cons_of_mem _ hc1, e, he, hea⟩
      simpa [hiff] using ih
    | some e =>
      have ih := disable_loop_word group bit cpus (clear_enable_bit s e group bit) a
      have hT : Touched (clear_enable_bit s e group bit) group cpus a ↔
          Touched s group cpus a := Iff.rfl
      rw [hT] at ih
      simp only []
      by_cases hea : e + group = a
      · have hnew : (clear_enable_bit s e group bit).plic_enable a =
            s.plic_enable a &&& not32 bit := by
          simp [clear_enable_bit, hea]
        have htouched : Touched s group (c :: cpus) a := ⟨c, by simp, e, h, hea⟩
        constructor
        · intro _
          by_cases ht : Touched s group cpus a
          · rw [ih.1 ht, hnew]
            apply Nat.eq_of_testBit_eq
            intro i
            simp only [Nat.testBit_and]
            cases (s.plic_enable a).testBit i <;> cases (not32 bit).testBit i <;> rfl
          · rw [ih.2 ht, hnew]
        · intro hn
          exact absurd htouched hn
      · have hold : (clear_enable_bit s e group bit).plic_enable a = s.plic_enable a := by
          simp [clear_enable_bit, Function.update_apply, Ne.symm hea]
        have hiff : Touched s group (c :: cpus) a ↔ Touched s group cpus a := by
          constructor
          · rintro ⟨c1, hc1, e1, he1, he1a⟩
            rcases List.mem_cons.mp hc1 with rfl | hmem
            · rw [h] at he1
              cases he1
              exact absurd he1a hea
            · exact ⟨c1, hmem, e1, he1, he1a⟩
          · rintro ⟨c1, hc1, e1, he1, he1a⟩
            exact ⟨c1, List.mem_cons_of_mem _ hc1, e1, he1, he1a⟩
        rw [hiff]
        rw [hold] at ih
        exact ih

/-- The SMP loop of `bsp_interrupt_vector_is_enabled` answers true exactly
when one of the processors it visits has an enable block with the bit set. -/
theorem is_enabled_loop_iff (s : State) (group bit : Nat) :
    ∀ cpus : List Nat,
      is_enabled_loop s group bit cpus = true ↔
        ∃ c ∈ cpus, ∃ e, (s.cpu c).plic_m_ie = some e ∧ s.plic_enable (e + group) &&& bit ≠ 0
  | [] => by simp [is_enabled_loop]
  | c :: cpus => by
    have ih := is_enabled_loop_iff s group bit cpus
    unfold is_enabled_loop
    cases h : (s.cpu c).plic_m_ie with
    | none =>
      simp only []
      rw [ih]
      constructor
      · rintro ⟨c1, hc1, e, he, hb⟩
        exact ⟨c1, List.mem_cons_of_mem _ hc1, e, he, hb⟩
      · rintro ⟨c1, hc1, e, he, hb⟩
        rcases List.mem_cons.mp hc1 with rfl | hmem
        · rw [h] at he
          cases he
        · exact ⟨c1, hmem, e, he, hb⟩
    | some e0 =>
      simp only []
      by_cases hb0 : s.plic_enable (e0 + group) &&& bit ≠ 0
      · rw [if_pos hb0]
        simp only [true_iff]
        exact ⟨c, by simp, e0, h, hb0⟩
      · rw [if_neg hb0, ih]
        constructor
        · rintro ⟨c1, hc1, e, he, hb⟩
          exact ⟨c1, List.mem_cons_of_mem _ hc1, e, he, hb⟩
        · rintro ⟨c1, hc1, e, he, hb⟩
          rcases List.mem_cons.mp hc1 with rfl | hmem
          · rw [h] at he
            cases he
            exact absurd hb hb0
          · exact ⟨c1, hmem, e, he, hb⟩

/-! ## Vector arithmetic -/

/-- For a valid external vector the source index is the vector minus the
external base, it is at least one, and its entry of the affinity table
exists. -/
theorem external_index (P : Platform) (hP : Consistent P) (vector : Nat)
    (hvalid : bsp_interrupt_is_valid_vector P vector = true)
    (hext : RISCV_INTERRUPT_VECTOR_IS_EXTERNAL P vector = true) :
    RISCV_INTERRUPT_VECTOR_EXTERNAL_TO_INDEX P vector = vector - P.ext_base ∧
    1 ≤ vector - P.ext_base ∧
    vector - P.ext_base < P.RISCV_MAXIMUM_EXTERNAL_INTERRUPTS ∧
    u32 (RISCV_INTERRUPT_VECTOR_EXTERNAL_TO_INDEX P vector + 4294967295) =
      vector - P.ext_base - 1 ∧
    u32 (RISCV_INTERRUPT_VECTOR_EXTERNAL_TO_INDEX P vector + 4294967295) <
      P.RISCV_MAXIMUM_EXTERNAL_INTERRUPTS := by
  have h1 := hP.count_eq
  have h2 := hP.count_lt
  simp only [RISCV_INTERRUPT_VECTOR_IS_EXTERNAL, decide_eq_true_eq] at hext
  simp only [bsp_interrupt_is_valid_vector, RISCV_INTERRUPT_VECTOR_EXTERNAL, u32] at hvalid
  split at hvalid
  · cases hvalid
  · rename_i hne
    simp only [decide_eq_true_eq] at hvalid
    simp only [RISCV_INTERRUPT_VECTOR_EXTERNAL_TO_INDEX, u32]
    omega

/-! ## Frame of the vector control operations -/

theorem enable_frame (P : Platform) (self : Nat) (s s1 : State) (vector : Nat)
    (status : rtems_status_code)
    (h : bsp_interrupt_vector_enable P self s vector = .ok (status, s1)) :
    s1.cpu = s.cpu ∧ s1.riscv_plic_irq_to_cpu = s.riscv_plic_irq_to_cpu := by
  unfold bsp_interrupt_vector_enable at h
  simp only [bind, Except.bind, pure, Except.pure, irq_to_cpu_read] at h
  repeat' split at h
  all_goals try cases h
  all_goals first
    | exact ⟨rfl, rfl⟩
    | exact ⟨(enable_loop_frame _ _ _ _).1, (enable_loop_frame _ _ _ _).2.1⟩

theorem disable_frame (P : Platform) (self : Nat) (s s1 : State) (vector : Nat)
    (status : rtems_status_code)
    (h : bsp_interrupt_vector_disable P self s vector = .ok (status, s1)) :
    s1.cpu = s.cpu ∧ s1.riscv_plic_irq_to_cpu = s.riscv_plic_irq_to_cpu := by
  unfold bsp_interrupt_vector_disable at h
  simp only [bind, Except.bind, pure, Except.pure, irq_to_cpu_read] at h
  repeat' split at h
  all_goals try cases h
  all_goals first
    | exact ⟨rfl, rfl⟩
    | exact ⟨(disable_loop_frame _ _ _ _).1, (disable_loop_frame _ _ _ _).2.1⟩

theorem raise_on_frame (P : Platform) (s s1 : State) (vector cpu_index : Nat)
    (status : rtems_status_code)
    (h : riscv_raise_on P s vector cpu_index = .ok (status, s1)) :
    s1.cpu = s.cpu ∧ s1.riscv_plic_irq_to_cpu = s.riscv_plic_irq_to_cpu := by
  unfold riscv_raise_on at h
  simp only [bind, Except.bind, pure, Except.pure, throw, throwThe, MonadExceptOf.throw] at h
  repeat' split at h
  all_goals try cases h
  all_goals exact ⟨rfl, rfl⟩

theorem clear_frame (P : Platform) (s s1 : State) (vector : Nat)
    (status : rtems_status_code)
    (h : bsp_interrupt_clear P s vector = .ok (status, s1)) : s1 = s := by
  unfold bsp_interrupt_clear at h
  simp only [bind, Except.bind, pure, Except.pure] at h
  repeat' split at h
  all_goals try cases h
  all_goals rfl

/-- The processor that `bsp_interrupt_set_affinity` finds in a mask with one
member. -/
theorem find_last_set_singleton (p : Nat) (hp : p < 4294967296) :
    u32 (_Processor_mask_Find_last_set {p} + 4294967295) = p := by
  simp only [_Processor_mask_Find_last_set, Finset.sup_singleton, u32]
  omega

theorem set_affinity_frame (P : Platform) (s s1 : State) (vector : Nat)
    (affinity : Processor_mask) (status : rtems_status_code)
    (h : bsp_interrupt_set_affinity P s vector affinity = .ok (status, s1)) :
    s1.cpu = s.cpu ∧ s1.plic_enable = s.plic_enable := by
  unfold bsp_interrupt_set_affinity at h
  simp only [irq_to_cpu_write] at h
  repeat' split at h
  all_goals try cases h
  all_goals first
    | exact ⟨rfl, rfl⟩
    | (rename_i heq
       split at heq
       all_goals cases heq
       exact ⟨rfl, rfl⟩)

/-! ## Invariants of topology discovery -/

theorem foldl_invariant {α β : Type} (f : α → β → α) (I : α → Prop)
    (hstep : ∀ a b, I a → I (f a b)) : ∀ (l : List β) (a : α), I a → I (l.foldl f a)
  | [], _, h => h
  | b :: l, a, h => foldl_invariant f I hstep l (f a b) (hstep a b h)

theorem foldl_range_invariant {α : Type} (f : α → Nat → α) (I : Nat → α → Prop)
    (hstep : ∀ n a, I n a → I (n + 1) (f a n)) (a : α) (h0 : I 0 a) :
    ∀ n, I n ((List.range n).foldl f a)
  | 0 => h0
  | n + 1 => by
    rw [List.range_succ, List.foldl_append]
    exact hstep n _ (foldl_range_invariant f I hstep a h0 n)

theorem attach_clint_untouched (s0 s : State) (c k : Nat) (h : PlicUntouched s0 s) :
    PlicUntouched s0 (attach_clint s c k) := by
  refine ⟨h.1, fun c1 => ?_⟩
  rw [← h.2 c1]
  simp only [attach_clint, Function.update_apply]
  split
  · rename_i heq
    rw [heq]
  · rfl

theorem riscv_clint_init_untouched (P : Platform) (fdt : Fdt) (s0 s : State)
    (h : riscv_clint_init P fdt s0 = .ok s) : PlicUntouched s0 s := by
  unfold riscv_clint_init at h
  split at h
  · cases h
  · simp only [Except.ok.injEq] at h
    rw [← h]
    apply foldl_invariant _ (PlicUntouched s0)
    · intro a k ha
      unfold riscv_clint_init_body
      simp only []
      repeat' split
      all_goals first
        | exact ha
        | exact attach_clint_untouched s0 a _ k ha
    · exact ⟨rfl, fun _ => rfl⟩

theorem clear_enable_words_frame (s : State) (plic_m_ie n : Nat) :
    (clear_enable_words s plic_m_ie n).cpu = s.cpu ∧
    (clear_enable_words s plic_m_ie n).riscv_plic_irq_to_cpu = s.riscv_plic_irq_to_cpu := by
  unfold clear_enable_words
  apply foldl_invariant _
    (fun t : State => t.cpu = s.cpu ∧ t.riscv_plic_irq_to_cpu = s.riscv_plic_irq_to_cpu)
  · intro a b ha
    exact ha
  · exact ⟨rfl, rfl⟩

theorem AttachInv.mono (P : Platform) (n : Nat) (s : State) (h : AttachInv P n s) :
    AttachInv P (n + 1) s :=
  ⟨h.1, fun c e he => by
    obtain ⟨k, hk, hek⟩ := h.2.1 c e he
    exact ⟨k, by omega, hek⟩, h.2.2⟩

theorem attach_plic_inv (P : Platform) (hW : 0 < P.enable_words) (n ndev cpu_index : Nat)
    (s : State) (h : AttachInv P n s) : AttachInv P (n + 1) (attach_plic P s cpu_index n ndev) := by
  obtain ⟨h1, h2, h3⟩ := h
  have hcpu : ∀ c, ((attach_plic P s cpu_index n ndev).cpu c).plic_m_ie =
      if c = cpu_index then some (P.enable_words * n) else (s.cpu c).plic_m_ie := by
    intro c
    unfold attach_plic
    simp only []
    rw [(clear_enable_words_frame _ _ _).1]
    simp only [Function.update_apply]
    split <;> rfl
  have htab : (attach_plic P s cpu_index n ndev).riscv_plic_irq_to_cpu =
      s.riscv_plic_irq_to_cpu := by
    unfold attach_plic
    simp only []
    rw [(clear_enable_words_frame _ _ _).2]
  have hfresh : ∀ c, (s.cpu c).plic_m_ie ≠ some (P.enable_words * n) := by
    intro c hc
    obtain ⟨k, hk, hek⟩ := h2 c _ hc
    have := Nat.eq_of_mul_eq_mul_left hW hek
    omega
  refine ⟨?_, ?_, ?_⟩
  · intro k
    rw [htab]
    exact h1 k
  · intro c e he
    rw [hcpu] at he
    split at he
    · exact ⟨n, by omega, by simpa using he.symm⟩
    · obtain ⟨k, hk, hek⟩ := h2 c e he
      exact ⟨k, by omega, hek⟩
  · intro c1 c2 e he1 he2
    rw [hcpu] at he1 he2
    split at he1 <;> split at he2
    · omega
    · cases he1
      exact absurd he2 (hfresh c2)
    · cases he2
      exact absurd he1 (hfresh c1)
    · exact h3 c1 c2 e he1 he2

theorem riscv_plic_init_body_inv (P : Platform) (hW : 0 < P.enable_words) (fdt : Fdt)
    (ndev n : Nat) (r : Except Fault State)
    (h : ∀ s, r = .ok s → AttachInv P n s) :
    ∀ s, riscv_plic_init_body P fdt ndev r n = .ok s → AttachInv P (n + 1) s := by
  intro s hs
  unfold riscv_plic_init_body at hs
  split at hs
  · cases hs
  · rename_i s0
    have h0 := h s0 rfl
    simp only [] at hs
    repeat' split at hs
    all_goals try cases hs
    all_goals first
      | exact AttachInv.mono P n _ h0
      | exact attach_plic_inv P hW n ndev _ _ h0

theorem riscv_plic_init_source_inv (enable : Option Nat) (cpu : Nat → Per_CPU_Control)
    (s : State) (i : Nat)
    (h : s.cpu = cpu ∧ ∀ k, s.riscv_plic_irq_to_cpu k = none ∨ s.riscv_plic_irq_to_cpu k = enable) :
    (riscv_plic_init_source enable s i).cpu = cpu ∧
    ∀ k, (riscv_plic_init_source enable s i).riscv_plic_irq_to_cpu k = none ∨
      (riscv_plic_init_source enable s i).riscv_plic_irq_to_cpu k = enable := by
  refine ⟨h.1, fun k => ?_⟩
  simp only [riscv_plic_init_source, Function.update_apply]
  split
  · exact Or.inr rfl
  · exact h.2 k

theorem riscv_plic_init_inv (P : Platform) (hP : Consistent P) (fdt : Fdt) (self : Nat)
    (s0 s : State) (h0 : AttachInv P 0 s0) (h : riscv_plic_init P fdt self s0 = .ok s) :
    Inv P s := by
  have hboot : Inv P s0 := by
    refine ⟨fun k e hk => ?_, fun c e he => ?_, h0.2.2⟩
    · rw [h0.1 k] at hk
      cases hk
    · obtain ⟨k, hk, _⟩ := h0.2.1 c e he
      omega
  unfold riscv_plic_init at h
  split at h
  · split at h
    · cases h
      exact hboot
    · cases h
  · rename_i plic hplic
    simp only [] at h
    split at h
    · rename_i b0 b1 b2 b3 hndev
      generalize fdt32_to_cpu b0 b1 b2 b3 = ndev at h
      split at h
      · cases h
      · split at h
        · cases h
        · rename_i s1 hloop
          simp only [Except.ok.injEq] at h
          have h1 : AttachInv P ((4 * fdt.plic_interrupts_extended.length + 7) / 8) s1 := by
            have := foldl_range_invariant (riscv_plic_init_body P fdt ndev)
              (fun n r => ∀ t, r = .ok t → AttachInv P n t)
              (fun n r hr => riscv_plic_init_body_inv P hP.enable_words_pos fdt ndev n r hr)
              (.ok { s0 with riscv_plic := some plic })
              (by
                intro t ht
                cases ht
                exact h0)
              ((4 * fdt.plic_interrupts_extended.length + 7) / 8)
            exact this s1 hloop
          have h2 := foldl_invariant (riscv_plic_init_source (s1.cpu 0).plic_m_ie)
            (fun t : State => t.cpu = s1.cpu ∧ ∀ k, t.riscv_plic_irq_to_cpu k = none ∨
              t.riscv_plic_irq_to_cpu k = (s1.cpu 0).plic_m_ie)
            (fun a b ha => riscv_plic_init_source_inv _ _ a b ha)
            ((List.range ndev).map (· + 1)) s1 ⟨rfl, fun k => Or.inl (h1.1 k)⟩
          rw [← h]
          refine ⟨fun k e hk => ?_, fun c e he => ?_, fun c1 c2 e he1 he2 => ?_⟩
          · simp only [] at hk
            rcases h2.2 k with hn | hs
            · rw [hn] at hk
              cases hk
            · refine ⟨0, hP.processor_maximum_pos, ?_⟩
              simp only []
              rw [h2.1, ← hs, hk]
          · simp only [] at he
            rw [h2.1] at he
            obtain ⟨k, _, hek⟩ := h1.2.1 c e he
            exact ⟨k, hek⟩
          · simp only [] at he1 he2
            rw [h2.1] at he1 he2
            exact h1.2.2 c1 c2 e he1 he2
    · cases h

theorem facility_initialize_inv (P : Platform) (hP : Consistent P) (fdt : Fdt) (self : Nat)
    (s0 s : State) (h0 : Boot s0)
    (h : bsp_interrupt_facility_initialize P fdt self s0 = .ok s) : Inv P s := by
  unfold bsp_interrupt_facility_initialize at h
  split at h
  · cases h
  · rename_i s1 hclint
    have hu := riscv_clint_init_untouched P fdt s0 s1 hclint
    obtain ⟨_, _, htab, hcpu⟩ := h0
    have hnone : ∀ c, (s1.cpu c).plic_m_ie = none := by
      intro c
      rw [hu.2 c, hcpu c]
    refine riscv_plic_init_inv P hP fdt self s1 s ⟨?_, ?_, ?_⟩ h
    · intro k
      rw [hu.1]
      exact htab k
    · intro c e he
      rw [hnone c] at he
      cases he
    · intro c1 c2 e he
      rw [hnone c1] at he
      cases he

theorem set_affinity_inv (P : Platform) (hP : Consistent P) (s s1 : State) (vector : Nat)
    (affinity : Processor_mask) (status : rtems_status_code) (hinv : Inv P s)
    (h : bsp_interrupt_set_affinity P s vector affinity = .ok (status, s1)) : Inv P s1 := by
  have hframe := set_affinity_frame P s s1 vector affinity status h
  refine ⟨?_, ?_⟩
  swap
  · unfold BlocksApart
    rw [hframe.1]
    exact hinv.2
  unfold bsp_interrupt_set_affinity at h
  simp only [irq_to_cpu_write] at h
  intro k e hk
  rw [hframe.1]
  split at h
  · split at h
    · split at h
      · cases h
      · rename_i t heq
        split at heq
        · cases heq
          cases h
          simp only [Function.update_apply] at hk
          split at hk
          · cases hk
          · exact hinv.1 k e hk
        · cases heq
    · split at h
      · rename_i hcount
        split at h
        · cases h
        · rename_i t heq
          split at heq
          · cases heq
            cases h
            simp only [Function.update_apply] at hk
            split at hk
            · obtain ⟨a, ha⟩ := Finset.card_eq_one.mp hcount
              have hmem : a ∈ P.online_processors := by
                have : a ∈ _Processor_mask_And affinity P.online_processors := by
                  rw [ha]
                  exact Finset.mem_singleton_self a
                exact (Finset.mem_inter.mp this).2
              have hlt := hP.online_lt a hmem
              have hpm := hP.processor_maximum_lt
              rw [ha, find_last_set_singleton a (by omega)] at hk
              exact ⟨a, hlt, hk⟩
            · exact hinv.1 k e hk
          · cases heq
      · cases h
        exact hinv.1 k e hk
  · cases h
    exact hinv.1 k e hk

/-- Every reachable state satisfies the invariant. -/
theorem reachable_inv (P : Platform) (hP : Consistent P) (s : State) (h : Reachable P s) :
    Inv P s := by
  induction h with
  | init hboot hinit => exact facility_initialize_inv P hP _ _ _ _ hboot hinit
  | enable _ hstep ih =>
    have hf := enable_frame P _ _ _ _ _ hstep
    unfold Inv TableResolves BlocksApart
    rw [hf.1, hf.2]
    exact ih
  | disable _ hstep ih =>
    have hf := disable_frame P _ _ _ _ _ hstep
    unfold Inv TableResolves BlocksApart
    rw [hf.1, hf.2]
    exact ih
  | raise_on _ hstep ih =>
    have hf := raise_on_frame P _ _ _ _ _ hstep
    unfold Inv TableResolves BlocksApart
    rw [hf.1, hf.2]
    exact ih
  | clear _ hstep ih =>
    rw [clear_frame P _ _ _ _ hstep]
    exact ih
  | set_affinity _ _ hstep ih => exact set_affinity_inv P hP _ _ _ _ _ ih hstep

/-! ## The operations on an external vector -/

theorem assert_true (P : Platform) : bsp_interrupt_assert P true = .ok () := by
  simp [bsp_interrupt_assert]

theorem irq_to_cpu_read_valid (P : Platform) (hP : Consistent P) (s : State) (vector : Nat)
    (hvalid : bsp_interrupt_is_valid_vector P vector = true)
    (hext : RISCV_INTERRUPT_VECTOR_IS_EXTERNAL P vector = true) :
    irq_to_cpu_read P s (RISCV_INTERRUPT_VECTOR_EXTERNAL_TO_INDEX P vector) =
      .ok (s.riscv_plic_irq_to_cpu (vector - P.ext_base - 1)) := by
  obtain ⟨_, _, _, h4, h5⟩ := external_index P hP vector hvalid hext
  unfold irq_to_cpu_read
  rw [if_pos h5, h4]

theorem enable_exclusive (P : Platform) (self : Nat) (s : State) (vector enable : Nat)
    (hvalid : bsp_interrupt_is_valid_vector P vector = true)
    (hext : RISCV_INTERRUPT_VECTOR_IS_EXTERNAL P vector = true)
    (hread : irq_to_cpu_read P s (RISCV_INTERRUPT_VECTOR_EXTERNAL_TO_INDEX P vector) =
      .ok (some enable)) :
    bsp_interrupt_vector_enable P self s vector = .ok (.RTEMS_SUCCESSFUL,
      set_enable_bit s enable (RISCV_INTERRUPT_VECTOR_EXTERNAL_TO_INDEX P vector / 32)
        (2 ^ (RISCV_INTERRUPT_VECTOR_EXTERNAL_TO_INDEX P vector % 32))) := by
  unfold bsp_interrupt_vector_enable
  simp only [hvalid, assert_true, hext, hread, bind, Except.bind, pure, Except.pure, if_true]

theorem enable_broadcast (P : Platform) (self : Nat) (s : State) (vector : Nat)
    (hvalid : bsp_interrupt_is_valid_vector P vector = true)
    (hext : RISCV_INTERRUPT_VECTOR_IS_EXTERNAL P vector = true)
    (hread : irq_to_cpu_read P s (RISCV_INTERRUPT_VECTOR_EXTERNAL_TO_INDEX P vector) = .ok none) :
    bsp_interrupt_vector_enable P self s vector = .ok (.RTEMS_SUCCESSFUL,
      if P.RTEMS_SMP then
        enable_loop (RISCV_INTERRUPT_VECTOR_EXTERNAL_TO_INDEX P vector / 32)
          (2 ^ (RISCV_INTERRUPT_VECTOR_EXTERNAL_TO_INDEX P vector % 32))
          (List.range P.processor_maximum) s
      else
        match (s.cpu 0).plic_m_ie with
        | some enable =>
          set_enable_bit s enable (RISCV_INTERRUPT_VECTOR_EXTERNAL_TO_INDEX P vector / 32)
            (2 ^ (RISCV_INTERRUPT_VECTOR_EXTERNAL_TO_INDEX P vector % 32))
        | none => s) := by
  unfold bsp_interrupt_vector_enable
  simp only [hvalid, assert_true, hext, hread, bind, Except.bind, pure, Except.pure, if_true]
  by_cases hsmp : P.RTEMS_SMP = true
  · simp only [hsmp, if_true]
  · simp only [hsmp, if_false]
    cases (s.cpu 0).plic_m_ie <;> rfl

theorem disable_exclusive (P : Platform) (self : Nat) (s : State) (vector enable : Nat)
    (hvalid : bsp_interrupt_is_valid_vector P vector = true)
    (hext : RISCV_INTERRUPT_VECTOR_IS_EXTERNAL P vector = true)
    (hread : irq_to_cpu_read P s (RISCV_INTERRUPT_VECTOR_EXTERNAL_TO_INDEX P vector) =
      .ok (some enable)) :
    bsp_interrupt_vector_disable P self s vector = .ok (.RTEMS_SUCCESSFUL,
      clear_enable_bit s enable (RISCV_INTERRUPT_VECTOR_EXTERNAL_TO_INDEX P vector / 32)
        (2 ^ (RISCV_INTERRUPT_VECTOR_EXTERNAL_TO_INDEX P vector % 32))) := by
  unfold bsp_interrupt_vector_disable
  simp only [hvalid, assert_true, hext, hread, bind, Except.bind, pure, Except.pure, if_true]

theorem disable_broadcast (P : Platform) (self : Nat) (s : State) (vector : Nat)
    (hvalid : bsp_interrupt_is_valid_vector P vector = true)
    (hext : RISCV_INTERRUPT_VECTOR_IS_EXTERNAL P vector = true)
    (hread : irq_to_cpu_read P s (RISCV_INTERRUPT_VECTOR_EXTERNAL_TO_INDEX P vector) = .ok none) :
    bsp_interrupt_vector_disable P self s vector = .ok (.RTEMS_SUCCESSFUL,
      if P.RTEMS_SMP then
        disable_loop (RISCV_INTERRUPT_VECTOR_EXTERNAL_TO_INDEX P vector / 32)
          (2 ^ (RISCV_INTERRUPT_VECTOR_EXTERNAL_TO_INDEX P vector % 32))
          (List.range P.processor_maximum) s
      else
        match (s.cpu 0).plic_m_ie with
        | some enable =>
          clear_enable_bit s enable (RISCV_INTERRUPT_VECTOR_EXTERNAL_TO_INDEX P vector / 32)
            (2 ^ (RISCV_INTERRUPT_VECTOR_EXTERNAL_TO_INDEX P vector % 32))
        | none => s) := by
  unfold bsp_interrupt_vector_disable
  simp only [hvalid, assert_true, hext, hread, bind, Except.bind, pure, Except.pure, if_true]
  by_cases hsmp : P.RTEMS_SMP = true
  · simp only [hsmp, if_true]
  · simp only [hsmp, if_false]
    cases (s.cpu 0).plic_m_ie <;> rfl

theorem is_enabled_external_smp (P : Platform) (self : Nat) (s : State) (vector : Nat)
    (hsmp : P.RTEMS_SMP = true)
    (hvalid : bsp_interrupt_is_valid_vector P vector = true)
    (hext : RISCV_INTERRUPT_VECTOR_IS_EXTERNAL P vector = true) :
    bsp_interrupt_vector_is_enabled P self s vector = .ok (.RTEMS_SUCCESSFUL,
      is_enabled_loop s (RISCV_INTERRUPT_VECTOR_EXTERNAL_TO_INDEX P vector / 32)
        (2 ^ (RISCV_INTERRUPT_VECTOR_EXTERNAL_TO_INDEX P vector % 32))
        (List.range P.processor_maximum)) := by
  unfold bsp_interrupt_vector_is_enabled
  simp only [hvalid, assert_true, hext, hsmp, bind, Except.bind, pure, Except.pure, if_true]

theorem is_enabled_external_up (P : Platform) (self : Nat) (s : State) (vector enable : Nat)
    (hsmp : P.RTEMS_SMP = false)
    (hvalid : bsp_interrupt_is_valid_vector P vector = true)
    (hext : RISCV_INTERRUPT_VECTOR_IS_EXTERNAL P vector = true)
    (hcpu : (s.cpu 0).plic_m_ie = some enable) :
    bsp_interrupt_vector_is_enabled P self s vector = .ok (.RTEMS_SUCCESSFUL,
      decide (s.plic_enable (enable + RISCV_INTERRUPT_VECTOR_EXTERNAL_TO_INDEX P vector / 32) &&&
        2 ^ (RISCV_INTERRUPT_VECTOR_EXTERNAL_TO_INDEX P vector % 32) ≠ 0)) := by
  unfold bsp_interrupt_vector_is_enabled
  simp only [hvalid, assert_true, hext, hsmp, hcpu, bind, Except.bind, pure, Except.pure, if_true]
  rfl

/-! ## The operations on the timer and the software vector -/

theorem not_external_of_lt (P : Platform) (vector : Nat) (h : vector < P.ext_base) :
    RISCV_INTERRUPT_VECTOR_IS_EXTERNAL P vector = false := by
  simp only [RISCV_INTERRUPT_VECTOR_IS_EXTERNAL, decide_eq_false_iff_not]
  omega

theorem enable_local (P : Platform) (self : Nat) (s : State) (vector : Nat)
    (hvalid : bsp_interrupt_is_valid_vector P vector = true)
    (hext : RISCV_INTERRUPT_VECTOR_IS_EXTERNAL P vector = false)
    (hkind : vector = P.RISCV_INTERRUPT_VECTOR_TIMER ∨ vector = P.RISCV_INTERRUPT_VECTOR_SOFTWARE) :
    bsp_interrupt_vector_enable P self s vector = .ok (.RTEMS_SUCCESSFUL,
      { s with mie := Function.update s.mie self (s.mie self ||| mie_bit P vector) }) := by
  unfold bsp_interrupt_vector_enable mie_bit
  simp only [hvalid, assert_true, hext, bind, Except.bind, pure, Except.pure]
  by_cases ht : vector = P.RISCV_INTERRUPT_VECTOR_TIMER
  · simp [ht]
  · have hs : vector = P.RISCV_INTERRUPT_VECTOR_SOFTWARE := by
      rcases hkind with h | h
      · exact absurd h ht
      · exact h
    simp only [ht, if_false]
    simp [hs, assert_true, bind, Except.bind]

theorem disable_local (P : Platform) (self : Nat) (s : State) (vector : Nat)
    (hvalid : bsp_interrupt_is_valid_vector P vector = true)
    (hext : RISCV_INTERRUPT_VECTOR_IS_EXTERNAL P vector = false)
    (hkind : vector = P.RISCV_INTERRUPT_VECTOR_TIMER ∨ vector = P.RISCV_INTERRUPT_VECTOR_SOFTWARE) :
    bsp_interrupt_vector_disable P self s vector = .ok (.RTEMS_SUCCESSFUL,
      { s with mie := Function.update s.mie self (s.mie self &&& notx P (mie_bit P vector)) }) := by
  unfold bsp_interrupt_vector_disable mie_bit
  simp only [hvalid, assert_true, hext, bind, Except.bind, pure, Except.pure]
  by_cases ht : vector = P.RISCV_INTERRUPT_VECTOR_TIMER
  · simp [ht]
  · have hs : vector = P.RISCV_INTERRUPT_VECTOR_SOFTWARE := by
      rcases hkind with h | h
      · exact absurd h ht
      · exact h
    simp only [ht, if_false]
    simp [hs, assert_true, bind, Except.bind]

theorem is_enabled_local (P : Platform) (self : Nat) (s : State) (vector : Nat)
    (hvalid : bsp_interrupt_is_valid_vector P vector = true)
    (hext : RISCV_INTERRUPT_VECTOR_IS_EXTERNAL P vector = false)
    (hkind : vector = P.RISCV_INTERRUPT_VECTOR_TIMER ∨ vector = P.RISCV_INTERRUPT_VECTOR_SOFTWARE) :
    bsp_interrupt_vector_is_enabled P self s vector = .ok (.RTEMS_SUCCESSFUL,
      decide (s.mie self &&& mie_bit P vector ≠ 0)) := by
  unfold bsp_interrupt_vector_is_enabled mie_bit
  simp only [hvalid, assert_true, hext, bind, Except.bind, pure, Except.pure]
  by_cases ht : vector = P.RISCV_INTERRUPT_VECTOR_TIMER
  · simp [ht]
  · have hs : vector = P.RISCV_INTERRUPT_VECTOR_SOFTWARE := by
      rcases hkind with h | h
      · exact absurd h ht
      · exact h
    simp only [ht, if_false]
    simp [hs, assert_true, bind, Except.bind]

/-! ## Enable and disable, then is_enabled -/

theorem supported_cases (P : Platform) (hP : Consistent P) (vector : Nat)
    (hv : Supported P vector) :
    RISCV_INTERRUPT_VECTOR_IS_EXTERNAL P vector = true ∨
    (RISCV_INTERRUPT_VECTOR_IS_EXTERNAL P vector = false ∧
      (vector = P.RISCV_INTERRUPT_VECTOR_TIMER ∨ vector = P.RISCV_INTERRUPT_VECTOR_SOFTWARE)) := by
  rcases hv.2 with h | h | h
  · exact Or.inl h
  · exact Or.inr ⟨not_external_of_lt P vector (h ▸ hP.timer_lt), Or.inl h⟩
  · exact Or.inr ⟨not_external_of_lt P vector (h ▸ hP.software_lt), Or.inr h⟩

theorem mie_bit_pos (P : Platform) (hP : Consistent P) (vector : Nat) : 0 < mie_bit P vector := by
  unfold mie_bit
  split
  · exact hP.mtip_pos
  · exact hP.msip_pos

theorem mie_bit_lt (P : Platform) (hP : Consistent P) (vector : Nat) :
    mie_bit P vector < 2 ^ P.xlen := by
  unfold mie_bit
  split
  · exact hP.mtip_lt
  · exact hP.msip_lt

/-- C2, as the code has it: in a reachable state, for a valid timer, software
or external vector, and for an external vector provided some processor below
the processor maximum has an attached enable block,
`bsp_interrupt_vector_enable` returns `RTEMS_SUCCESSFUL` and
`bsp_interrupt_vector_is_enabled` called next returns `RTEMS_SUCCESSFUL` and
reports true. -/
theorem enable_then_is_enabled (P : Platform) (hP : Consistent P) (s : State)
    (hs : Reachable P s) (self vector : Nat) (hv : Supported P vector)
    (hattached : RISCV_INTERRUPT_VECTOR_IS_EXTERNAL P vector = true →
      ∃ c, c < P.processor_maximum ∧ (s.cpu c).plic_m_ie ≠ none) :
    ∃ s1, bsp_interrupt_vector_enable P self s vector = .ok (.RTEMS_SUCCESSFUL, s1) ∧
      bsp_interrupt_vector_is_enabled P self s1 vector = .ok (.RTEMS_SUCCESSFUL, true) := by
  rcases supported_cases P hP vector hv with hext | ⟨hext, hkind⟩
  · have hread := irq_to_cpu_read_valid P hP s vector hv.1 hext
    obtain ⟨c0, hc0, hatt⟩ := hattached hext
    obtain ⟨e0, he0⟩ := Option.ne_none_iff_exists'.mp hatt
    have hinv := reachable_inv P hP s hs
    -- a processor below the maximum whose block has the bit set afterwards
    have key : ∀ s1 : State, s1.cpu = s.cpu →
        (∃ c, c < P.processor_maximum ∧ ∃ e, (s.cpu c).plic_m_ie = some e ∧
          (s1.plic_enable (e + RISCV_INTERRUPT_VECTOR_EXTERNAL_TO_INDEX P vector / 32)).testBit
            (RISCV_INTERRUPT_VECTOR_EXTERNAL_TO_INDEX P vector % 32) = true) →
        bsp_interrupt_vector_is_enabled P self s1 vector = .ok (.RTEMS_SUCCESSFUL, true) := by
      intro s1 hcpu ⟨c, hc, e, he, hbit⟩
      by_cases hsmp : P.RTEMS_SMP = true
      · rw [is_enabled_external_smp P self s1 vector hsmp hv.1 hext]
        have : is_enabled_loop s1 (RISCV_INTERRUPT_VECTOR_EXTERNAL_TO_INDEX P vector / 32)
            (2 ^ (RISCV_INTERRUPT_VECTOR_EXTERNAL_TO_INDEX P vector % 32))
            (List.range P.processor_maximum) = true := by
          rw [is_enabled_loop_iff]
          refine ⟨c, List.mem_range.mpr hc, e, by rw [hcpu]; exact he, ?_⟩
          exact (and_two_pow_ne_zero_iff _ _).mpr hbit
        rw [this]
      · have hsmp : P.RTEMS_SMP = false := by simpa using hsmp
        have hone := hP.uniprocessor hsmp
        have hc0 : c = 0 := by omega
        subst hc0
        rw [is_enabled_external_up P self s1 vector e hsmp hv.1 hext (by rw [hcpu]; exact he)]
        have := (and_two_pow_ne_zero_iff _ _).mpr hbit
        simp [this]
    cases hentry : s.riscv_plic_irq_to_cpu (vector - P.ext_base - 1) with
    | some e =>
      rw [hentry] at hread
      refine ⟨_, enable_exclusive P self s vector e hv.1 hext hread, ?_⟩
      obtain ⟨c, hc, hce⟩ := hinv.1 _ e hentry
      refine key _ (by rfl) ?_
      refine ⟨c, hc, e, hce, ?_⟩
      simp [set_enable_bit, testBit_or_two_pow]
    | none =>
      rw [hentry] at hread
      refine ⟨_, enable_broadcast P self s vector hv.1 hext hread, ?_⟩
      by_cases hsmp : P.RTEMS_SMP = true
      · simp only [hsmp, if_true]
        apply key _ (enable_loop_frame _ _ _ _).1
        refine ⟨c0, hc0, e0, he0, ?_⟩
        have ht : Touched s (RISCV_INTERRUPT_VECTOR_EXTERNAL_TO_INDEX P vector / 32)
            (List.range P.processor_maximum)
            (e0 + RISCV_INTERRUPT_VECTOR_EXTERNAL_TO_INDEX P vector / 32) :=
          ⟨c0, List.mem_range.mpr hc0, e0, he0, rfl⟩
        rw [(enable_loop_word _ _ _ s _).1 ht]
        exact testBit_or_two_pow _ _
      · have hsmp : P.RTEMS_SMP = false := by simpa using hsmp
        have hone := hP.uniprocessor hsmp
        have hz : c0 = 0 := by omega
        subst hz
        simp only [hsmp, Bool.false_eq_true, if_false, he0]
        refine key _ (by rfl) ?_
        refine ⟨0, hc0, e0, he0, ?_⟩
        simp [set_enable_bit, testBit_or_two_pow]
  · refine ⟨_, enable_local P self s vector hv.1 hext hkind, ?_⟩
    rw [is_enabled_local P self _ vector hv.1 hext hkind]
    have := or_and_self_ne_zero (s.mie self) (mie_bit P vector) (mie_bit_pos P hP vector)
    simp [this]

/-- C3, as the code has it: for a valid timer, software or external vector,
`bsp_interrupt_vector_disable` returns `RTEMS_SUCCESSFUL` and
`bsp_interrupt_vector_is_enabled` called next returns `RTEMS_SUCCESSFUL` and
reports false.  For the timer and the software vector nothing else is asked.
For an external vector, on a uniprocessor build processor 0 has an attached
enable block and, when the affinity of the vector is exclusive to one enable
block, no processor below the processor maximum with another block has the bit
of the vector set. -/
theorem disable_then_is_enabled (P : Platform) (hP : Consistent P) (s : State)
    (self vector : Nat) (hv : Supported P vector)
    (hup : P.RTEMS_SMP = false → RISCV_INTERRUPT_VECTOR_IS_EXTERNAL P vector = true →
      (s.cpu 0).plic_m_ie ≠ none)
    (hothers : RISCV_INTERRUPT_VECTOR_IS_EXTERNAL P vector = true →
      ∀ e, s.riscv_plic_irq_to_cpu (vector - P.ext_base - 1) = some e →
      ∀ c e1, c < P.processor_maximum → (s.cpu c).plic_m_ie = some e1 → e1 ≠ e →
        s.plic_enable (e1 + RISCV_INTERRUPT_VECTOR_EXTERNAL_TO_INDEX P vector / 32) &&&
          2 ^ (RISCV_INTERRUPT_VECTOR_EXTERNAL_TO_INDEX P vector % 32) = 0) :
    ∃ s1, bsp_interrupt_vector_disable P self s vector = .ok (.RTEMS_SUCCESSFUL, s1) ∧
      bsp_interrupt_vector_is_enabled P self s1 vector = .ok (.RTEMS_SUCCESSFUL, false) := by
  rcases supported_cases P hP vector hv with hext | ⟨hext, hkind⟩
  · have hread := irq_to_cpu_read_valid P hP s vector hv.1 hext
    have hk32 : RISCV_INTERRUPT_VECTOR_EXTERNAL_TO_INDEX P vector % 32 < 32 :=
      Nat.mod_lt _ (by norm_num)
    -- no processor below the maximum has the bit set afterwards
    have key : ∀ s1 : State, s1.cpu = s.cpu →
        (P.RTEMS_SMP = false → (s.cpu 0).plic_m_ie ≠ none) →
        (∀ c e, c < P.processor_maximum → (s.cpu c).plic_m_ie = some e →
          (s1.plic_enable (e + RISCV_INTERRUPT_VECTOR_EXTERNAL_TO_INDEX P vector / 32)).testBit
            (RISCV_INTERRUPT_VECTOR_EXTERNAL_TO_INDEX P vector % 32) = false) →
        bsp_interrupt_vector_is_enabled P self s1 vector = .ok (.RTEMS_SUCCESSFUL, false) := by
      intro s1 hcpu h0 hclear
      by_cases hsmp : P.RTEMS_SMP = true
      · rw [is_enabled_external_smp P self s1 vector hsmp hv.1 hext]
        have : is_enabled_loop s1 (RISCV_INTERRUPT_VECTOR_EXTERNAL_TO_INDEX P vector / 32)
            (2 ^ (RISCV_INTERRUPT_VECTOR_EXTERNAL_TO_INDEX P vector % 32))
            (List.range P.processor_maximum) = false := by
          rw [← Bool.not_eq_true, is_enabled_loop_iff]
          rintro ⟨c, hc, e, he, hbit⟩
          rw [hcpu] at he
          have := hclear c e (List.mem_range.mp hc) he
          rw [and_two_pow_ne_zero_iff, this] at hbit
          cases hbit
        rw [this]
      · have hsmp : P.RTEMS_SMP = false := by simpa using hsmp
        obtain ⟨e, he⟩ := Option.ne_none_iff_exists'.mp (h0 hsmp)
        rw [is_enabled_external_up P self s1 vector e hsmp hv.1 hext (by rw [hcpu]; exact he)]
        have := (and_two_pow_eq_zero_iff _ _).mpr (hclear 0 e hP.processor_maximum_pos he)
        simp [this]
    cases hentry : s.riscv_plic_irq_to_cpu (vector - P.ext_base - 1) with
    | some e =>
      rw [hentry] at hread
      refine ⟨_, disable_exclusive P self s vector e hv.1 hext hread, ?_⟩
      refine key _ (by rfl) (fun h => hup h hext) ?_
      intro c e1 hc he1
      by_cases hee : e1 = e
      · subst hee
        simp only [clear_enable_bit, Function.update_same]
        exact testBit_and_not32_two_pow _ _ hk32
      · have := hothers hext e hentry c e1 hc he1 hee
        have hne : e1 + RISCV_INTERRUPT_VECTOR_EXTERNAL_TO_INDEX P vector / 32 ≠
            e + RISCV_INTERRUPT_VECTOR_EXTERNAL_TO_INDEX P vector / 32 := by omega
        simp only [clear_enable_bit, Function.update_noteq hne]
        exact (and_two_pow_eq_zero_iff _ _).mp this
    | none =>
      rw [hentry] at hread
      refine ⟨_, disable_broadcast P self s vector hv.1 hext hread, ?_⟩
      by_cases hsmp : P.RTEMS_SMP = true
      · simp only [hsmp, if_true]
        refine key _ (disable_loop_frame _ _ _ _).1 (fun h => hup h hext) ?_
        intro c e hc he
        have ht : Touched s (RISCV_INTERRUPT_VECTOR_EXTERNAL_TO_INDEX P vector / 32)
            (List.range P.processor_maximum)
            (e + RISCV_INTERRUPT_VECTOR_EXTERNAL_TO_INDEX P vector / 32) :=
          ⟨c, List.mem_range.mpr hc, e, he, rfl⟩
        rw [(disable_loop_word _ _ _ s _).1 ht]
        exact testBit_and_not32_two_pow _ _ hk32
      · have hsmp : P.RTEMS_SMP = false := by simpa using hsmp
        have hone := hP.uniprocessor hsmp
        obtain ⟨e0, he0⟩ := Option.ne_none_iff_exists'.mp (hup hsmp hext)
        simp only [hsmp, Bool.false_eq_true, if_false, he0]
        refine key _ (by rfl) (fun h => hup h hext) ?_
        intro c e hc he
        have hz : c = 0 := by omega
        subst hz
        rw [he0] at he
        cases he
        simp only [clear_enable_bit, Function.update_same]
        exact testBit_and_not32_two_pow _ _ hk32
  · refine ⟨_, disable_local P self s vector hv.1 hext hkind, ?_⟩
    rw [is_enabled_local P self _ vector hv.1 hext hkind]
    have := and_notx_and_self P (s.mie self) (mie_bit P vector) (mie_bit_lt P hP vector)
    simp [this]

/-! ## Affinity -/

theorem irq_to_cpu_write_valid (P : Platform) (hP : Consistent P) (s : State) (vector : Nat)
    (value : Option Nat)
    (hvalid : bsp_interrupt_is_valid_vector P vector = true)
    (hext : RISCV_INTERRUPT_VECTOR_IS_EXTERNAL P vector = true) :
    irq_to_cpu_write P s (RISCV_INTERRUPT_VECTOR_EXTERNAL_TO_INDEX P vector) value =
      .ok { s with riscv_plic_irq_to_cpu :=
              Function.update s.riscv_plic_irq_to_cpu (vector - P.ext_base - 1) value } := by
  obtain ⟨_, _, _, h4, h5⟩ := external_index P hP vector hvalid hext
  unfold irq_to_cpu_write
  rw [if_pos h5]
  simp only [h4]

/-- With a mask that holds every online processor, `bsp_interrupt_set_affinity`
stores `NULL` in the entry of the vector. -/
theorem set_affinity_all (P : Platform) (hP : Consistent P) (s : State) (vector : Nat)
    (affinity : Processor_mask)
    (hvalid : bsp_interrupt_is_valid_vector P vector = true)
    (hext : RISCV_INTERRUPT_VECTOR_IS_EXTERNAL P vector = true)
    (hall : P.online_processors ⊆ affinity) :
    bsp_interrupt_set_affinity P s vector affinity = .ok (.RTEMS_SUCCESSFUL,
      { s with riscv_plic_irq_to_cpu :=
          Function.update s.riscv_plic_irq_to_cpu (vector - P.ext_base - 1) none }) := by
  have hmask : _Processor_mask_And affinity P.online_processors = P.online_processors :=
    Finset.inter_eq_right.mpr hall
  unfold bsp_interrupt_set_affinity
  simp only [hext, if_true, hmask, _Processor_mask_Is_equal, decide_True,
    irq_to_cpu_write_valid P hP s vector none hvalid hext]

/-- With a mask whose online part is the one processor `p`, not the whole
online set, `bsp_interrupt_set_affinity` stores the enable pointer of `p` in
the entry of the vector. -/
theorem set_affinity_single (P : Platform) (hP : Consistent P) (s : State) (vector : Nat)
    (affinity : Processor_mask) (p : Nat)
    (hvalid : bsp_interrupt_is_valid_vector P vector = true)
    (hext : RISCV_INTERRUPT_VECTOR_IS_EXTERNAL P vector = true)
    (hmask : _Processor_mask_And affinity P.online_processors = {p})
    (hnot : ({p} : Finset Nat) ≠ P.online_processors) :
    p ∈ P.online_processors ∧
    bsp_interrupt_set_affinity P s vector affinity = .ok (.RTEMS_SUCCESSFUL,
      { s with riscv_plic_irq_to_cpu :=
          (Function.update s.riscv_plic_irq_to_cpu (vector - P.ext_base - 1)
            (s.cpu p).plic_m_ie) }) := by
  have hmem : p ∈ P.online_processors := by
    have : p ∈ _Processor_mask_And affinity P.online_processors := by
      rw [hmask]
      exact Finset.mem_singleton_self p
    exact (Finset.mem_inter.mp this).2
  have hlt := hP.online_lt p hmem
  have hpm := hP.processor_maximum_lt
  refine ⟨hmem, ?_⟩
  unfold bsp_interrupt_set_affinity
  simp only [hext, if_true, hmask, _Processor_mask_Is_equal, decide_eq_true_eq, hnot, if_false,
    _Processor_mask_Count, Finset.card_singleton, find_last_set_singleton p (by omega),
    irq_to_cpu_write_valid P hP s vector _ hvalid hext]

/-- C5: for a valid external vector and a requested mask that holds every
online processor, `bsp_interrupt_set_affinity` returns `RTEMS_SUCCESSFUL`, and
`bsp_interrupt_get_affinity` called next returns `RTEMS_SUCCESSFUL` and leaves
the online processor set in the caller's mask, whatever the mask held. -/
theorem set_affinity_all_then_get (P : Platform) (hP : Consistent P) (s : State)
    (vector : Nat) (affinity prior : Processor_mask)
    (hvalid : bsp_interrupt_is_valid_vector P vector = true)
    (hext : RISCV_INTERRUPT_VECTOR_IS_EXTERNAL P vector = true)
    (hall : P.online_processors ⊆ affinity) :
    ∃ s1, bsp_interrupt_set_affinity P s vector affinity = .ok (.RTEMS_SUCCESSFUL, s1) ∧
      bsp_interrupt_get_affinity P s1 vector prior =
        .ok (.RTEMS_SUCCESSFUL, P.online_processors) := by
  refine ⟨_, set_affinity_all P hP s vector affinity hvalid hext hall, ?_⟩
  simp only [bsp_interrupt_get_affinity, hext, if_true,
    irq_to_cpu_read_valid P hP _ vector hvalid hext, Function.update_same]

/-- C7: for an external vector and a requested mask whose online part is
empty, or has more than one processor but fewer than the online set,
`bsp_interrupt_set_affinity` returns `RTEMS_INVALID_NUMBER` and leaves the
state, so the affinity table, as it was. -/
theorem set_affinity_invalid (P : Platform) (s : State) (vector : Nat)
    (affinity : Processor_mask)
    (honline : P.online_processors.Nonempty)
    (hext : RISCV_INTERRUPT_VECTOR_IS_EXTERNAL P vector = true)
    (hmask : (_Processor_mask_And affinity P.online_processors).card = 0 ∨
      (1 < (_Processor_mask_And affinity P.online_processors).card ∧
        (_Processor_mask_And affinity P.online_processors).card < P.online_processors.card)) :
    bsp_interrupt_set_affinity P s vector affinity = .ok (.RTEMS_INVALID_NUMBER, s) ∧
      rtems_status_code.RTEMS_INVALID_NUMBER ≠ .RTEMS_SUCCESSFUL ∧
      rtems_status_code.RTEMS_INVALID_NUMBER ≠ .RTEMS_UNSATISFIED := by
  refine ⟨?_, by decide, by decide⟩
  have hpos : 0 < P.online_processors.card := Finset.card_pos.mpr honline
  have hne : _Processor_mask_And affinity P.online_processors ≠ P.online_processors := by
    intro heq
    rw [heq] at hmask
    omega
  have hcount : ¬ _Processor_mask_Count (_Processor_mask_And affinity P.online_processors) = 1 := by
    unfold _Processor_mask_Count
    omega
  unfold bsp_interrupt_set_affinity
  simp only [hext, if_true, _Processor_mask_Is_equal, decide_eq_true_eq, hne, if_false, hcount]

/-- C4, as the code has it: in a reachable state, for a valid external vector
and a processor `p` with an attached enable block, after
`bsp_interrupt_set_affinity` with a mask whose online part is `p` alone, not
the whole online set, `bsp_interrupt_vector_enable` and
`bsp_interrupt_vector_disable` each change at most one word of the enable
array, a word of the block of `p`, and leave every word of the block of every
other processor as it was. -/
theorem exclusive_affinity_one_block (P : Platform) (hP : Consistent P) (s : State)
    (hs : Reachable P s) (self vector : Nat) (affinity : Processor_mask) (p e : Nat)
    (hvalid : bsp_interrupt_is_valid_vector P vector = true)
    (hext : RISCV_INTERRUPT_VECTOR_IS_EXTERNAL P vector = true)
    (hmask : _Processor_mask_And affinity P.online_processors = {p})
    (hnot : ({p} : Finset Nat) ≠ P.online_processors)
    (hp : (s.cpu p).plic_m_ie = some e) :
    ∃ s1 s2 s3,
      bsp_interrupt_set_affinity P s vector affinity = .ok (.RTEMS_SUCCESSFUL, s1) ∧
      bsp_interrupt_vector_enable P self s1 vector = .ok (.RTEMS_SUCCESSFUL, s2) ∧
      bsp_interrupt_vector_disable P self s1 vector = .ok (.RTEMS_SUCCESSFUL, s3) ∧
      s1.cpu = s.cpu ∧
      RISCV_INTERRUPT_VECTOR_EXTERNAL_TO_INDEX P vector / 32 < P.enable_words ∧
      (∀ a, a ≠ e + RISCV_INTERRUPT_VECTOR_EXTERNAL_TO_INDEX P vector / 32 →
        s2.plic_enable a = s1.plic_enable a ∧ s3.plic_enable a = s1.plic_enable a) ∧
      ∀ q e1 w, q ≠ p → (s.cpu q).plic_m_ie = some e1 → w < P.enable_words →
        s2.plic_enable (e1 + w) = s1.plic_enable (e1 + w) ∧
        s3.plic_enable (e1 + w) = s1.plic_enable (e1 + w) := by
  obtain ⟨_, hset⟩ := set_affinity_single P hP s vector affinity p hvalid hext hmask hnot
  have hread : irq_to_cpu_read P
      { s with riscv_plic_irq_to_cpu :=
          (Function.update s.riscv_plic_irq_to_cpu (vector - P.ext_base - 1)
            (s.cpu p).plic_m_ie) }
      (RISCV_INTERRUPT_VECTOR_EXTERNAL_TO_INDEX P vector) = .ok (some e) := by
    rw [irq_to_cpu_read_valid P hP _ vector hvalid hext]
    simp only [Function.update_same, hp]
  obtain ⟨hidx, _, hmax, _, _⟩ := external_index P hP vector hvalid hext
  have hgroup : RISCV_INTERRUPT_VECTOR_EXTERNAL_TO_INDEX P vector / 32 < P.enable_words := by
    have := hP.maximum_le
    rw [hidx]
    omega
  have hone : ∀ a, a ≠ e + RISCV_INTERRUPT_VECTOR_EXTERNAL_TO_INDEX P vector / 32 →
      ∀ t : State, ∀ bit,
      (set_enable_bit t e (RISCV_INTERRUPT_VECTOR_EXTERNAL_TO_INDEX P vector / 32)
          bit).plic_enable a = t.plic_enable a ∧
      (clear_enable_bit t e (RISCV_INTERRUPT_VECTOR_EXTERNAL_TO_INDEX P vector / 32)
          bit).plic_enable a = t.plic_enable a := by
    intro a ha t bit
    simp only [set_enable_bit, clear_enable_bit, Function.update_noteq ha, and_self]
  refine ⟨_, _, _, hset, enable_exclusive P self _ vector e hvalid hext hread,
    disable_exclusive P self _ vector e hvalid hext hread, rfl, hgroup, ?_, ?_⟩
  · intro a ha
    exact hone a ha _ _
  · intro q e1 w hq he1 hw
    apply hone
    obtain ⟨hblocks, hinj⟩ := (reachable_inv P hP s hs).2
    obtain ⟨k, hk⟩ := hblocks p e hp
    obtain ⟨k1, hk1⟩ := hblocks q e1 he1
    have hkk : k1 ≠ k := by
      intro h
      apply hq
      apply hinj q p e
      · rw [he1, hk1, hk, h]
      · exact hp
    intro heq
    rw [hk, hk1] at heq
    apply hkk
    have h1 : (P.enable_words * k1 + w) / P.enable_words = k1 := by
      rw [Nat.mul_add_div hP.enable_words_pos, Nat.div_eq_of_lt hw, Nat.add_zero]
    have h2 : (P.enable_words * k + RISCV_INTERRUPT_VECTOR_EXTERNAL_TO_INDEX P vector / 32) /
        P.enable_words = k := by
      rw [Nat.mul_add_div hP.enable_words_pos, Nat.div_eq_of_lt hgroup, Nat.add_zero]
    rw [← h1, ← h2, heq]

/-- The loop of `bsp_interrupt_get_affinity` adds the one processor with the
enable pointer `enable` to the caller's mask and keeps what the mask held. -/
theorem get_affinity_loop_insert (s : State) (enable p : Nat) (prior : Processor_mask) :
    ∀ cpus : List Nat, p ∈ cpus →
      (∀ c ∈ cpus, (s.cpu c).plic_m_ie = some enable → c = p) →
      (s.cpu p).plic_m_ie = some enable →
      get_affinity_loop s enable prior cpus = insert p prior
  | [], h, _, _ => by simp at h
  | c :: cpus, h, huniq, hp => by
    unfold get_affinity_loop
    by_cases hc : some enable = (s.cpu c).plic_m_ie
    · rw [if_pos hc]
      have : c = p := huniq c (by simp) hc.symm
      rw [this]
      rfl
    · rw [if_neg hc]
      have hne : p ≠ c := by
        intro hpc
        rw [hpc] at hp
        exact hc hp.symm
      have hmem : p ∈ cpus := by
        rcases List.mem_cons.mp h with h1 | h1
        · exact absurd h1 hne
        · exact h1
      exact get_affinity_loop_insert s enable p prior cpus hmem
        (fun c1 hc1 => huniq c1 (List.mem_cons_of_mem _ hc1)) hp

/-- In a reachable state, after `bsp_interrupt_set_affinity` to the one
processor `p`, which has an attached enable block,
`bsp_interrupt_get_affinity` returns the caller's mask with `p` added. -/
theorem set_affinity_single_then_get (P : Platform) (hP : Consistent P) (s : State)
    (hs : Reachable P s) (vector : Nat) (affinity prior : Processor_mask) (p e : Nat)
    (hvalid : bsp_interrupt_is_valid_vector P vector = true)
    (hext : RISCV_INTERRUPT_VECTOR_IS_EXTERNAL P vector = true)
    (hmask : _Processor_mask_And affinity P.online_processors = {p})
    (hnot : ({p} : Finset Nat) ≠ P.online_processors)
    (hp : (s.cpu p).plic_m_ie = some e) :
    ∃ s1, bsp_interrupt_set_affinity P s vector affinity = .ok (.RTEMS_SUCCESSFUL, s1) ∧
      s1.riscv_plic_irq_to_cpu (vector - P.ext_base - 1) = (s1.cpu p).plic_m_ie ∧
      bsp_interrupt_get_affinity P s1 vector prior = .ok (.RTEMS_SUCCESSFUL, insert p prior) := by
  obtain ⟨hmem, hset⟩ := set_affinity_single P hP s vector affinity p hvalid hext hmask hnot
  refine ⟨_, hset, by simp, ?_⟩
  have hinj := (reachable_inv P hP s hs).2.2
  simp only [bsp_interrupt_get_affinity, hext, if_true,
    irq_to_cpu_read_valid P hP _ vector hvalid hext, Function.update_same, hp]
  congr 2
  exact get_affinity_loop_insert _ e p prior (List.range P.processor_maximum)
    (List.mem_range.mpr (hP.online_lt p hmem)) (fun c _ hc => hinj c p e hc hp) hp

/-! ## Evaluation on the concrete configurations -/

theorem smp2_consistent : Consistent smp2 where
  count_eq := by decide
  count_lt := by decide
  software_lt := by decide
  timer_lt := by decide
  timer_ne := by decide
  enable_words_pos := by decide
  maximum_le := by decide
  msip_pos := by decide
  mtip_pos := by decide
  msip_lt := by decide
  mtip_lt := by decide
  processor_maximum_pos := by decide
  processor_maximum_lt := by decide
  online_lt := by decide
  online_nonempty := ⟨0, by decide⟩
  uniprocessor := by decide

theorem reset_state_boot : Boot reset_state :=
  ⟨rfl, rfl, fun _ => rfl, fun _ => rfl⟩

theorem boot_state_reachable (fdt : Fdt)
    (h : bsp_interrupt_facility_initialize smp2 fdt 0 reset_state = .ok (boot_state smp2 fdt)) :
    Reachable smp2 (boot_state smp2 fdt) :=
  Reachable.init reset_state_boot h

theorem enable_then_is_enabled_witness :
    Reachable smp2 (boot_state smp2 fdt2) ∧
    ∃ s1, bsp_interrupt_vector_enable smp2 0 (boot_state smp2 fdt2) 3 =
        .ok (.RTEMS_SUCCESSFUL, s1) ∧
      bsp_interrupt_vector_is_enabled smp2 0 s1 3 = .ok (.RTEMS_SUCCESSFUL, true) :=
  ⟨boot_state_reachable fdt2 rfl,
   enable_then_is_enabled smp2 smp2_consistent (boot_state smp2 fdt2)
    (boot_state_reachable fdt2 rfl) 0 3 ⟨by decide, Or.inl (by decide)⟩
    (fun _ => ⟨0, by decide, by decide⟩)⟩

/-- C2, as stated, fails: after topology discovery on a device tree whose PLIC
has no machine-external context for a running hart, no processor has an enable
block; for the valid external vector 3, `bsp_interrupt_vector_enable` returns
`RTEMS_SUCCESSFUL` and `bsp_interrupt_vector_is_enabled` called next reports
false. -/
theorem enable_without_context_not_enabled :
    ∃ s s1 : State,
      bsp_interrupt_facility_initialize smp2 fdt_supervisor_only 0 reset_state = .ok s ∧
      bsp_interrupt_is_valid_vector smp2 3 = true ∧
      RISCV_INTERRUPT_VECTOR_IS_EXTERNAL smp2 3 = true ∧
      bsp_interrupt_vector_enable smp2 0 s 3 = .ok (.RTEMS_SUCCESSFUL, s1) ∧
      bsp_interrupt_vector_is_enabled smp2 0 s1 3 = .ok (.RTEMS_SUCCESSFUL, false) :=
  ⟨_, _, rfl, rfl, rfl, rfl, rfl⟩

theorem disable_then_is_enabled_witness :
    bsp_interrupt_vector_is_enabled smp2 1 boot_state_vector3_enabled 3 =
      .ok (.RTEMS_SUCCESSFUL, true) ∧
    boot_state_vector3_enabled.plic_enable 32 = 2 ∧
    (∃ s1, bsp_interrupt_vector_disable smp2 1 boot_state_vector3_enabled 3 =
        .ok (.RTEMS_SUCCESSFUL, s1) ∧
      bsp_interrupt_vector_is_enabled smp2 1 s1 3 = .ok (.RTEMS_SUCCESSFUL, false)) ∧
    bsp_interrupt_vector_is_enabled smp2 1 { reset_state with mie := fun _ => 128 } 1 =
      .ok (.RTEMS_SUCCESSFUL, true) ∧
    ∃ s1, bsp_interrupt_vector_disable smp2 1 { reset_state with mie := fun _ => 128 } 1 =
        .ok (.RTEMS_SUCCESSFUL, s1) ∧
      bsp_interrupt_vector_is_enabled smp2 1 s1 1 = .ok (.RTEMS_SUCCESSFUL, false) :=
  ⟨rfl, rfl,
   disable_then_is_enabled smp2 smp2_consistent boot_state_vector3_enabled 1 3
    ⟨by decide, Or.inl (by decide)⟩ (fun h => absurd h (by decide))
    (fun _ e he c e1 hc he1 hne => by
      have h2 : c = 0 ∨ c = 1 := by
        have : c < 2 := hc
        omega
      rcases h2 with rfl | rfl
      · cases he
        cases he1
        exact absurd rfl hne
      · cases he1
        rfl),
   rfl,
   disable_then_is_enabled smp2 smp2_consistent { reset_state with mie := fun _ => 128 } 1 1
    ⟨by decide, Or.inr (Or.inl rfl)⟩ (fun _ h => absurd h (by decide))
    (fun h => absurd h (by decide))⟩

/-- C3, as stated, fails: on the dual-processor configuration, enabling vector
3 with the affinity set to both processors, then setting the affinity to
processor 1 alone and disabling the vector leaves the bit set in the enable
block of processor 0, and `bsp_interrupt_vector_is_enabled` reports true. -/
theorem disable_after_affinity_change_still_enabled :
    ∃ s s1 s2 s3 s4 : State,
      bsp_interrupt_facility_initialize smp2 fdt2 0 reset_state = .ok s ∧
      bsp_interrupt_set_affinity smp2 s 3 {0, 1} = .ok (.RTEMS_SUCCESSFUL, s1) ∧
      bsp_interrupt_vector_enable smp2 0 s1 3 = .ok (.RTEMS_SUCCESSFUL, s2) ∧
      bsp_interrupt_set_affinity smp2 s2 3 {1} = .ok (.RTEMS_SUCCESSFUL, s3) ∧
      bsp_interrupt_vector_disable smp2 0 s3 3 = .ok (.RTEMS_SUCCESSFUL, s4) ∧
      bsp_interrupt_vector_is_enabled smp2 0 s4 3 = .ok (.RTEMS_SUCCESSFUL, true) :=
  ⟨_, _, _, _, _, rfl, rfl, rfl, rfl, rfl, rfl⟩

theorem exclusive_affinity_one_block_witness :
    _Processor_mask_And {1} smp2.online_processors = {1} ∧
    ((boot_state smp2 fdt2).cpu 1).plic_m_ie = some 96 ∧
    ∃ s1 s2 s3,
      bsp_interrupt_set_affinity smp2 (boot_state smp2 fdt2) 3 {1} =
        .ok (.RTEMS_SUCCESSFUL, s1) ∧
      bsp_interrupt_vector_enable smp2 0 s1 3 = .ok (.RTEMS_SUCCESSFUL, s2) ∧
      bsp_interrupt_vector_disable smp2 0 s1 3 = .ok (.RTEMS_SUCCESSFUL, s3) ∧
      (∀ w, w < 32 → s2.plic_enable (32 + w) = s1.plic_enable (32 + w) ∧
        s3.plic_enable (32 + w) = s1.plic_enable (32 + w)) := by
  obtain ⟨s1, s2, s3, h1, h2, h3, _, _, _, h7⟩ :=
    exclusive_affinity_one_block smp2 smp2_consistent (boot_state smp2 fdt2)
      (boot_state_reachable fdt2 rfl) 0 3 {1} 1 96 (by decide) (by decide) (by decide)
      (by decide) rfl
  exact ⟨by decide, rfl, s1, s2, s3, h1, h2, h3, fun w hw => h7 0 32 w (by decide) rfl hw⟩

/-- C4, as stated, fails: where hart 1 is online but the PLIC has no
machine-external context for it, `bsp_interrupt_set_affinity` to processor 1
alone succeeds and stores `NULL`, and `bsp_interrupt_vector_enable` then
changes the enable block of processor 0. -/
theorem affinity_to_processor_without_context :
    ∃ s s1 s2 : State,
      bsp_interrupt_facility_initialize smp2 fdt_hart0_only 0 reset_state = .ok s ∧
      _Processor_mask_And {1} smp2.online_processors = {1} ∧
      bsp_interrupt_set_affinity smp2 s 3 {1} = .ok (.RTEMS_SUCCESSFUL, s1) ∧
      bsp_interrupt_vector_enable smp2 0 s1 3 = .ok (.RTEMS_SUCCESSFUL, s2) ∧
      (s1.cpu 0).plic_m_ie = some 32 ∧
      s1.plic_enable 32 = 0 ∧ s2.plic_enable 32 = 2 :=
  ⟨_, _, _, rfl, by decide, rfl, rfl, rfl, rfl, rfl⟩

theorem set_affinity_all_then_get_witness :
    ∃ s1, bsp_interrupt_set_affinity smp2 (boot_state smp2 fdt2) 3 {0, 1, 5} =
        .ok (.RTEMS_SUCCESSFUL, s1) ∧
      bsp_interrupt_get_affinity smp2 s1 3 {7} = .ok (.RTEMS_SUCCESSFUL, {0, 1}) :=
  set_affinity_all_then_get smp2 smp2_consistent (boot_state smp2 fdt2) 3 {0, 1, 5} {7}
    (by decide) (by decide) (by decide)

/-- C6 fails on the code: with the affinity of vector 3 set to processor 1
alone and the caller's mask holding processor 0 before the call,
`bsp_interrupt_get_affinity` leaves both processors in the mask, not processor
1 alone. -/
theorem get_affinity_keeps_prior_content :
    ∃ (s s1 : State) (mask : Processor_mask),
      bsp_interrupt_facility_initialize smp2 fdt2 0 reset_state = .ok s ∧
      _Processor_mask_And {1} smp2.online_processors = {1} ∧
      bsp_interrupt_set_affinity smp2 s 3 {1} = .ok (.RTEMS_SUCCESSFUL, s1) ∧
      s1.riscv_plic_irq_to_cpu 0 = (s1.cpu 1).plic_m_ie ∧
      bsp_interrupt_get_affinity smp2 s1 3 {0} = .ok (.RTEMS_SUCCESSFUL, mask) ∧
      mask = {0, 1} ∧ mask ≠ {1} :=
  ⟨_, _, _, rfl, by decide, rfl, rfl, rfl, by decide, by decide⟩

theorem set_affinity_invalid_witness :
    bsp_interrupt_set_affinity smp2 (boot_state smp2 fdt2) 3 {4, 5} =
      .ok (.RTEMS_INVALID_NUMBER, boot_state smp2 fdt2) :=
  (set_affinity_invalid smp2 (boot_state smp2 fdt2) 3 {4, 5} ⟨0, by decide⟩ (by decide)
    (Or.inl (by decide))).1

/-! ## Dispatch: classification of the cause -/

/-- The shifted cause is twice the cause without its most significant bit. -/
theorem shifted_cause (P : Platform) (hx : 0 < P.xlen) (mcause : Nat) :
    (mcause * 2) % 2 ^ P.xlen = cause_code P mcause * 2 := by
  unfold cause_code
  obtain ⟨n, hn⟩ : ∃ n, P.xlen = n + 1 := ⟨P.xlen - 1, by omega⟩
  rw [hn, Nat.add_sub_cancel, pow_succ, Nat.mul_mod_mul_right]

theorem claim_loop_not_fatal (P : Platform) (hart : Nat) (code : bsp_fatal_code) :
    ∀ reads : List Nat, claim_loop P hart reads ≠ .error (.bsp_fatal code)
  | [] => by simp [claim_loop]
  | c :: reads => by
    have ih := claim_loop_not_fatal P hart code reads
    unfold claim_loop
    split
    · split
      · rename_i e heq
        intro h
        cases h
        exact ih heq
      · intro h
        cases h
    · intro h
      cases h

/-- C13: on an SMP build, with the machine-software cause,
`_RISCV_Interrupt_dispatch` returns with the trace that writes 0 to the `msip`
register of the current processor and then invokes
`_SMP_Inter_processor_interrupt_handler`, nothing after it: no write to `msip`
follows the handler and no vector is passed to the generic dispatch. -/
theorem dispatch_software_smp (P : Platform) (mcause : Nat) (cpu_self : Per_CPU_Control)
    (msip : Nat) (reads : List Nat)
    (hsmp : P.RTEMS_SMP = true)
    (hcause : (mcause * 2) % 2 ^ P.xlen = P.RISCV_INTERRUPT_SOFTWARE_MACHINE * 2)
    (htimer : P.RISCV_INTERRUPT_SOFTWARE_MACHINE ≠ P.RISCV_INTERRUPT_TIMER_MACHINE)
    (hexternal : P.RISCV_INTERRUPT_SOFTWARE_MACHINE ≠ P.RISCV_INTERRUPT_EXTERNAL_MACHINE)
    (hmsip : cpu_self.clint_msip = some msip) :
    _RISCV_Interrupt_dispatch P mcause cpu_self reads =
      .ok ([Event.msip_write msip 0, Event.smp_inter_processor_interrupt_handler], reads) ∧
    dispatched [Event.msip_write msip 0, Event.smp_inter_processor_interrupt_handler] = [] := by
  have h1 : ¬ (P.RISCV_INTERRUPT_SOFTWARE_MACHINE * 2 = P.RISCV_INTERRUPT_TIMER_MACHINE * 2) := by
    omega
  have h2 : ¬ (P.RISCV_INTERRUPT_SOFTWARE_MACHINE * 2 =
      P.RISCV_INTERRUPT_EXTERNAL_MACHINE * 2) := by
    omega
  refine ⟨?_, rfl⟩
  simp only [_RISCV_Interrupt_dispatch, hcause, h1, h2, if_false, if_true, hsmp, hmsip]

theorem dispatch_software_smp_witness :
    _RISCV_Interrupt_dispatch smp2 (2 ^ 63 + 3) ⟨some 1, some 1, some 3, some 96⟩ [4, 0] =
      .ok ([Event.msip_write 1 0, Event.smp_inter_processor_interrupt_handler], [4, 0]) :=
  (dispatch_software_smp smp2 (2 ^ 63 + 3) ⟨some 1, some 1, some 3, some 96⟩ 1 [4, 0] rfl
    (by decide) (by decide) (by decide) rfl).1

/-- C14: `_RISCV_Interrupt_dispatch` ends in the fatal hook, with
`RISCV_FATAL_UNEXPECTED_INTERRUPT_EXCEPTION` and without a trace, exactly when
the cause without its most significant bit is none of the machine-timer,
machine-external and machine-software codes; it calls the fatal hook with no
other code; and two causes that differ in the most significant bit only have
the same result. -/
theorem dispatch_fatal_iff (P : Platform) (hx : 0 < P.xlen) (mcause : Nat)
    (cpu_self : Per_CPU_Control) (reads : List Nat) :
    (_RISCV_Interrupt_dispatch P mcause cpu_self reads =
        .error (.bsp_fatal .RISCV_FATAL_UNEXPECTED_INTERRUPT_EXCEPTION) ↔
      cause_code P mcause ≠ P.RISCV_INTERRUPT_TIMER_MACHINE ∧
      cause_code P mcause ≠ P.RISCV_INTERRUPT_EXTERNAL_MACHINE ∧
      cause_code P mcause ≠ P.RISCV_INTERRUPT_SOFTWARE_MACHINE) ∧
    (∀ code, _RISCV_Interrupt_dispatch P mcause cpu_self reads = .error (.bsp_fatal code) →
      code = .RISCV_FATAL_UNEXPECTED_INTERRUPT_EXCEPTION) ∧
    (∀ other, cause_code P other = cause_code P mcause →
      _RISCV_Interrupt_dispatch P other cpu_self reads =
        _RISCV_Interrupt_dispatch P mcause cpu_self reads) := by
  have hs := shifted_cause P hx mcause
  refine ⟨?_, ?_, ?_⟩
  · simp only [_RISCV_Interrupt_dispatch, hs]
    by_cases ht : cause_code P mcause = P.RISCV_INTERRUPT_TIMER_MACHINE
    · simp [ht]
    · have ht2 : ¬ (cause_code P mcause * 2 = P.RISCV_INTERRUPT_TIMER_MACHINE * 2) := by omega
      simp only [ht2, if_false]
      by_cases he : cause_code P mcause = P.RISCV_INTERRUPT_EXTERNAL_MACHINE
      · simp only [he, if_true, ne_eq, not_true_eq_false, false_and, and_false, iff_false]
        cases cpu_self.plic_hart_regs with
        | none => simp
        | some h => exact claim_loop_not_fatal P h _ reads
      · have he2 : ¬ (cause_code P mcause * 2 = P.RISCV_INTERRUPT_EXTERNAL_MACHINE * 2) := by
          omega
        simp only [he2, if_false]
        by_cases hsw : cause_code P mcause = P.RISCV_INTERRUPT_SOFTWARE_MACHINE
        · simp only [hsw, if_true, ne_eq, not_true_eq_false, and_false, iff_false]
          cases P.RTEMS_SMP <;> cases cpu_self.clint_msip <;> simp
        · have hsw2 : ¬ (cause_code P mcause * 2 = P.RISCV_INTERRUPT_SOFTWARE_MACHINE * 2) := by
            omega
          simp [hsw2, ht, he, hsw]
  · intro code h
    simp only [_RISCV_Interrupt_dispatch] at h
    repeat' split at h
    all_goals try cases h
    all_goals first
      | rfl
      | exact absurd h (claim_loop_not_fatal P _ _ reads)
  · intro other ho
    simp only [_RISCV_Interrupt_dispatch, hs, shifted_cause P hx other, ho]

theorem dispatch_fatal_iff_witness :
    _RISCV_Interrupt_dispatch smp2 (2 ^ 63 + 5) ⟨some 1, some 1, some 3, some 96⟩ [0] =
        .error (.bsp_fatal .RISCV_FATAL_UNEXPECTED_INTERRUPT_EXCEPTION) ∧
      _RISCV_Interrupt_dispatch smp2 7 ⟨some 1, some 1, some 3, some 96⟩ [0] =
        _RISCV_Interrupt_dispatch smp2 (2 ^ 63 + 7) ⟨some 1, some 1, some 3, some 96⟩ [0] :=
  have h := dispatch_fatal_iff smp2 (by decide) (2 ^ 63 + 5) ⟨some 1, some 1, some 3, some 96⟩ [0]
  have h7 := dispatch_fatal_iff smp2 (by decide) (2 ^ 63 + 7) ⟨some 1, some 1, some 3, some 96⟩ [0]
  ⟨h.1.mpr (by decide), h7.2.2 7 (by decide)⟩

/-! ## Topology discovery: the CLINT registers of the processors -/

theorem attach_clint_inv (n cpu_index : Nat) (s : State) (h : ClintInv n s) :
    ClintInv (n + 1) (attach_clint s cpu_index n) := by
  obtain ⟨h1, h2⟩ := h
  have hcpu : ∀ c, ((attach_clint s cpu_index n).cpu c).clint_msip =
      if c = cpu_index then some n else (s.cpu c).clint_msip := by
    intro c
    simp only [attach_clint, Function.update_apply]
    split <;> rfl
  have hfresh : ∀ c, (s.cpu c).clint_msip ≠ some n := by
    intro c hc
    have := h1 c n hc
    omega
  refine ⟨?_, ?_⟩
  · intro c m hm
    rw [hcpu] at hm
    split at hm
    · cases hm
      omega
    · have := h1 c m hm
      omega
  · intro c1 c2 m hm1 hm2
    rw [hcpu] at hm1 hm2
    split at hm1 <;> split at hm2
    · omega
    · cases hm1
      exact absurd hm2 (hfresh c2)
    · cases hm2
      exact absurd hm1 (hfresh c1)
    · exact h2 c1 c2 m hm1 hm2

theorem clint_inv_mono (n : Nat) (s : State) (h : ClintInv n s) : ClintInv (n + 1) s :=
  ⟨fun c m hm => by
    have := h.1 c m hm
    omega, h.2⟩

theorem riscv_clint_init_apart (P : Platform) (fdt : Fdt) (s0 s : State) (h0 : Boot s0)
    (h : riscv_clint_init P fdt s0 = .ok s) : ClintApart s := by
  unfold riscv_clint_init at h
  split at h
  · cases h
  · rename_i clint hclint
    simp only [Except.ok.injEq] at h
    rw [← h]
    have hstart : ClintInv 0 { s0 with riscv_clint := some clint } := by
      obtain ⟨_, _, _, hcpu⟩ := h0
      refine ⟨fun c m hm => ?_, fun c1 c2 m hm => ?_⟩
      · simp only [hcpu c] at hm
        cases hm
      · simp only [hcpu c1] at hm
        cases hm
    have := foldl_range_invariant (riscv_clint_init_body P fdt) ClintInv
      (fun n a ha => by
        unfold riscv_clint_init_body
        simp only []
        repeat' split
        all_goals first
          | exact clint_inv_mono n a ha
          | exact attach_clint_inv n _ a ha)
      _ hstart ((4 * fdt.clint_interrupts_extended.length + 15) / 16)
    exact this.2

/-! ## Topology discovery: what `riscv_plic_init` keeps and writes -/

theorem clear_enable_words_keeps (s : State) (plic_m_ie n : Nat) :
    (clear_enable_words s plic_m_ie n).cpu = s.cpu ∧
    (clear_enable_words s plic_m_ie n).riscv_plic_irq_to_cpu = s.riscv_plic_irq_to_cpu ∧
    (clear_enable_words s plic_m_ie n).plic_priority = s.plic_priority ∧
    (clear_enable_words s plic_m_ie n).clint_msip = s.clint_msip ∧
    (clear_enable_words s plic_m_ie n).mie = s.mie := by
  unfold clear_enable_words
  apply foldl_invariant _
    (fun t : State => t.cpu = s.cpu ∧ t.riscv_plic_irq_to_cpu = s.riscv_plic_irq_to_cpu ∧
      t.plic_priority = s.plic_priority ∧ t.clint_msip = s.clint_msip ∧ t.mie = s.mie)
  · intro a b ha
    exact ha
  · exact ⟨rfl, rfl, rfl, rfl, rfl⟩

theorem attach_plic_frame (P : Platform) (s0 s : State) (cpu_index k ndev : Nat)
    (h : AttachFrame s0 s) : AttachFrame s0 (attach_plic P s cpu_index k ndev) := by
  obtain ⟨h1, h2, h3, h4, h5⟩ := h
  unfold attach_plic
  simp only []
  obtain ⟨k1, k2, k3, k4, k5⟩ := clear_enable_words_keeps
    { s with
      plic_priority_threshold := Function.update s.plic_priority_threshold k 0,
      cpu := Function.update s.cpu cpu_index
        { s.cpu cpu_index with plic_hart_regs := some k, plic_m_ie := some (P.enable_words * k) } }
    (P.enable_words * k) (mie_regs ndev)
  refine ⟨?_, ?_, ?_, ?_, ?_⟩
  · rw [k2]
    exact h1
  · rw [k3]
    exact h2
  · rw [k4]
    exact h3
  · rw [k5]
    exact h4
  · intro c
    rw [k1, ← h5 c]
    simp only [Function.update_apply]
    split
    · rename_i hc
      rw [hc]
    · rfl

theorem riscv_plic_init_body_frame (P : Platform) (fdt : Fdt) (ndev n : Nat) (s0 : State)
    (r : Except Fault State) (h : ∀ s, r = .ok s → AttachFrame s0 s) :
    ∀ s, riscv_plic_init_body P fdt ndev r n = .ok s → AttachFrame s0 s := by
  intro s hs
  unfold riscv_plic_init_body at hs
  split at hs
  · cases hs
  · rename_i t
    have h0 := h t rfl
    simp only [] at hs
    repeat' split at hs
    all_goals try cases hs
    all_goals first
      | exact h0
      | exact attach_plic_frame P s0 t _ n ndev h0

theorem riscv_plic_init_loop_frame (P : Platform) (fdt : Fdt) (ndev : Nat) (s0 s : State)
    (n : Nat)
    (h : (List.range n).foldl (riscv_plic_init_body P fdt ndev) (.ok s0) = .ok s) :
    AttachFrame s0 s := by
  have := foldl_range_invariant (riscv_plic_init_body P fdt ndev)
    (fun _ r => ∀ t, r = .ok t → AttachFrame s0 t)
    (fun k r hr => riscv_plic_init_body_frame P fdt ndev k s0 r hr)
    (.ok s0)
    (by
      intro t ht
      cases ht
      exact ⟨rfl, rfl, rfl, rfl, fun _ => rfl⟩)
    n
  exact this s h

/-- The second loop of `riscv_plic_init` over the sources `1` to `n`: the
priority of each becomes 1 and its entry of the affinity table becomes
`enable`; nothing else is written. -/
theorem riscv_plic_init_sources (enable : Option Nat) (s : State) :
    ∀ n : Nat,
      (((List.range n).map (· + 1)).foldl (riscv_plic_init_source enable) s).cpu = s.cpu ∧
      (((List.range n).map (· + 1)).foldl (riscv_plic_init_source enable) s).plic_enable =
        s.plic_enable ∧
      (((List.range n).map (· + 1)).foldl (riscv_plic_init_source enable) s).clint_msip =
        s.clint_msip ∧
      (∀ i, (((List.range n).map (· + 1)).foldl (riscv_plic_init_source enable) s).plic_priority i
        = if 1 ≤ i ∧ i ≤ n then 1 else s.plic_priority i) ∧
      (∀ k, (((List.range n).map (· + 1)).foldl
          (riscv_plic_init_source enable) s).riscv_plic_irq_to_cpu k
        = if k < n then enable else s.riscv_plic_irq_to_cpu k)
  | 0 => by
    refine ⟨rfl, rfl, rfl, fun i => ?_, fun k => ?_⟩
    · rw [if_neg (by omega)]
      rfl
    · rw [if_neg (by omega)]
      rfl
  | n + 1 => by
    obtain ⟨h1, h2, h3, h4, h5⟩ := riscv_plic_init_sources enable s n
    rw [List.range_succ, List.map_append, List.foldl_append]
    simp only [List.map_cons, List.map_nil, List.foldl_cons, List.foldl_nil]
    refine ⟨h1, h2, h3, ?_, ?_⟩
    · intro i
      simp only [riscv_plic_init_source, Function.update_apply, h4 i]
      by_cases hi : i = n + 1
      · simp [hi]
      · rw [if_neg hi]
        by_cases hin : 1 ≤ i ∧ i ≤ n
        · rw [if_pos hin, if_pos ⟨hin.1, by omega⟩]
        · rw [if_neg hin, if_neg (by omega)]
    · intro k
      simp only [riscv_plic_init_source, Function.update_apply, h5 k, Nat.add_sub_cancel]
      by_cases hk : k = n
      · simp [hk]
      · rw [if_neg hk]
        by_cases hkn : k < n
        · rw [if_pos hkn, if_pos (by omega)]
        · rw [if_neg hkn, if_neg (by omega)]

/-- When `riscv_plic_init` returns with a PLIC present, the property
`riscv,ndev` has four bytes, its value `ndev` is at most
`RISCV_MAXIMUM_EXTERNAL_INTERRUPTS`, the first loop has returned a state `s1`,
and the result is `s1` after the second loop and the store to `mie`. -/
theorem riscv_plic_init_returns (P : Platform) (fdt : Fdt) (self plic : Nat) (s0 s : State)
    (hplic : fdt.plic = some plic) (h : riscv_plic_init P fdt self s0 = .ok s) :
    ∃ b0 b1 b2 b3 s1,
      fdt.plic_ndev = some [b0, b1, b2, b3] ∧
      fdt32_to_cpu b0 b1 b2 b3 ≤ P.RISCV_MAXIMUM_EXTERNAL_INTERRUPTS ∧
      (List.range ((4 * fdt.plic_interrupts_extended.length + 7) / 8)).foldl
        (riscv_plic_init_body P fdt (fdt32_to_cpu b0 b1 b2 b3))
        (.ok { s0 with riscv_plic := some plic }) = .ok s1 ∧
      s.cpu = s1.cpu ∧ s.plic_enable = s1.plic_enable ∧ s.clint_msip = s1.clint_msip ∧
      (∀ i, s.plic_priority i =
        if 1 ≤ i ∧ i ≤ fdt32_to_cpu b0 b1 b2 b3 then 1 else s1.plic_priority i) ∧
      (∀ k, s.riscv_plic_irq_to_cpu k =
        if k < fdt32_to_cpu b0 b1 b2 b3 then (s1.cpu 0).plic_m_ie
        else s1.riscv_plic_irq_to_cpu k) := by
  unfold riscv_plic_init at h
  rw [hplic] at h
  simp only [] at h
  split at h
  · rename_i b0 b1 b2 b3 hndev
    split at h
    · cases h
    · rename_i hle
      split at h
      · cases h
      · rename_i s1 hloop
        simp only [Except.ok.injEq] at h
        obtain ⟨h1, h2, h3, h4, h5⟩ :=
          riscv_plic_init_sources (s1.cpu 0).plic_m_ie s1 (fdt32_to_cpu b0 b1 b2 b3)
        refine ⟨b0, b1, b2, b3, s1, hndev, by omega, hloop, ?_, ?_, ?_, ?_, ?_⟩
        · rw [← h]
          exact h1
        · rw [← h]
          exact h2
        · rw [← h]
          exact h3
        · intro i
          rw [← h]
          exact h4 i
        · intro k
          rw [← h]
          exact h5 k
  · cases h

theorem facility_initialize_clint_apart (P : Platform) (fdt : Fdt) (self : Nat) (s0 s : State)
    (h0 : Boot s0) (h : bsp_interrupt_facility_initialize P fdt self s0 = .ok s) :
    ClintApart s := by
  unfold bsp_interrupt_facility_initialize at h
  split at h
  · cases h
  · rename_i s1 hclint
    have h1 := riscv_clint_init_apart P fdt s0 s1 h0 hclint
    cases hplic : fdt.plic with
    | none =>
      unfold riscv_plic_init at h
      rw [hplic] at h
      simp only [] at h
      split at h
      · cases h
        exact h1
      · cases h
    | some plic =>
      obtain ⟨b0, b1, b2, b3, s2, _, _, hloop, hcpu, _⟩ :=
        riscv_plic_init_returns P fdt self plic s1 s hplic h
      have hf := riscv_plic_init_loop_frame P fdt _ _ s2 _ hloop
      intro c1 c2 m hm1 hm2
      rw [hcpu, hf.2.2.2.2 c1] at hm1
      rw [hcpu, hf.2.2.2.2 c2] at hm2
      exact h1 c1 c2 m hm1 hm2

/-- In every reachable state no two processors have the same `msip`
register. -/
theorem reachable_clint_apart (P : Platform) (s : State) (h : Reachable P s) :
    ClintApart s := by
  induction h with
  | init hboot hinit => exact facility_initialize_clint_apart P _ _ _ _ hboot hinit
  | enable _ hstep ih =>
    unfold ClintApart
    rw [(enable_frame P _ _ _ _ _ hstep).1]
    exact ih
  | disable _ hstep ih =>
    unfold ClintApart
    rw [(disable_frame P _ _ _ _ _ hstep).1]
    exact ih
  | raise_on _ hstep ih =>
    unfold ClintApart
    rw [(raise_on_frame P _ _ _ _ _ hstep).1]
    exact ih
  | clear _ hstep ih =>
    rw [clear_frame P _ _ _ _ hstep]
    exact ih
  | set_affinity _ _ hstep ih =>
    unfold ClintApart
    rw [(set_affinity_frame P _ _ _ _ _ hstep).1]
    exact ih

/-! ## Raising -/

theorem software_vector_valid (P : Platform) (hP : Consistent P) :
    bsp_interrupt_is_valid_vector P P.RISCV_INTERRUPT_VECTOR_SOFTWARE = true := by
  have h1 := hP.count_eq
  have h2 := hP.count_lt
  have h3 := hP.software_lt
  have h0 : RISCV_INTERRUPT_VECTOR_EXTERNAL P 0 = P.ext_base := by
    simp only [RISCV_INTERRUPT_VECTOR_EXTERNAL, u32]
    omega
  simp only [bsp_interrupt_is_valid_vector, h0, u32]
  rw [if_neg (by omega)]
  simp only [decide_eq_true_eq]
  omega

/-- C11: in a reachable state, for the software vector and a processor `c`
with an attached `msip` register, `bsp_interrupt_raise_on` to `c` and
`bsp_interrupt_raise` called on `c` return `RTEMS_SUCCESSFUL` and the same
state, in which the `msip` register of `c` is 1, every other `msip` register
is as before, so the `msip` register of every other processor, and the
processors have the registers they had. -/
theorem raise_software (P : Platform) (hP : Consistent P) (s : State) (hs : Reachable P s)
    (c msip : Nat) (hc : (s.cpu c).clint_msip = some msip) :
    ∃ s1,
      bsp_interrupt_raise_on P s P.RISCV_INTERRUPT_VECTOR_SOFTWARE c =
        .ok (.RTEMS_SUCCESSFUL, s1) ∧
      bsp_interrupt_raise P c s P.RISCV_INTERRUPT_VECTOR_SOFTWARE =
        .ok (.RTEMS_SUCCESSFUL, s1) ∧
      s1.cpu = s.cpu ∧
      s1.clint_msip msip = 1 ∧
      (∀ m, m ≠ msip → s1.clint_msip m = s.clint_msip m) ∧
      ∀ c1 m1, c1 ≠ c → (s.cpu c1).clint_msip = some m1 →
        s1.clint_msip m1 = s.clint_msip m1 := by
  have hraise : riscv_raise_on P s P.RISCV_INTERRUPT_VECTOR_SOFTWARE c =
      .ok (.RTEMS_SUCCESSFUL, { s with clint_msip := Function.update s.clint_msip msip 1 }) := by
    unfold riscv_raise_on
    simp only [software_vector_valid P hP, assert_true, bind, Except.bind, pure, Except.pure,
      ne_eq, not_true_eq_false, if_false, hc]
  have hframe : ∀ m, m ≠ msip →
      (Function.update s.clint_msip msip 1) m = s.clint_msip m :=
    fun m hm => Function.update_noteq hm _ _
  refine ⟨_, hraise, hraise, rfl, by simp, hframe, ?_⟩
  intro c1 m1 hne hm1
  apply hframe
  intro heq
  apply hne
  apply reachable_clint_apart P s hs c1 c msip
  · rw [hm1, heq]
  · exact hc

/-- C12: for a valid vector that is not the software vector and any target
processor, `bsp_interrupt_raise_on` and `bsp_interrupt_raise` return
`RTEMS_UNSATISFIED` and leave the state, so every register, as it was. -/
theorem raise_unsatisfied (P : Platform) (s : State) (self vector cpu_index : Nat)
    (hvalid : bsp_interrupt_is_valid_vector P vector = true)
    (hne : vector ≠ P.RISCV_INTERRUPT_VECTOR_SOFTWARE) :
    bsp_interrupt_raise_on P s vector cpu_index = .ok (.RTEMS_UNSATISFIED, s) ∧
      bsp_interrupt_raise P self s vector = .ok (.RTEMS_UNSATISFIED, s) := by
  have h : ∀ c, riscv_raise_on P s vector c = .ok (.RTEMS_UNSATISFIED, s) := by
    intro c
    unfold riscv_raise_on
    simp only [hvalid, assert_true, bind, Except.bind, pure, Except.pure, ne_eq, hne,
      not_false_eq_true, if_true]
  exact ⟨h cpu_index, h self⟩

/-! ## Topology discovery: priorities and affinity table -/

/-- C15: when `riscv_plic_init` returns with a PLIC present, the property
`riscv,ndev` has four bytes that decode to a value `ndev`, the priority
register of every source index from 1 to `ndev` is 1, and every other priority
register, the one of index 0 among them, holds what it held before. -/
theorem plic_init_priorities (P : Platform) (fdt : Fdt) (self plic : Nat) (s0 s : State)
    (hplic : fdt.plic = some plic) (h : riscv_plic_init P fdt self s0 = .ok s) :
    ∃ b0 b1 b2 b3, fdt.plic_ndev = some [b0, b1, b2, b3] ∧
      (∀ i, 1 ≤ i → i ≤ fdt32_to_cpu b0 b1 b2 b3 → s.plic_priority i = 1) ∧
      (∀ i, i = 0 ∨ fdt32_to_cpu b0 b1 b2 b3 < i → s.plic_priority i = s0.plic_priority i) := by
  obtain ⟨b0, b1, b2, b3, s1, hndev, _, hloop, _, _, _, hprio, _⟩ :=
    riscv_plic_init_returns P fdt self plic s0 s hplic h
  have hf := riscv_plic_init_loop_frame P fdt _ _ s1 _ hloop
  refine ⟨b0, b1, b2, b3, hndev, ?_, ?_⟩
  · intro i h1 h2
    rw [hprio i, if_pos ⟨h1, h2⟩]
  · intro i hi
    rw [hprio i, if_neg (by omega), hf.2.1]

/-- C16, as the code has it: when `riscv_plic_init` returns with a PLIC
present, for every source index `i` from 1 to `ndev` the entry `i - 1` of the
affinity table is the enable pointer of processor 0, which is `NULL` only when
processor 0 has no attached enable block; the other entries hold what they
held before. -/
theorem plic_init_affinity (P : Platform) (fdt : Fdt) (self plic : Nat) (s0 s : State)
    (hplic : fdt.plic = some plic) (h : riscv_plic_init P fdt self s0 = .ok s) :
    ∃ b0 b1 b2 b3, fdt.plic_ndev = some [b0, b1, b2, b3] ∧
      (∀ i, 1 ≤ i → i ≤ fdt32_to_cpu b0 b1 b2 b3 →
        s.riscv_plic_irq_to_cpu (i - 1) = (s.cpu 0).plic_m_ie) ∧
      (∀ k, fdt32_to_cpu b0 b1 b2 b3 ≤ k →
        s.riscv_plic_irq_to_cpu k = s0.riscv_plic_irq_to_cpu k) := by
  obtain ⟨b0, b1, b2, b3, s1, hndev, _, hloop, hcpu, _, _, _, htab⟩ :=
    riscv_plic_init_returns P fdt self plic s0 s hplic h
  have hf := riscv_plic_init_loop_frame P fdt _ _ s1 _ hloop
  refine ⟨b0, b1, b2, b3, hndev, ?_, ?_⟩
  · intro i h1 h2
    rw [htab (i - 1), if_pos (by omega), hcpu]
  · intro k hk
    rw [htab k, if_neg (by omega), hf.1]

/-! ## Topology discovery: the enable registers -/

/-- The loop that clears the enable words: the words from `plic_m_ie` to
`plic_m_ie + n - 1` become zero, the others are kept. -/
theorem clear_enable_words_word (s : State) (plic_m_ie : Nat) :
    ∀ n a : Nat, (clear_enable_words s plic_m_ie n).plic_enable a =
      if plic_m_ie ≤ a ∧ a < plic_m_ie + n then 0 else s.plic_enable a
  | 0, a => by
    rw [if_neg (by omega)]
    rfl
  | n + 1, a => by
    have ih := clear_enable_words_word s plic_m_ie n a
    unfold clear_enable_words at ih ⊢
    rw [List.range_succ, List.foldl_append]
    simp only [List.foldl_cons, List.foldl_nil, Function.update_apply]
    by_cases ha : a = plic_m_ie + n
    · rw [if_pos ha, if_pos (by omega)]
    · rw [if_neg ha, ih]
      by_cases hr : plic_m_ie ≤ a ∧ a < plic_m_ie + n
      · rw [if_pos hr, if_pos (by omega)]
      · rw [if_neg hr, if_neg (by omega)]

theorem attach_plic_masked (P : Platform) (s : State) (cpu_index k ndev : Nat)
    (h : Masked (mie_regs ndev) s) :
    Masked (mie_regs ndev) (attach_plic P s cpu_index k ndev) := by
  intro c e he w hw
  have hword := clear_enable_words_word
    { s with
      plic_priority_threshold := Function.update s.plic_priority_threshold k 0,
      cpu := Function.update s.cpu cpu_index
        { s.cpu cpu_index with plic_hart_regs := some k, plic_m_ie := some (P.enable_words * k) } }
    (P.enable_words * k) (mie_regs ndev) (e + w)
  have hcpu := (clear_enable_words_keeps
    { s with
      plic_priority_threshold := Function.update s.plic_priority_threshold k 0,
      cpu := Function.update s.cpu cpu_index
        { s.cpu cpu_index with plic_hart_regs := some k, plic_m_ie := some (P.enable_words * k) } }
    (P.enable_words * k) (mie_regs ndev)).1
  unfold attach_plic at he ⊢
  simp only [] at he ⊢
  rw [hword]
  rw [hcpu] at he
  simp only [Function.update_apply] at he
  split
  · rfl
  · rename_i hout
    split at he
    · simp only [Option.some.injEq] at he
      omega
    · exact h c e he w hw

theorem riscv_plic_init_body_masked (P : Platform) (fdt : Fdt) (ndev n : Nat)
    (r : Except Fault State) (h : ∀ s, r = .ok s → Masked (mie_regs ndev) s) :
    ∀ s, riscv_plic_init_body P fdt ndev r n = .ok s → Masked (mie_regs ndev) s := by
  intro s hs
  unfold riscv_plic_init_body at hs
  split at hs
  · cases hs
  · rename_i t
    have h0 := h t rfl
    simp only [] at hs
    repeat' split at hs
    all_goals try cases hs
    all_goals first
      | exact h0
      | exact attach_plic_masked P t _ n ndev h0

/-- When `riscv_plic_init` returns, and started with no processor attached,
and the number of words it clears is above the word of the last source, the
enable bit of every source from 1 to `ndev` is zero in the enable block of
every attached processor. -/
theorem plic_init_masks (P : Platform) (fdt : Fdt) (self plic : Nat) (s0 s : State)
    (hplic : fdt.plic = some plic) (h0 : ∀ c, (s0.cpu c).plic_m_ie = none)
    (h : riscv_plic_init P fdt self s0 = .ok s) :
    ∃ b0 b1 b2 b3, fdt.plic_ndev = some [b0, b1, b2, b3] ∧
      (fdt32_to_cpu b0 b1 b2 b3 / 32 < mie_regs (fdt32_to_cpu b0 b1 b2 b3) →
        ∀ c e, (s.cpu c).plic_m_ie = some e →
          ∀ i, 1 ≤ i → i ≤ fdt32_to_cpu b0 b1 b2 b3 →
            s.plic_enable (e + i / 32) &&& 2 ^ (i % 32) = 0) := by
  obtain ⟨b0, b1, b2, b3, s1, hndev, _, hloop, hcpu, hen, _⟩ :=
    riscv_plic_init_returns P fdt self plic s0 s hplic h
  refine ⟨b0, b1, b2, b3, hndev, ?_⟩
  intro hwords c e he i _ hi
  have hm := foldl_range_invariant (riscv_plic_init_body P fdt (fdt32_to_cpu b0 b1 b2 b3))
    (fun _ r => ∀ t, r = .ok t → Masked (mie_regs (fdt32_to_cpu b0 b1 b2 b3)) t)
    (fun k r hr => riscv_plic_init_body_masked P fdt _ k r hr)
    (.ok { s0 with riscv_plic := some plic })
    (by
      intro t ht
      cases ht
      intro c1 e1 he1
      rw [h0 c1] at he1
      cases he1)
    ((4 * fdt.plic_interrupts_extended.length + 7) / 8) s1 hloop
  rw [hcpu] at he
  have hw : i / 32 < mie_regs (fdt32_to_cpu b0 b1 b2 b3) := by
    have : i / 32 ≤ fdt32_to_cpu b0 b1 b2 b3 / 32 := Nat.div_le_div_right hi
    omega
  rw [hen, hm c e he (i / 32) hw]
  simp

set_option maxRecDepth 100000 in
/-- The number of words cleared is above the word of the last source for every
`ndev` from 1 to 224. -/
theorem mie_regs_covers : ∀ ndev, ndev < 225 → 1 ≤ ndev → ndev / 32 < mie_regs ndev := by
  decide

/-- For 250 sources the driver clears no enable word. -/
theorem mie_regs_250 : mie_regs 250 = 0 := by decide

/-- C17 fails on the code: built for 256 external interrupts at most, on a
device tree with `riscv,ndev` 250 and with the enable registers holding ones
before, `riscv_plic_init` returns with processor 0 attached to the enable block
at word 32 and the enable bit of source 1 still set there; no enable word is
cleared, as `mie_regs` is zero. -/
theorem plic_init_leaves_enabled :
    ∃ s : State,
      riscv_plic_init smp2_wide fdt2_ndev250 0 reset_state_enabled = .ok s ∧
      fdt32_to_cpu 0 0 0 250 ≤ smp2_wide.RISCV_MAXIMUM_EXTERNAL_INTERRUPTS ∧
      mie_regs (fdt32_to_cpu 0 0 0 250) = 0 ∧
      (s.cpu 0).plic_m_ie = some 32 ∧
      s.plic_enable (32 + 1 / 32) &&& 2 ^ (1 % 32) ≠ 0 :=
  ⟨_, rfl, by decide, by decide, rfl, by decide⟩

/-! ## Topology discovery: the fatal errors of `riscv_plic_init` -/

theorem riscv_plic_init_body_not_fatal (P : Platform) (fdt : Fdt) (ndev n : Nat)
    (r : Except Fault State) (h : ∀ code, r ≠ .error (.bsp_fatal code)) :
    ∀ code, riscv_plic_init_body P fdt ndev r n ≠ .error (.bsp_fatal code) := by
  intro code hr
  unfold riscv_plic_init_body at hr
  split at hr
  · exact h code hr
  · simp only [] at hr
    repeat' split at hr
    all_goals cases hr

/-- C18: with the PLIC node present, `riscv_plic_init` ends in the fatal hook,
without a state, when the property `riscv,ndev` is absent or its length is not
four bytes (`RISCV_FATAL_INVALID_PLIC_NDEV_IN_DEVICE_TREE`) and when its value
exceeds `RISCV_MAXIMUM_EXTERNAL_INTERRUPTS`
(`RISCV_FATAL_TOO_LARGE_PLIC_NDEV_IN_DEVICE_TREE`); with four bytes and a value
that does not exceed the maximum it does not end in the fatal hook. -/
theorem plic_init_ndev_fatal (P : Platform) (fdt : Fdt) (self plic : Nat) (s0 : State)
    (hplic : fdt.plic = some plic) :
    (fdt.plic_ndev = none →
      riscv_plic_init P fdt self s0 =
        .error (.bsp_fatal .RISCV_FATAL_INVALID_PLIC_NDEV_IN_DEVICE_TREE)) ∧
    (∀ bytes, fdt.plic_ndev = some bytes → bytes.length ≠ 4 →
      riscv_plic_init P fdt self s0 =
        .error (.bsp_fatal .RISCV_FATAL_INVALID_PLIC_NDEV_IN_DEVICE_TREE)) ∧
    (∀ b0 b1 b2 b3, fdt.plic_ndev = some [b0, b1, b2, b3] →
      P.RISCV_MAXIMUM_EXTERNAL_INTERRUPTS < fdt32_to_cpu b0 b1 b2 b3 →
      riscv_plic_init P fdt self s0 =
        .error (.bsp_fatal .RISCV_FATAL_TOO_LARGE_PLIC_NDEV_IN_DEVICE_TREE)) ∧
    (∀ b0 b1 b2 b3, fdt.plic_ndev = some [b0, b1, b2, b3] →
      fdt32_to_cpu b0 b1 b2 b3 ≤ P.RISCV_MAXIMUM_EXTERNAL_INTERRUPTS →
      ∀ code, riscv_plic_init P fdt self s0 ≠ .error (.bsp_fatal code)) := by
  refine ⟨?_, ?_, ?_, ?_⟩
  · intro hnone
    unfold riscv_plic_init
    rw [hplic, hnone]
  · intro bytes hbytes hlen
    unfold riscv_plic_init
    rw [hplic, hbytes]
    simp only []
    split
    · rename_i b0 b1 b2 b3 heq
      simp only [Option.some.injEq] at heq
      rw [heq] at hlen
      simp at hlen
    · rfl
  · intro b0 b1 b2 b3 hbytes hgt
    unfold riscv_plic_init
    rw [hplic, hbytes]
    simp only [gt_iff_lt, hgt, if_true]
  · intro b0 b1 b2 b3 hbytes hle code
    unfold riscv_plic_init
    rw [hplic, hbytes]
    simp only [gt_iff_lt, not_lt.mpr hle, if_false]
    have hloop := foldl_invariant (riscv_plic_init_body P fdt (fdt32_to_cpu b0 b1 b2 b3))
      (fun r => ∀ code, r ≠ .error (.bsp_fatal code))
      (fun r n hr => riscv_plic_init_body_not_fatal P fdt _ n r hr)
      (List.range ((4 * fdt.plic_interrupts_extended.length + 7) / 8))
      (.ok { s0 with riscv_plic := some plic })
      (by
        intro code h
        cases h)
    split
    · rename_i e heq
      intro h
      cases h
      exact hloop code heq
    · intro h
      cases h

/-! ## The SMP loops on an external vector -/

/-- For a valid external vector the macro
`RISCV_INTERRUPT_VECTOR_EXTERNAL_TO_INDEX` gives the source index: the vector
is the external vector of that index. -/
theorem external_of_index (P : Platform) (hP : Consistent P) (vector : Nat)
    (hvalid : bsp_interrupt_is_valid_vector P vector = true)
    (hext : RISCV_INTERRUPT_VECTOR_IS_EXTERNAL P vector = true) :
    RISCV_INTERRUPT_VECTOR_EXTERNAL P (RISCV_INTERRUPT_VECTOR_EXTERNAL_TO_INDEX P vector) =
      vector := by
  obtain ⟨hidx, _, _, _, _⟩ := external_index P hP vector hvalid hext
  have hc := hP.count_eq
  have hl := hP.count_lt
  rw [hidx]
  simp only [RISCV_INTERRUPT_VECTOR_IS_EXTERNAL, decide_eq_true_eq] at hext
  simp only [RISCV_INTERRUPT_VECTOR_EXTERNAL, u32]
  omega

/-- C19: on an SMP build, for a valid external vector, with `i` its source
index, `bsp_interrupt_vector_is_enabled`, which returns no state, returns
`RTEMS_SUCCESSFUL` and reports true exactly when a processor below the
processor maximum with an attached enable block has bit `i % 32` of word
`i / 32` of the block set. -/
theorem is_enabled_smp_iff (P : Platform) (hP : Consistent P) (self : Nat) (s : State)
    (vector : Nat) (hsmp : P.RTEMS_SMP = true)
    (hvalid : bsp_interrupt_is_valid_vector P vector = true)
    (hext : RISCV_INTERRUPT_VECTOR_IS_EXTERNAL P vector = true) :
    RISCV_INTERRUPT_VECTOR_EXTERNAL P (RISCV_INTERRUPT_VECTOR_EXTERNAL_TO_INDEX P vector) =
      vector ∧
    ∃ enabled : Bool,
      bsp_interrupt_vector_is_enabled P self s vector = .ok (.RTEMS_SUCCESSFUL, enabled) ∧
      (enabled = true ↔
        ∃ c, c < P.processor_maximum ∧ ∃ e, (s.cpu c).plic_m_ie = some e ∧
          (s.plic_enable (e + RISCV_INTERRUPT_VECTOR_EXTERNAL_TO_INDEX P vector / 32)).testBit
            (RISCV_INTERRUPT_VECTOR_EXTERNAL_TO_INDEX P vector % 32) = true) := by
  refine ⟨external_of_index P hP vector hvalid hext, _,
    is_enabled_external_smp P self s vector hsmp hvalid hext, ?_⟩
  rw [is_enabled_loop_iff]
  constructor
  · rintro ⟨c, hc, e, he, hbit⟩
    exact ⟨c, List.mem_range.mp hc, e, he, (and_two_pow_ne_zero_iff _ _).mp hbit⟩
  · rintro ⟨c, hc, e, he, hbit⟩
    exact ⟨c, List.mem_range.mpr hc, e, he, (and_two_pow_ne_zero_iff _ _).mpr hbit⟩

/-- C20: on an SMP build, for a valid external vector, with `i` its source
index, whose entry `i - 1` of the affinity table is `NULL`,
`bsp_interrupt_vector_enable` and `bsp_interrupt_vector_disable` return
`RTEMS_SUCCESSFUL`, and in the enable block of every processor below the
processor maximum that has one, bit `i % 32` of word `i / 32` is set after the
first and clear after the second. -/
theorem broadcast_enable_disable (P : Platform) (hP : Consistent P) (self : Nat) (s : State)
    (vector : Nat) (hsmp : P.RTEMS_SMP = true)
    (hvalid : bsp_interrupt_is_valid_vector P vector = true)
    (hext : RISCV_INTERRUPT_VECTOR_IS_EXTERNAL P vector = true)
    (hnull : s.riscv_plic_irq_to_cpu (RISCV_INTERRUPT_VECTOR_EXTERNAL_TO_INDEX P vector - 1) =
      none) :
    RISCV_INTERRUPT_VECTOR_EXTERNAL P (RISCV_INTERRUPT_VECTOR_EXTERNAL_TO_INDEX P vector) =
      vector ∧
    ∃ s1 s2 : State,
      bsp_interrupt_vector_enable P self s vector = .ok (.RTEMS_SUCCESSFUL, s1) ∧
      bsp_interrupt_vector_disable P self s vector = .ok (.RTEMS_SUCCESSFUL, s2) ∧
      s1.cpu = s.cpu ∧ s2.cpu = s.cpu ∧
      ∀ c e, c < P.processor_maximum → (s.cpu c).plic_m_ie = some e →
        (s1.plic_enable (e + RISCV_INTERRUPT_VECTOR_EXTERNAL_TO_INDEX P vector / 32)).testBit
          (RISCV_INTERRUPT_VECTOR_EXTERNAL_TO_INDEX P vector % 32) = true ∧
        (s2.plic_enable (e + RISCV_INTERRUPT_VECTOR_EXTERNAL_TO_INDEX P vector / 32)).testBit
          (RISCV_INTERRUPT_VECTOR_EXTERNAL_TO_INDEX P vector % 32) = false := by
  obtain ⟨hidx, _, _, _, _⟩ := external_index P hP vector hvalid hext
  have hread := irq_to_cpu_read_valid P hP s vector hvalid hext
  rw [hidx] at hnull
  rw [hnull] at hread
  have hen := enable_broadcast P self s vector hvalid hext hread
  have hdis := disable_broadcast P self s vector hvalid hext hread
  simp only [hsmp, if_true] at hen hdis
  refine ⟨external_of_index P hP vector hvalid hext, _, _, hen, hdis,
    (enable_loop_frame _ _ _ _).1, (disable_loop_frame _ _ _ _).1, ?_⟩
  intro c e hc he
  have ht : Touched s (RISCV_INTERRUPT_VECTOR_EXTERNAL_TO_INDEX P vector / 32)
      (List.range P.processor_maximum)
      (e + RISCV_INTERRUPT_VECTOR_EXTERNAL_TO_INDEX P vector / 32) :=
    ⟨c, List.mem_range.mpr hc, e, he, rfl⟩
  rw [(enable_loop_word _ _ _ s _).1 ht, (disable_loop_word _ _ _ s _).1 ht]
  exact ⟨testBit_or_two_pow _ _,
    testBit_and_not32_two_pow _ _ (Nat.mod_lt _ (by norm_num))⟩

/-! ## Evaluation of the raise, discovery and SMP loop statements -/

theorem raise_software_witness :
    ((boot_state smp2 fdt2).cpu 1).clint_msip = some 1 ∧
    ∃ s1,
      bsp_interrupt_raise_on smp2 (boot_state smp2 fdt2) 0 1 = .ok (.RTEMS_SUCCESSFUL, s1) ∧
      bsp_interrupt_raise smp2 1 (boot_state smp2 fdt2) 0 = .ok (.RTEMS_SUCCESSFUL, s1) ∧
      s1.clint_msip 1 = 1 ∧ s1.clint_msip 0 = (boot_state smp2 fdt2).clint_msip 0 := by
  obtain ⟨s1, h1, h2, _, h4, h5, _⟩ :=
    raise_software smp2 smp2_consistent (boot_state smp2 fdt2) (boot_state_reachable fdt2 rfl)
      1 1 rfl
  exact ⟨rfl, s1, h1, h2, h4, h5 0 (by decide)⟩

theorem raise_unsatisfied_witness :
    bsp_interrupt_is_valid_vector smp2 1 = true ∧
    bsp_interrupt_raise_on smp2 (boot_state smp2 fdt2) 1 1 =
      .ok (.RTEMS_UNSATISFIED, boot_state smp2 fdt2) ∧
    bsp_interrupt_raise smp2 0 (boot_state smp2 fdt2) 1 =
      .ok (.RTEMS_UNSATISFIED, boot_state smp2 fdt2) :=
  ⟨by decide, raise_unsatisfied smp2 (boot_state smp2 fdt2) 0 1 1 (by decide) (by decide)⟩

theorem plic_init_priorities_witness :
    ∃ s, riscv_plic_init smp2 fdt2 0 reset_state = .ok s ∧
      s.plic_priority 1 = 1 ∧ s.plic_priority 10 = 1 ∧
      s.plic_priority 0 = reset_state.plic_priority 0 ∧
      s.plic_priority 11 = reset_state.plic_priority 11 := by
  obtain ⟨s, h⟩ : ∃ s, riscv_plic_init smp2 fdt2 0 reset_state = .ok s := ⟨_, rfl⟩
  obtain ⟨b0, b1, b2, b3, hndev, hin, hout⟩ :=
    plic_init_priorities smp2 fdt2 0 201326592 reset_state s rfl h
  cases hndev
  exact ⟨s, h, hin 1 (by decide) (by decide), hin 10 (by decide) (by decide),
    hout 0 (Or.inl rfl), hout 11 (Or.inr (by decide))⟩

theorem plic_init_affinity_witness :
    ∃ s, riscv_plic_init smp2 fdt2 0 reset_state = .ok s ∧
      s.riscv_plic_irq_to_cpu (1 - 1) = (s.cpu 0).plic_m_ie ∧
      s.riscv_plic_irq_to_cpu (10 - 1) = (s.cpu 0).plic_m_ie ∧
      s.riscv_plic_irq_to_cpu 10 = reset_state.riscv_plic_irq_to_cpu 10 := by
  obtain ⟨s, h⟩ : ∃ s, riscv_plic_init smp2 fdt2 0 reset_state = .ok s := ⟨_, rfl⟩
  obtain ⟨b0, b1, b2, b3, hndev, hin, hout⟩ :=
    plic_init_affinity smp2 fdt2 0 201326592 reset_state s rfl h
  cases hndev
  exact ⟨s, h, hin 1 (by decide) (by decide), hin 10 (by decide) (by decide),
    hout 10 (by decide)⟩

/-- C16, as stated, fails: on the dual-processor device tree, where processor 0
gets the hart context 1 of the PLIC, `riscv_plic_init` returns with the entry
of source 1 of the affinity table holding the enable pointer of processor 0,
not `NULL`. -/
theorem affinity_after_discovery_is_processor0 :
    ∃ s, riscv_plic_init smp2 fdt2 0 reset_state = .ok s ∧
      fdt2.plic_ndev = some [0, 0, 0, 10] ∧ fdt32_to_cpu 0 0 0 10 = 10 ∧
      (s.cpu 0).plic_m_ie = some 32 ∧
      s.riscv_plic_irq_to_cpu (1 - 1) = some 32 ∧
      s.riscv_plic_irq_to_cpu (10 - 1) = some 32 :=
  ⟨_, rfl, rfl, rfl, rfl, rfl, rfl⟩

theorem plic_init_ndev_fatal_witness :
    riscv_plic_init smp2 { fdt2 with plic_ndev := none } 0 reset_state =
      .error (.bsp_fatal .RISCV_FATAL_INVALID_PLIC_NDEV_IN_DEVICE_TREE) ∧
    riscv_plic_init smp2 { fdt2 with plic_ndev := some [0, 0, 10] } 0 reset_state =
      .error (.bsp_fatal .RISCV_FATAL_INVALID_PLIC_NDEV_IN_DEVICE_TREE) ∧
    riscv_plic_init smp2 { fdt2 with plic_ndev := some [0, 0, 0, 129] } 0 reset_state =
      .error (.bsp_fatal .RISCV_FATAL_TOO_LARGE_PLIC_NDEV_IN_DEVICE_TREE) ∧
    riscv_plic_init smp2 { fdt2 with plic_ndev := some [0, 0, 0, 128] } 0 reset_state ≠
      .error (.bsp_fatal .RISCV_FATAL_TOO_LARGE_PLIC_NDEV_IN_DEVICE_TREE) :=
  ⟨(plic_init_ndev_fatal smp2 { fdt2 with plic_ndev := none } 0 201326592 reset_state rfl).1 rfl,
   (plic_init_ndev_fatal smp2 { fdt2 with plic_ndev := some [0, 0, 10] } 0 201326592
      reset_state rfl).2.1 [0, 0, 10] rfl (by decide),
   (plic_init_ndev_fatal smp2 { fdt2 with plic_ndev := some [0, 0, 0, 129] } 0 201326592
      reset_state rfl).2.2.1 0 0 0 129 rfl (by decide),
   (plic_init_ndev_fatal smp2 { fdt2 with plic_ndev := some [0, 0, 0, 128] } 0 201326592
      reset_state rfl).2.2.2 0 0 0 128 rfl (by decide) _⟩

theorem is_enabled_smp_iff_witness :
    RISCV_INTERRUPT_VECTOR_EXTERNAL smp2 (RISCV_INTERRUPT_VECTOR_EXTERNAL_TO_INDEX smp2 3) = 3 ∧
    ∃ enabled : Bool,
      bsp_interrupt_vector_is_enabled smp2 0 (boot_state smp2 fdt2) 3 =
        .ok (.RTEMS_SUCCESSFUL, enabled) ∧
      (enabled = true ↔
        ∃ c, c < smp2.processor_maximum ∧ ∃ e,
          ((boot_state smp2 fdt2).cpu c).plic_m_ie = some e ∧
          ((boot_state smp2 fdt2).plic_enable
            (e + RISCV_INTERRUPT_VECTOR_EXTERNAL_TO_INDEX smp2 3 / 32)).testBit
            (RISCV_INTERRUPT_VECTOR_EXTERNAL_TO_INDEX smp2 3 % 32) = true) :=
  is_enabled_smp_iff smp2 smp2_consistent 0 (boot_state smp2 fdt2) 3 rfl (by decide) (by decide)

theorem broadcast_enable_disable_witness :
    RISCV_INTERRUPT_VECTOR_EXTERNAL_TO_INDEX smp2 50 = 48 ∧
    (boot_state smp2 fdt2).riscv_plic_irq_to_cpu (48 - 1) = none ∧
    ∃ (s1 s2 : State),
      bsp_interrupt_vector_enable smp2 0 (boot_state smp2 fdt2) 50 =
        .ok (.RTEMS_SUCCESSFUL, s1) ∧
      bsp_interrupt_vector_disable smp2 0 (boot_state smp2 fdt2) 50 =
        .ok (.RTEMS_SUCCESSFUL, s2) ∧
      (s1.plic_enable (32 + 48 / 32)).testBit (48 % 32) = true ∧
      (s1.plic_enable (96 + 48 / 32)).testBit (48 % 32) = true ∧
      (s2.plic_enable (32 + 48 / 32)).testBit (48 % 32) = false ∧
      (s2.plic_enable (96 + 48 / 32)).testBit (48 % 32) = false := by
  obtain ⟨_, s1, s2, h1, h2, _, _, h⟩ :=
    broadcast_enable_disable smp2 smp2_consistent 0 (boot_state smp2 fdt2) 50 rfl (by decide)
      (by decide) rfl
  have hi : RISCV_INTERRUPT_VECTOR_EXTERNAL_TO_INDEX smp2 50 = 48 := by decide
  rw [hi] at h
  exact ⟨hi, rfl, s1, s2, h1, h2, (h 0 32 (by decide) rfl).1, (h 1 96 (by decide) rfl).1,
    (h 0 32 (by decide) rfl).2, (h 1 96 (by decide) rfl).2⟩

/-! ## Vector attributes -/

/-- C21: for every vector and every prior content of the caller's structure,
`bsp_interrupt_get_attributes` returns `RTEMS_SUCCESSFUL` with `is_maskable`,
`can_enable`, `can_disable` and `cleared_by_acknowledge` true; `can_raise` and
`can_raise_on` are equal and true exactly for the software vector;
`can_get_affinity` and `can_set_affinity` are equal and true exactly for the
vectors that `RISCV_INTERRUPT_VECTOR_IS_EXTERNAL` accepts, the vectors from
`RISCV_INTERRUPT_VECTOR_EXTERNAL(0)` on. -/
theorem get_attributes_result (P : Platform) (vector : Nat)
    (attributes : rtems_interrupt_attributes) :
    (bsp_interrupt_get_attributes P vector attributes).1 = .RTEMS_SUCCESSFUL ∧
    (bsp_interrupt_get_attributes P vector attributes).2.is_maskable = true ∧
    (bsp_interrupt_get_attributes P vector attributes).2.can_enable = true ∧
    (bsp_interrupt_get_attributes P vector attributes).2.can_disable = true ∧
    (bsp_interrupt_get_attributes P vector attributes).2.cleared_by_acknowledge = true ∧
    ((bsp_interrupt_get_attributes P vector attributes).2.can_raise = true ↔
      vector = P.RISCV_INTERRUPT_VECTOR_SOFTWARE) ∧
    (bsp_interrupt_get_attributes P vector attributes).2.can_raise_on =
      (bsp_interrupt_get_attributes P vector attributes).2.can_raise ∧
    ((bsp_interrupt_get_attributes P vector attributes).2.can_get_affinity = true ↔
      RISCV_INTERRUPT_VECTOR_IS_EXTERNAL P vector = true) ∧
    (RISCV_INTERRUPT_VECTOR_IS_EXTERNAL P vector = true ↔ P.ext_base ≤ vector) ∧
    (bsp_interrupt_get_attributes P vector attributes).2.can_set_affinity =
      (bsp_interrupt_get_attributes P vector attributes).2.can_get_affinity := by
  unfold bsp_interrupt_get_attributes RISCV_INTERRUPT_VECTOR_IS_EXTERNAL
  by_cases h : vector = P.RISCV_INTERRUPT_VECTOR_SOFTWARE <;> simp [h]

/-! ## The number of enable words that topology discovery clears -/

set_option maxRecDepth 100000 in
theorem mie_regs_rounds_up :
    ∀ ndev, ndev < 225 → mie_regs ndev = (ndev + 31) / 32 * 32 := by
  decide

/-- C22: in the configuration `smp2_wide`, whose maximum of 256 external
interrupts accepts `ndev = 250`, `mie_regs` is 0 for `ndev = 250`, while the
smallest multiple of 32 that is not below 250 is 256: the `uint8_t` keeps the
low eight bits of the rounded value. -/
theorem mie_regs_loses_high_bits :
    250 ≤ smp2_wide.RISCV_MAXIMUM_EXTERNAL_INTERRUPTS ∧
    mie_regs 250 = 0 ∧
    u32 (250 + 31) &&& not32 31 = 256 ∧
    256 % 32 = 0 ∧ 250 ≤ 256 ∧ ∀ m, m < 256 → m % 32 = 0 → m < 250 :=
  ⟨by decide, by decide, by decide, by decide, by decide, fun m h1 h2 => by omega⟩

/-! ## PCI host bridge errors -/

theorem clear_loop_sequences :
    ∀ (reads : List Nat) (n : Nat) (trace : List PciEvent) (last : Nat),
      clear_loop (n : Int) reads = some (trace, last) →
        1 ≤ clear_sequences trace ∧ clear_sequences trace ≤ n + 1 ∧
        (PCI_STATUS_OK last = false → clear_sequences trace = n + 1)
  | [], _, _, _, h => by simp [clear_loop] at h
  | value :: reads, n, trace, last, h => by
    unfold clear_loop at h
    simp only [] at h
    split at h
    · rename_i hc
      simp only [Bool.and_eq_true, Bool.not_eq_true', decide_eq_true_eq] at hc
      obtain ⟨m, rfl⟩ : ∃ m, n = m + 1 := by
        rcases n with _ | m
        · exact absurd rfl hc.2
        · exact ⟨m, rfl⟩
      have hm : ((m + 1 : Nat) : Int) - 1 = (m : Int) := by push_cast; ring
      rw [hm] at h
      cases hr : clear_loop (m : Int) reads with
      | none => rw [hr] at h; cases h
      | some r =>
        obtain ⟨t, l⟩ := r
        rw [hr] at h
        simp only [Option.some.injEq, Prod.mk.injEq] at h
        obtain ⟨rfl, rfl⟩ := h
        have ih := clear_loop_sequences reads m t l hr
        have hcount : clear_sequences
            ([PciEvent.write_status PCI_ERR_BITS, PciEvent.read_status (value % 65536)] ++ t) =
            clear_sequences t + 1 := by
          simp [clear_sequences, List.count_cons]
        rw [hcount]
        refine ⟨by omega, by omega, fun hl => ?_⟩
        have := ih.2.2 hl
        omega
    · rename_i hc
      simp only [Option.some.injEq, Prod.mk.injEq] at h
      obtain ⟨rfl, rfl⟩ := h
      have hcount : clear_sequences
          [PciEvent.write_status PCI_ERR_BITS, PciEvent.read_status (value % 65536)] = 1 := by
        simp [clear_sequences, List.count_cons]
      rw [hcount]
      refine ⟨le_refl _, by omega, fun hl => ?_⟩
      simp only [Bool.and_eq_true, Bool.not_eq_true', decide_eq_true_eq, not_and,
        not_not] at hc
      have := hc hl
      have h0 : n = 0 := by exact_mod_cast this
      omega

theorem clear_loop_returns :
    ∀ (reads : List Nat) (n : Nat), n + 1 ≤ reads.length →
      ∃ r, clear_loop (n : Int) reads = some r
  | [], _, h => by simp at h
  | value :: reads, n, h => by
    unfold clear_loop
    simp only []
    split
    · rename_i hc
      simp only [Bool.and_eq_true, Bool.not_eq_true', decide_eq_true_eq] at hc
      obtain ⟨m, rfl⟩ : ∃ m, n = m + 1 := by
        rcases n with _ | m
        · exact absurd rfl hc.2
        · exact ⟨m, rfl⟩
      have hm : ((m + 1 : Nat) : Int) - 1 = (m : Int) := by push_cast; ring
      rw [hm]
      obtain ⟨r, hr⟩ := clear_loop_returns reads m (by simp at h; omega)
      rw [hr]
      exact ⟨_, rfl⟩
    · exact ⟨_, rfl⟩

/-- C23: with `enableMCP = 0` and a status register that shows the error bits
`0xf900` at every read, `_BSP_clear_hostbridge_errors` returns after 11 clear
sequences, one more than the 10 of its message, and prints
`Unable to clear PCI errors`. -/
theorem clear_hostbridge_errors_eleven_sequences : ∃ trace rval,
    _BSP_clear_hostbridge_errors 4294967295 0 0 (List.replicate 12 63744) =
      some (trace, rval) ∧
    clear_sequences trace = 11 ∧ PciEvent.printk_unable 63744 ∈ trace ∧
    rval = 63744 :=
  ⟨_, _, rfl, by decide, by decide, by decide⟩

/-! ## The affinity table in the reachable states -/

/-- C24: on an SMP build, in every state reached from topology discovery by
calls of the vector control operations, every entry of the affinity table is
`NULL` or the enable pointer of a processor below the processor maximum.  For a
valid external vector with an exclusive entry, `bsp_interrupt_get_affinity`
returns the caller's mask with that processor added, and
`bsp_interrupt_vector_is_enabled` reports true when the bit of the source is set
in the enable block the entry points to. -/
theorem affinity_table_resolves (P : Platform) (hP : Consistent P)
    (hsmp : P.RTEMS_SMP = true) (s : State) (hs : Reachable P s) :
    (∀ k, s.riscv_plic_irq_to_cpu k = none ∨
      ∃ c e, c < P.processor_maximum ∧ (s.cpu c).plic_m_ie = some e ∧
        s.riscv_plic_irq_to_cpu k = some e) ∧
    ∀ vector e, bsp_interrupt_is_valid_vector P vector = true →
      RISCV_INTERRUPT_VECTOR_IS_EXTERNAL P vector = true →
      s.riscv_plic_irq_to_cpu (RISCV_INTERRUPT_VECTOR_EXTERNAL_TO_INDEX P vector - 1) = some e →
      ∃ c, c < P.processor_maximum ∧ (s.cpu c).plic_m_ie = some e ∧
        (∀ prior, bsp_interrupt_get_affinity P s vector prior =
          .ok (.RTEMS_SUCCESSFUL, insert c prior)) ∧
        ∀ self,
          s.plic_enable (e + RISCV_INTERRUPT_VECTOR_EXTERNAL_TO_INDEX P vector / 32) &&&
            2 ^ (RISCV_INTERRUPT_VECTOR_EXTERNAL_TO_INDEX P vector % 32) ≠ 0 →
          bsp_interrupt_vector_is_enabled P self s vector = .ok (.RTEMS_SUCCESSFUL, true) := by
  obtain ⟨htable, _, hinj⟩ := reachable_inv P hP s hs
  constructor
  · intro k
    cases hk : s.riscv_plic_irq_to_cpu k with
    | none => exact Or.inl rfl
    | some e =>
      obtain ⟨c, hc, hce⟩ := htable k e hk
      exact Or.inr ⟨c, e, hc, hce, rfl⟩
  · intro vector e hvalid hext hentry
    obtain ⟨hidx, _, _, _, _⟩ := external_index P hP vector hvalid hext
    rw [hidx] at hentry
    obtain ⟨c, hc, hce⟩ := htable _ e hentry
    refine ⟨c, hc, hce, ?_, ?_⟩
    · intro prior
      simp only [bsp_interrupt_get_affinity, hext, if_true,
        irq_to_cpu_read_valid P hP _ vector hvalid hext, hentry]
      rw [get_affinity_loop_insert s e c prior (List.range P.processor_maximum)
        (List.mem_range.mpr hc) (fun c1 _ hc1 => hinj c1 c e hc1 hce) hce]
    · intro self hbit
      rw [is_enabled_external_smp P self s vector hsmp hvalid hext]
      have hloop := (is_enabled_loop_iff s
        (RISCV_INTERRUPT_VECTOR_EXTERNAL_TO_INDEX P vector / 32)
        (2 ^ (RISCV_INTERRUPT_VECTOR_EXTERNAL_TO_INDEX P vector % 32))
        (List.range P.processor_maximum)).mpr ⟨c, List.mem_range.mpr hc, e, hce, hbit⟩
      rw [hloop]

theorem affinity_table_resolves_witness :
    Reachable smp2 (boot_state smp2 fdt2) ∧
    (boot_state smp2 fdt2).riscv_plic_irq_to_cpu
      (RISCV_INTERRUPT_VECTOR_EXTERNAL_TO_INDEX smp2 3 - 1) = some 32 ∧
    ∃ c, c < smp2.processor_maximum ∧ ((boot_state smp2 fdt2).cpu c).plic_m_ie = some 32 ∧
      (∀ prior, bsp_interrupt_get_affinity smp2 (boot_state smp2 fdt2) 3 prior =
        .ok (.RTEMS_SUCCESSFUL, insert c prior)) ∧
      ∀ self,
        (boot_state smp2 fdt2).plic_enable
            (32 + RISCV_INTERRUPT_VECTOR_EXTERNAL_TO_INDEX smp2 3 / 32) &&&
          2 ^ (RISCV_INTERRUPT_VECTOR_EXTERNAL_TO_INDEX smp2 3 % 32) ≠ 0 →
        bsp_interrupt_vector_is_enabled smp2 self (boot_state smp2 fdt2) 3 =
          .ok (.RTEMS_SUCCESSFUL, true) :=
  ⟨boot_state_reachable fdt2 rfl, rfl,
   (affinity_table_resolves smp2 smp2_consistent rfl (boot_state smp2 fdt2)
      (boot_state_reachable fdt2 rfl)).2 3 32 (by decide) (by decide) rfl⟩

/-! ## The vectors of the sources that topology discovery configures -/

/-- The vector of a source index from 1 to below
`RISCV_MAXIMUM_EXTERNAL_INTERRUPTS` is valid. -/
theorem external_vector_valid (P : Platform) (hP : Consistent P) (i : Nat)
    (h1 : 1 ≤ i) (h2 : i < P.RISCV_MAXIMUM_EXTERNAL_INTERRUPTS) :
    bsp_interrupt_is_valid_vector P (RISCV_INTERRUPT_VECTOR_EXTERNAL P i) = true := by
  have hc := hP.count_eq
  have hl := hP.count_lt
  simp only [bsp_interrupt_is_valid_vector, RISCV_INTERRUPT_VECTOR_EXTERNAL, u32]
  rw [if_neg (by omega)]
  simp only [decide_eq_true_eq]
  omega

/-- The vector of the source index `RISCV_MAXIMUM_EXTERNAL_INTERRUPTS` is
`BSP_INTERRUPT_VECTOR_COUNT`, which is not valid. -/
theorem external_vector_maximum_invalid (P : Platform) (hP : Consistent P) :
    bsp_interrupt_is_valid_vector P
      (RISCV_INTERRUPT_VECTOR_EXTERNAL P P.RISCV_MAXIMUM_EXTERNAL_INTERRUPTS) = false := by
  have hc := hP.count_eq
  have hl := hP.count_lt
  simp only [bsp_interrupt_is_valid_vector, RISCV_INTERRUPT_VECTOR_EXTERNAL, u32]
  split
  · rfl
  · simp only [decide_eq_false_iff_not]
    omega

/-- C25: built for 128 external interrupts at most, with
`BSP_INTERRUPT_VECTOR_COUNT` the vector of source index 128, on a device tree
with `riscv,ndev` 128, `riscv_plic_init` returns and has set the priority of
source 128 and entry 127 of the affinity table, and
`bsp_interrupt_is_valid_vector` rejects the vector of source 128. -/
theorem plic_init_configures_invalid_vector :
    ∃ s : State,
      riscv_plic_init smp2 fdt2_ndev128 0 reset_state = .ok s ∧
      fdt32_to_cpu 0 0 0 128 = smp2.RISCV_MAXIMUM_EXTERNAL_INTERRUPTS ∧
      smp2.BSP_INTERRUPT_VECTOR_COUNT =
        RISCV_INTERRUPT_VECTOR_EXTERNAL smp2 smp2.RISCV_MAXIMUM_EXTERNAL_INTERRUPTS ∧
      s.plic_priority 128 = 1 ∧
      s.riscv_plic_irq_to_cpu (128 - 1) = some 32 ∧
      (s.cpu 0).plic_m_ie = some 32 ∧
      bsp_interrupt_is_valid_vector smp2 (RISCV_INTERRUPT_VECTOR_EXTERNAL smp2 128) = false :=
  ⟨_, rfl, by decide, by decide, rfl, rfl, rfl, by decide⟩

/-! ## Enabling and disabling an external vector writes one bit -/

theorem or_two_pow_and_two_pow (x k j : Nat) (h : j ≠ k) :
    (x ||| 2 ^ k) &&& 2 ^ j = x &&& 2 ^ j := by
  apply Nat.eq_of_testBit_eq
  intro i
  simp only [Nat.testBit_and, Nat.testBit_or, Nat.testBit_two_pow]
  by_cases hi : j = i
  · have hk : ¬ k = i := fun hki => h (hi.trans hki.symm)
    simp [hi, hk]
  · simp [hi]

theorem testBit_or_two_pow_of_ne (x k j : Nat) (h : j ≠ k) :
    (x ||| 2 ^ k).testBit j = x.testBit j := by
  have hk : ¬ k = j := fun hkj => h hkj.symm
  simp [Nat.testBit_or, Nat.testBit_two_pow, hk]

theorem testBit_and_not32_of_ne (x k j : Nat) (hk : k < 32) (hj : j < 32) (h : j ≠ k) :
    (x &&& not32 (2 ^ k)).testBit j = x.testBit j := by
  have hlt : 2 ^ k < 4294967296 := by
    have : 2 ^ k < 2 ^ 32 := Nat.pow_lt_pow_right (by norm_num) hk
    simpa using this
  have h1 : (4294967295 : Nat) = 2 ^ 32 - 1 := by norm_num
  have hkj : ¬ k = j := fun hkj => h hkj.symm
  simp only [not32, u32, Nat.mod_eq_of_lt hlt, Nat.testBit_and, Nat.testBit_xor, h1,
    Nat.testBit_two_pow_sub_one, Nat.testBit_two_pow]
  simp [hj, hkj]

theorem and_not32_and_two_pow (x k j : Nat) (hk : k < 32) (hj : j < 32) (h : j ≠ k) :
    (x &&& not32 (2 ^ k)) &&& 2 ^ j = x &&& 2 ^ j := by
  rw [Nat.and_two_pow, Nat.and_two_pow, testBit_and_not32_of_ne x k j hk hj h]

/-- The enable loop writes the enable array only. -/
theorem enable_loop_only_enable (group bit : Nat) :
    ∀ (cpus : List Nat) (s : State),
      enable_loop group bit cpus s =
        { s with plic_enable := (enable_loop group bit cpus s).plic_enable }
  | [], _ => rfl
  | c :: cpus, s => by
    unfold enable_loop
    cases h : (s.cpu c).plic_m_ie with
    | none => exact enable_loop_only_enable group bit cpus s
    | some e =>
      simp only []
      have ih := enable_loop_only_enable group bit cpus (set_enable_bit s e group bit)
      rw [ih]
      rfl

/-- The disable loop writes the enable array only. -/
theorem disable_loop_only_enable (group bit : Nat) :
    ∀ (cpus : List Nat) (s : State),
      disable_loop group bit cpus s =
        { s with plic_enable := (disable_loop group bit cpus s).plic_enable }
  | [], _ => rfl
  | c :: cpus, s => by
    unfold disable_loop
    cases h : (s.cpu c).plic_m_ie with
    | none => exact disable_loop_only_enable group bit cpus s
    | some e =>
      simp only []
      have ih := disable_loop_only_enable group bit cpus (clear_enable_bit s e group bit)
      rw [ih]
      rfl

theorem touched_of_cpu_eq (s s1 : State) (group : Nat) (cpus : List Nat) (a : Nat)
    (h : s1.cpu = s.cpu) : Touched s1 group cpus a ↔ Touched s group cpus a := by
  unfold Touched
  rw [h]

/-- Running the enable loop on its own result changes nothing. -/
theorem enable_loop_idempotent (group bit : Nat) (cpus : List Nat) (s : State) :
    enable_loop group bit cpus (enable_loop group bit cpus s) =
      enable_loop group bit cpus s := by
  have hcpu := (enable_loop_frame group bit cpus s).1
  have hwords : (enable_loop group bit cpus (enable_loop group bit cpus s)).plic_enable =
      (enable_loop group bit cpus s).plic_enable := by
    funext a
    have h2 := enable_loop_word group bit cpus (enable_loop group bit cpus s) a
    have h1 := enable_loop_word group bit cpus s a
    rw [touched_of_cpu_eq s _ group cpus a hcpu] at h2
    by_cases ht : Touched s group cpus a
    · rw [h2.1 ht, h1.1 ht]
      apply Nat.eq_of_testBit_eq
      intro i
      simp only [Nat.testBit_or]
      cases (s.plic_enable a).testBit i <;> cases bit.testBit i <;> rfl
    · rw [h2.2 ht]
  rw [enable_loop_only_enable group bit cpus (enable_loop group bit cpus s), hwords]

/-- Running the disable loop on its own result changes nothing. -/
theorem disable_loop_idempotent (group bit : Nat) (cpus : List Nat) (s : State) :
    disable_loop group bit cpus (disable_loop group bit cpus s) =
      disable_loop group bit cpus s := by
  have hcpu := (disable_loop_frame group bit cpus s).1
  have hwords : (disable_loop group bit cpus (disable_loop group bit cpus s)).plic_enable =
      (disable_loop group bit cpus s).plic_enable := by
    funext a
    have h2 := disable_loop_word group bit cpus (disable_loop group bit cpus s) a
    have h1 := disable_loop_word group bit cpus s a
    rw [touched_of_cpu_eq s _ group cpus a hcpu] at h2
    by_cases ht : Touched s group cpus a
    · rw [h2.1 ht, h1.1 ht]
      apply Nat.eq_of_testBit_eq
      intro i
      simp only [Nat.testBit_and]
      cases (s.plic_enable a).testBit i <;> cases (not32 bit).testBit i <;> rfl
    · rw [h2.2 ht]
  rw [disable_loop_only_enable group bit cpus (disable_loop group bit cpus s), hwords]

/-- In a state whose exclusive table entries resolve, the enable and disable
operations on a valid external vector are the enable and disable loops over a
list of processors below the processor maximum, and the list is the same for
every state with the same affinity table and processor pointers. -/
theorem external_as_loop (P : Platform) (hP : Consistent P) (s : State)
    (hres : TableResolves P s) (vector : Nat)
    (hvalid : bsp_interrupt_is_valid_vector P vector = true)
    (hext : RISCV_INTERRUPT_VECTOR_IS_EXTERNAL P vector = true) :
    ∃ cpus : List Nat, (∀ c ∈ cpus, c < P.processor_maximum) ∧
      ∀ (t : State) (self : Nat), t.riscv_plic_irq_to_cpu = s.riscv_plic_irq_to_cpu →
        t.cpu = s.cpu →
        bsp_interrupt_vector_enable P self t vector = .ok (.RTEMS_SUCCESSFUL,
          enable_loop (RISCV_INTERRUPT_VECTOR_EXTERNAL_TO_INDEX P vector / 32)
            (2 ^ (RISCV_INTERRUPT_VECTOR_EXTERNAL_TO_INDEX P vector % 32)) cpus t) ∧
        bsp_interrupt_vector_disable P self t vector = .ok (.RTEMS_SUCCESSFUL,
          disable_loop (RISCV_INTERRUPT_VECTOR_EXTERNAL_TO_INDEX P vector / 32)
            (2 ^ (RISCV_INTERRUPT_VECTOR_EXTERNAL_TO_INDEX P vector % 32)) cpus t) := by
  cases hentry : s.riscv_plic_irq_to_cpu (vector - P.ext_base - 1) with
  | some e =>
    obtain ⟨c, hc, hce⟩ := hres _ e hentry
    refine ⟨[c], fun c1 hc1 => by rw [List.mem_singleton.mp hc1]; exact hc, ?_⟩
    intro t self htable hcpu
    have hread : irq_to_cpu_read P t (RISCV_INTERRUPT_VECTOR_EXTERNAL_TO_INDEX P vector) =
        .ok (some e) := by
      rw [irq_to_cpu_read_valid P hP t vector hvalid hext, htable, hentry]
    have htc : (t.cpu c).plic_m_ie = some e := by rw [hcpu]; exact hce
    rw [enable_exclusive P self t vector e hvalid hext hread,
      disable_exclusive P self t vector e hvalid hext hread]
    simp [enable_loop, disable_loop, htc]
  | none =>
    by_cases hsmp : P.RTEMS_SMP = true
    · refine ⟨List.range P.processor_maximum, fun c hc => List.mem_range.mp hc, ?_⟩
      intro t self htable _
      have hread : irq_to_cpu_read P t (RISCV_INTERRUPT_VECTOR_EXTERNAL_TO_INDEX P vector) =
          .ok none := by
        rw [irq_to_cpu_read_valid P hP t vector hvalid hext, htable, hentry]
      rw [enable_broadcast P self t vector hvalid hext hread,
        disable_broadcast P self t vector hvalid hext hread]
      simp [hsmp]
    · refine ⟨[0], fun c hc => by
        rw [List.mem_singleton.mp hc]; exact hP.processor_maximum_pos, ?_⟩
      intro t self htable _
      have hread : irq_to_cpu_read P t (RISCV_INTERRUPT_VECTOR_EXTERNAL_TO_INDEX P vector) =
          .ok none := by
        rw [irq_to_cpu_read_valid P hP t vector hvalid hext, htable, hentry]
      rw [enable_broadcast P self t vector hvalid hext hread,
        disable_broadcast P self t vector hvalid hext hread]
      simp only [hsmp, if_false]
      simp only [enable_loop, disable_loop]
      cases (t.cpu 0).plic_m_ie <;> exact ⟨rfl, rfl⟩

/-- The answer of `bsp_interrupt_vector_is_enabled` depends on the state
through the processor pointers, the `mie` registers and, for an external
vector, the bit of its source in the attached enable blocks. -/
theorem is_enabled_congr (P : Platform) (self : Nat) (s t : State) (vector : Nat)
    (hcpu : t.cpu = s.cpu) (hmie : t.mie = s.mie)
    (hbits : RISCV_INTERRUPT_VECTOR_IS_EXTERNAL P vector = true →
      ∀ c e, (s.cpu c).plic_m_ie = some e →
        t.plic_enable (e + RISCV_INTERRUPT_VECTOR_EXTERNAL_TO_INDEX P vector / 32) &&&
            2 ^ (RISCV_INTERRUPT_VECTOR_EXTERNAL_TO_INDEX P vector % 32) =
          s.plic_enable (e + RISCV_INTERRUPT_VECTOR_EXTERNAL_TO_INDEX P vector / 32) &&&
            2 ^ (RISCV_INTERRUPT_VECTOR_EXTERNAL_TO_INDEX P vector % 32)) :
    bsp_interrupt_vector_is_enabled P self t vector =
      bsp_interrupt_vector_is_enabled P self s vector := by
  have hloop : RISCV_INTERRUPT_VECTOR_IS_EXTERNAL P vector = true →
      ∀ cpus : List Nat,
      is_enabled_loop t (RISCV_INTERRUPT_VECTOR_EXTERNAL_TO_INDEX P vector / 32)
        (2 ^ (RISCV_INTERRUPT_VECTOR_EXTERNAL_TO_INDEX P vector % 32)) cpus =
      is_enabled_loop s (RISCV_INTERRUPT_VECTOR_EXTERNAL_TO_INDEX P vector / 32)
        (2 ^ (RISCV_INTERRUPT_VECTOR_EXTERNAL_TO_INDEX P vector % 32)) cpus := by
    intro hext cpus
    induction cpus with
    | nil => rfl
    | cons c cpus ih =>
      unfold is_enabled_loop
      rw [hcpu]
      cases hc : (s.cpu c).plic_m_ie with
      | none => exact ih
      | some e =>
        simp only []
        rw [hbits hext c e hc, ih]
  unfold bsp_interrupt_vector_is_enabled
  rw [hmie, hcpu]
  cases hext : RISCV_INTERRUPT_VECTOR_IS_EXTERNAL P vector with
  | false => rfl
  | true =>
    simp only [hloop hext]
    cases hc : (s.cpu 0).plic_m_ie with
    | none => rfl
    | some e => simp only [hbits hext 0 e hc]

theorem block_word_inj (W k1 k2 g1 g2 : Nat) (h1 : g1 < W) (h2 : g2 < W)
    (h : W * k1 + g1 = W * k2 + g2) : g1 = g2 := by
  have e1 : (W * k1 + g1) % W = g1 := by
    rw [Nat.mul_add_mod, Nat.mod_eq_of_lt h1]
  have e2 : (W * k2 + g2) % W = g2 := by
    rw [Nat.mul_add_mod, Nat.mod_eq_of_lt h2]
  rw [← e1, ← e2, h]

/-- C26: in a reachable state, for a valid external vector with source index
`i`, `bsp_interrupt_vector_enable` and `bsp_interrupt_vector_disable` return
`RTEMS_SUCCESSFUL` with a state that differs from the one before in the enable
array only, so that the priority, pending and claim/complete registers and the
affinity table are kept; in the enable array every word that is not word
`i / 32` of the enable block of a processor is kept, and in every word every
bit of the 32 other than bit `i % 32` is kept; what
`bsp_interrupt_vector_is_enabled` returns for any other valid vector is kept;
and the same call on the state returned gives that state again. -/
theorem enable_disable_one_bit (P : Platform) (hP : Consistent P) (s : State)
    (hs : Reachable P s) (self vector : Nat)
    (hvalid : bsp_interrupt_is_valid_vector P vector = true)
    (hext : RISCV_INTERRUPT_VECTOR_IS_EXTERNAL P vector = true) :
    ∃ s1 s2,
      bsp_interrupt_vector_enable P self s vector = .ok (.RTEMS_SUCCESSFUL, s1) ∧
      bsp_interrupt_vector_disable P self s vector = .ok (.RTEMS_SUCCESSFUL, s2) ∧
      s1 = { s with plic_enable := s1.plic_enable } ∧
      s2 = { s with plic_enable := s2.plic_enable } ∧
      (∀ a, (∀ c e, c < P.processor_maximum → (s.cpu c).plic_m_ie = some e →
          a ≠ e + RISCV_INTERRUPT_VECTOR_EXTERNAL_TO_INDEX P vector / 32) →
        s1.plic_enable a = s.plic_enable a ∧ s2.plic_enable a = s.plic_enable a) ∧
      (∀ a j, j < 32 → j ≠ RISCV_INTERRUPT_VECTOR_EXTERNAL_TO_INDEX P vector % 32 →
        (s1.plic_enable a).testBit j = (s.plic_enable a).testBit j ∧
        (s2.plic_enable a).testBit j = (s.plic_enable a).testBit j) ∧
      (∀ other who, bsp_interrupt_is_valid_vector P other = true → other ≠ vector →
        bsp_interrupt_vector_is_enabled P who s1 other =
          bsp_interrupt_vector_is_enabled P who s other ∧
        bsp_interrupt_vector_is_enabled P who s2 other =
          bsp_interrupt_vector_is_enabled P who s other) ∧
      bsp_interrupt_vector_enable P self s1 vector = .ok (.RTEMS_SUCCESSFUL, s1) ∧
      bsp_interrupt_vector_disable P self s2 vector = .ok (.RTEMS_SUCCESSFUL, s2) := by
  obtain ⟨hres, hblock, _⟩ := reachable_inv P hP s hs
  obtain ⟨cpus, hlt, hloop⟩ := external_as_loop P hP s hres vector hvalid hext
  obtain ⟨hidx, _, himax, _, _⟩ := external_index P hP vector hvalid hext
  have hmax := hP.maximum_le
  have hge : P.ext_base ≤ vector := by
    simpa [RISCV_INTERRUPT_VECTOR_IS_EXTERNAL] using hext
  generalize hg : RISCV_INTERRUPT_VECTOR_EXTERNAL_TO_INDEX P vector / 32 = g at hloop ⊢
  generalize hk : RISCV_INTERRUPT_VECTOR_EXTERNAL_TO_INDEX P vector % 32 = k at hloop ⊢
  have hk32 : k < 32 := by rw [← hk]; exact Nat.mod_lt _ (by norm_num)
  have hgW : g < P.enable_words := by
    rw [← hg, hidx]
    omega
  have hfe := enable_loop_frame g (2 ^ k) cpus s
  have hfd := disable_loop_frame g (2 ^ k) cpus s
  have huntouched : ∀ a, (∀ c e, c < P.processor_maximum → (s.cpu c).plic_m_ie = some e →
      a ≠ e + g) → ¬ Touched s g cpus a := by
    rintro a ha ⟨c, hc, e, he, hea⟩
    exact ha c e (hlt c hc) he hea.symm
  refine ⟨enable_loop g (2 ^ k) cpus s, disable_loop g (2 ^ k) cpus s,
    (hloop s self rfl rfl).1, (hloop s self rfl rfl).2,
    enable_loop_only_enable g (2 ^ k) cpus s, disable_loop_only_enable g (2 ^ k) cpus s,
    ?_, ?_, ?_, ?_, ?_⟩
  · intro a ha
    exact ⟨(enable_loop_word g (2 ^ k) cpus s a).2 (huntouched a ha),
      (disable_loop_word g (2 ^ k) cpus s a).2 (huntouched a ha)⟩
  · intro a j hj hjk
    by_cases ht : Touched s g cpus a
    · rw [(enable_loop_word g (2 ^ k) cpus s a).1 ht,
        (disable_loop_word g (2 ^ k) cpus s a).1 ht]
      exact ⟨testBit_or_two_pow_of_ne _ k j hjk, testBit_and_not32_of_ne _ k j hk32 hj hjk⟩
    · rw [(enable_loop_word g (2 ^ k) cpus s a).2 ht,
        (disable_loop_word g (2 ^ k) cpus s a).2 ht]
      exact ⟨rfl, rfl⟩
  · intro other who hovalid hne
    have hbits : RISCV_INTERRUPT_VECTOR_IS_EXTERNAL P other = true →
        ∀ c e, (s.cpu c).plic_m_ie = some e →
          ((enable_loop g (2 ^ k) cpus s).plic_enable
              (e + RISCV_INTERRUPT_VECTOR_EXTERNAL_TO_INDEX P other / 32) &&&
              2 ^ (RISCV_INTERRUPT_VECTOR_EXTERNAL_TO_INDEX P other % 32) =
            s.plic_enable (e + RISCV_INTERRUPT_VECTOR_EXTERNAL_TO_INDEX P other / 32) &&&
              2 ^ (RISCV_INTERRUPT_VECTOR_EXTERNAL_TO_INDEX P other % 32)) ∧
          ((disable_loop g (2 ^ k) cpus s).plic_enable
              (e + RISCV_INTERRUPT_VECTOR_EXTERNAL_TO_INDEX P other / 32) &&&
              2 ^ (RISCV_INTERRUPT_VECTOR_EXTERNAL_TO_INDEX P other % 32) =
            s.plic_enable (e + RISCV_INTERRUPT_VECTOR_EXTERNAL_TO_INDEX P other / 32) &&&
              2 ^ (RISCV_INTERRUPT_VECTOR_EXTERNAL_TO_INDEX P other % 32)) := by
      intro hoext c e hce
      obtain ⟨hoidx, _, homax, _, _⟩ := external_index P hP other hovalid hoext
      have hoge : P.ext_base ≤ other := by
        simpa [RISCV_INTERRUPT_VECTOR_IS_EXTERNAL] using hoext
      have ho32 : RISCV_INTERRUPT_VECTOR_EXTERNAL_TO_INDEX P other % 32 < 32 :=
        Nat.mod_lt _ (by norm_num)
      by_cases ht : Touched s g cpus
          (e + RISCV_INTERRUPT_VECTOR_EXTERNAL_TO_INDEX P other / 32)
      · have hjk : RISCV_INTERRUPT_VECTOR_EXTERNAL_TO_INDEX P other % 32 ≠ k := by
          obtain ⟨c2, _, e2, he2, hea⟩ := ht
          obtain ⟨k1, hk1⟩ := hblock c e hce
          obtain ⟨k2, hk2⟩ := hblock c2 e2 he2
          have hoW : RISCV_INTERRUPT_VECTOR_EXTERNAL_TO_INDEX P other / 32 <
              P.enable_words := by
            rw [hoidx]
            omega
          rw [hk1, hk2] at hea
          have hgg := block_word_inj P.enable_words k2 k1 g _ hgW hoW hea
          rw [← hg, ← hk, hidx, hoidx] at *
          omega
        rw [(enable_loop_word g (2 ^ k) cpus s _).1 ht,
          (disable_loop_word g (2 ^ k) cpus s _).1 ht]
        exact ⟨or_two_pow_and_two_pow _ k _ hjk, and_not32_and_two_pow _ k _ hk32 ho32 hjk⟩
      · rw [(enable_loop_word g (2 ^ k) cpus s _).2 ht,
          (disable_loop_word g (2 ^ k) cpus s _).2 ht]
        exact ⟨rfl, rfl⟩
    exact ⟨is_enabled_congr P who s _ other hfe.1 hfe.2.2
        (fun hoext c e hce => (hbits hoext c e hce).1),
      is_enabled_congr P who s _ other hfd.1 hfd.2.2
        (fun hoext c e hce => (hbits hoext c e hce).2)⟩
  · rw [(hloop _ self hfe.2.1 hfe.1).1, enable_loop_idempotent]
  · rw [(hloop _ self hfd.2.1 hfd.1).2, disable_loop_idempotent]

theorem enable_disable_one_bit_witness :
    Reachable smp2 (boot_state smp2 fdt2) ∧
    bsp_interrupt_is_valid_vector smp2 3 = true ∧
    RISCV_INTERRUPT_VECTOR_IS_EXTERNAL smp2 3 = true ∧
    ∃ s1 s2,
      bsp_interrupt_vector_enable smp2 0 (boot_state smp2 fdt2) 3 =
        .ok (.RTEMS_SUCCESSFUL, s1) ∧
      bsp_interrupt_vector_disable smp2 0 (boot_state smp2 fdt2) 3 =
        .ok (.RTEMS_SUCCESSFUL, s2) ∧
      (∀ a j, j < 32 → j ≠ RISCV_INTERRUPT_VECTOR_EXTERNAL_TO_INDEX smp2 3 % 32 →
        (s1.plic_enable a).testBit j = ((boot_state smp2 fdt2).plic_enable a).testBit j ∧
        (s2.plic_enable a).testBit j = ((boot_state smp2 fdt2).plic_enable a).testBit j) ∧
      bsp_interrupt_vector_enable smp2 0 s1 3 = .ok (.RTEMS_SUCCESSFUL, s1) ∧
      bsp_interrupt_vector_disable smp2 0 s2 3 = .ok (.RTEMS_SUCCESSFUL, s2) := by
  refine ⟨boot_state_reachable fdt2 rfl, by decide, by decide, ?_⟩
  obtain ⟨s1, s2, h1, h2, _, _, _, h6, _, h8, h9⟩ :=
    enable_disable_one_bit smp2 smp2_consistent (boot_state smp2 fdt2)
      (boot_state_reachable fdt2 rfl) 0 3 (by decide) (by decide)
  exact ⟨s1, s2, h1, h2, h6, h8, h9⟩

end RiscvIrq
